import Mathlib

/-!
Game of Fifteen (`fifteen.c`)

A shallow embedding of the board logic of `fifteen.c`: the functions `init`,
`move` and `won` over the global storage `int board[DIM_MAX][DIM_MAX]` and the
global dimension `int d`.

* The storage is a total function from `int` row and column indices to `int`
  values.  Indices inside `[0, 9) x [0, 9)` are the declared array; any other
  index stands for whatever memory a C read at that index lands on, so every
  statement below holds for all possible contents of that memory.
* The dimension `d` is a natural number (`main` rejects anything outside
  `[DIM_MIN, DIM_MAX]` before the board is touched).
* A `for` loop over `0 <= i < d` is a left fold over `List.range d`; a loop
  with an early `return` is a recursion over the remaining indices.
-/

namespace Fifteen

/-- The constant `DIM_MIN` (`#define DIM_MIN 3`). -/
def DIM_MIN : Nat := 3

/-- The constant `DIM_MAX` (`#define DIM_MAX 9`). -/
def DIM_MAX : Nat := 9

/-- The storage `int board[DIM_MAX][DIM_MAX]`, read at `int` indices. -/
abbrev Board := Int → Int → Int

/-- The assignment `board[i][j] = v`. -/
def Board.set (b : Board) (i j v : Int) : Board :=
  fun r c => if r = i ∧ c = j then v else b r c

/-- Inner loop of `init`: `board[i][j] = size--` for `j = 0 .. d-1`.
The state is the storage together with the counter `size`. -/
def initRow (d : Nat) (i : Nat) (st : Board × Int) : Board × Int :=
  (List.range d).foldl (fun (s : Board × Int) (j : Nat) => (s.1.set i j s.2, s.2 - 1)) st

/-- Both loops of `init`, starting from `size = d*d - 1`. -/
def initFill (d : Nat) (b : Board) : Board × Int :=
  (List.range d).foldl (fun (s : Board × Int) (i : Nat) => initRow d i s) (b, (d : Int) * d - 1)

/-- The function `void init(void)`: descending fill, then the writes of 1 and 2 into the
bottom row when `d*d` is even. -/
def init (d : Nat) (b : Board) : Board :=
  let b1 := (initFill d b).1
  if ((d : Int) * d) % 2 = 0 then
    (b1.set ((d : Int) - 1) ((d : Int) - 3) 1).set ((d : Int) - 1) ((d : Int) - 2) 2
  else b1

/-- Inner search loop of `move` for row `i`: every match overwrites `(row, column)`. -/
def findRow (d : Nat) (b : Board) (tile : Int) (i : Nat) (rc : Int × Int) : Int × Int :=
  (List.range d).foldl
    (fun (s : Int × Int) (j : Nat) => if b i j = tile then ((i : Int), (j : Int)) else s) rc

/-- The search loops of `move`, starting from `row = 0`, `column = 0`. -/
def findTile (d : Nat) (b : Board) (tile : Int) : Int × Int :=
  (List.range d).foldl (fun (s : Int × Int) (i : Nat) => findRow d b tile i s) (0, 0)

/-- The function `bool move(int tile)`: the returned boolean and the storage after the
call.  A condition `board[..][..] == 0 && bound` reads the cell first, as the C code does;
the value read outside the grid never decides the branch because the bound fails. -/
def move (d : Nat) (b : Board) (tile : Int) : Bool × Board :=
  if tile > (d : Int) * d - 1 ∨ tile < 1 then (false, b)
  else
    let row := (findTile d b tile).1
    let column := (findTile d b tile).2
    if b (row - 1) column = 0 ∧ row - 1 ≥ 0 then
      (true, (b.set (row - 1) column (b row column)).set row column 0)
    else if b (row + 1) column = 0 ∧ row + 1 < d then
      (true, (b.set (row + 1) column (b row column)).set row column 0)
    else if b row (column - 1) = 0 ∧ column - 1 ≥ 0 then
      (true, (b.set row (column - 1) (b row column)).set row column 0)
    else if b row (column + 1) = 0 ∧ column + 1 < d then
      (true, (b.set row (column + 1) (b row column)).set row column 0)
    else (false, b)

/-- Inner loop of `won` for row `i` over the remaining columns: `none` is the
early `return false`, `some check` the counter after the row. -/
def wonRow (d : Nat) (b : Board) (i : Nat) : List Nat → Int → Option Int
  | [], check => some check
  | j :: js, check =>
    if b i j ≠ check + 1 ∧ (d : Int) * d ≠ check + 1 then none
    else wonRow d b i js (check + 1)

/-- Outer loop of `won` over the remaining rows. -/
def wonRows (d : Nat) (b : Board) : List Nat → Int → Option Int
  | [], check => some check
  | i :: is, check =>
    match wonRow d b i (List.range d) check with
    | none => none
    | some check1 => wonRows d b is check1

/-- The function `bool won(void)`, with `check` starting at 0. -/
def won (d : Nat) (b : Board) : Bool :=
  (wonRows d b (List.range d) 0).isSome

/-- A storage given by its rows: cells outside the listed ones read as `-1`. -/
def ofRows (rows : List (List Int)) : Board :=
  fun r c => if r < 0 ∨ c < 0 then -1 else (rows.getD r.toNat []).getD c.toNat (-1)

/-- The top-left `d x d` cells of a storage, row by row. -/
def toRows (d : Nat) (b : Board) : List (List Int) :=
  (List.range d).map fun (i : Nat) => (List.range d).map fun (j : Nat) => b i j

/-- Orthogonal adjacency of the cells `(r, c)` and `(r0, c0)`: same column and
rows differing by one, or same row and columns differing by one. -/
def Adjacent (r c r0 c0 : Nat) : Prop :=
  (c = c0 ∧ (r = r0 + 1 ∨ r0 = r + 1)) ∨ (r = r0 ∧ (c = c0 + 1 ∨ c0 = c + 1))

instance (r c r0 c0 : Nat) : Decidable (Adjacent r c r0 c0) := by
  unfold Adjacent; infer_instance

/-- The board invariant: each of the values `0, 1, ..., d*d-1` is held by
exactly one cell of the top-left `d x d` grid. -/
def Valid (d : Nat) (b : Board) : Prop :=
  ∀ v : Nat, v < d * d →
    ∃ i : Nat, i < d ∧ ∃ j : Nat, j < d ∧ b i j = v ∧
      ∀ i1 : Nat, i1 < d → ∀ j1 : Nat, j1 < d → b i1 j1 = v → i1 = i ∧ j1 = j

instance (d : Nat) (b : Board) : Decidable (Valid d b) := by
  unfold Valid; infer_instance

/-- The storage after calling `move` on each tile of a list in turn. -/
def play (d : Nat) (b : Board) (tiles : List Int) : Board :=
  tiles.foldl (fun (s : Board) (t : Int) => (move d s t).2) b

/-! ### A checker for solutions

The definitions below are not part of `fifteen.c`.  They replay a list of tile
labels on a copy of the grid packed into one natural number (cell `k` of the
row-major order is digit `k` in base 128), following the empty cell instead of
searching for the tile, and are proved to agree with `move` on boards that
satisfy the invariant. -/

/-- The number whose base-128 digits, least significant first, are the list. -/
def pack : List Nat → Nat
  | [] => 0
  | x :: xs => x + 128 * pack xs

/-- Digit `k` in base 128. -/
def digit (g k : Nat) : Nat :=
  g / 128 ^ k % 128

/-- The grid of a storage in row-major order, as natural numbers. -/
def gridNat (d : Nat) (b : Board) : List Nat :=
  (List.range (d * d)).map fun (k : Nat) => (b ((k / d : Nat) : Int) ((k % d : Nat) : Int)).toNat

/-- One move replayed on a packed grid with the empty cell at `(r0, c0)`: the
tile must sit on one of the four neighbours `(r, c)` of the empty cell; it is
then written into the empty cell and `(r, c)` is cleared. -/
def slide (d t g r0 c0 : Nat) : Option (Nat × Nat × Nat) :=
  if t = 0 ∨ d * d ≤ t then none
  else if 1 ≤ r0 ∧ digit g ((r0 - 1) * d + c0) = t then
    some (g + t * 128 ^ (r0 * d + c0) - t * 128 ^ ((r0 - 1) * d + c0), r0 - 1, c0)
  else if r0 + 1 < d ∧ digit g ((r0 + 1) * d + c0) = t then
    some (g + t * 128 ^ (r0 * d + c0) - t * 128 ^ ((r0 + 1) * d + c0), r0 + 1, c0)
  else if 1 ≤ c0 ∧ digit g (r0 * d + (c0 - 1)) = t then
    some (g + t * 128 ^ (r0 * d + c0) - t * 128 ^ (r0 * d + (c0 - 1)), r0, c0 - 1)
  else if c0 + 1 < d ∧ digit g (r0 * d + (c0 + 1)) = t then
    some (g + t * 128 ^ (r0 * d + c0) - t * 128 ^ (r0 * d + (c0 + 1)), r0, c0 + 1)
  else none

/-- Continue with a natural number after evaluating it. -/
def force {α : Type} (x : Nat) (k : Nat → α) : α :=
  match x with
  | 0 => k 0
  | n + 1 => k (n + 1)

/-- A list of moves replayed in turn; `none` as soon as one of them is illegal. -/
def slideAll (d : Nat) : List Nat → Nat → Nat → Nat → Option (Nat × Nat × Nat)
  | [], g, r0, c0 => some (g, r0, c0)
  | t :: ts, g, r0, c0 =>
    match slide d t g r0 c0 with
    | none => none
    | some s =>
      force s.1 fun g1 => force s.2.1 fun r1 => force s.2.2 fun c1 => slideAll d ts g1 r1 c1

/-- The winning configuration `1, 2, ..., d*d-1, 0` in row-major order. -/
def solvedGrid (d : Nat) : List Nat :=
  (List.range (d * d)).map fun (k : Nat) => if k + 1 = d * d then 0 else k + 1

/-- The moves are all legal from the packed grid `g` with the empty cell at
`(r0, c0)` and end on the winning configuration. -/
def solves (d g r0 c0 : Nat) (tiles : List Nat) : Bool :=
  match force g fun g1 => slideAll d tiles g1 r0 c0 with
  | none => false
  | some s => decide (s.1 = pack (solvedGrid d))

/-- A list of natural numbers is the row-major reading of the grid of a storage. -/
def Rep (d : Nat) (l : List Nat) (b : Board) : Prop :=
  l.length = d * d ∧ (∀ k : Nat, l.getD k 0 < 128) ∧
    ∀ r : Nat, r < d → ∀ c : Nat, c < d → ((l.getD (r * d + c) 0 : Nat) : Int) = b r c


/-- A solution of the initial 3 x 3 board, as the tile labels to move (30 moves). -/
def solutionThree : List Nat :=
  ([3, 4, 7, 8, 5, 2, 1, 7, 8, 5, 2, 1, 7, 8, 5, 6, 4, 3, 8, 5, 6, 4, 3, 6, 4, 2, 1, 4, 5, 8] : List Nat)

/-- A solution of the initial 4 x 4 board, as the tile labels to move (102 moves). -/
def solutionFour : List Nat :=
  ([4, 5, 6, 1, 3, 7, 11, 10, 1, 11, 10, 1, 14, 15, 1, 10, 11, 6, 2, 3, 6, 14, 9, 2, 14, 9, 2,
       13, 15, 2, 9, 14, 3, 4, 5, 3, 4, 6, 14, 9, 13, 4, 3, 8, 12, 15, 4, 3, 8, 12, 15, 4, 3, 8,
       6, 5, 12, 6, 5, 14, 9, 5, 8, 13, 5, 11, 10, 5, 11, 10, 7, 9, 10, 8, 13, 11, 8, 13, 14, 10,
       13, 7, 9, 13, 10, 14, 6, 15, 11, 8, 7, 6, 15, 11, 8, 7, 6, 10, 14, 15, 11, 12] : List Nat)

/-- A solution of the initial 5 x 5 board, as the tile labels to move (212 moves). -/
def solutionFive : List Nat :=
  ([5, 6, 1, 2, 7, 1, 11, 12, 1, 8, 13, 1, 17, 18, 1, 14, 19, 1, 23, 24, 1, 19, 9, 13, 8, 11,
       2, 7, 11, 17, 12, 2, 17, 12, 2, 16, 18, 2, 14, 23, 2, 22, 24, 2, 23, 8, 3, 4, 13, 9, 8, 3,
       12, 14, 3, 23, 22, 3, 16, 18, 21, 24, 3, 16, 14, 11, 4, 12, 11, 4, 7, 17, 6, 5, 17, 6, 5,
       10, 18, 5, 4, 14, 16, 21, 5, 4, 10, 18, 15, 20, 24, 5, 4, 15, 20, 24, 5, 4, 15, 10, 6, 7,
       14, 6, 10, 16, 6, 11, 23, 6, 21, 22, 6, 8, 19, 6, 8, 23, 11, 21] : List Nat)
    ++ ([23, 11, 9, 19, 11, 9, 21, 10, 16, 23, 10, 16, 7, 14, 12, 13, 19, 21, 16, 12, 13, 19, 21,
       16, 12, 7, 23, 10, 7, 12, 9, 7, 22, 8, 7, 9, 12, 22, 9, 12, 22, 23, 18, 20, 24, 15, 10, 9,
       23, 18, 20, 24, 15, 10, 9, 20, 14, 17, 24, 14, 17, 13, 18, 17, 13, 18, 19, 22, 17, 23, 20,
       13, 18, 19, 23, 18, 14, 15, 13, 20, 18, 14, 20, 13, 15, 20, 14, 18, 13, 14, 19, 24] : List Nat)

/-- A solution of the initial 6 x 6 board, as the tile labels to move (464 moves). -/
def solutionSix : List Nat :=
  ([6, 7, 8, 1, 3, 9, 15, 14, 1, 15, 14, 1, 20, 21, 1, 16, 22, 1, 27, 28, 1, 23, 29, 1, 34,
       35, 1, 29, 17, 11, 10, 14, 15, 8, 2, 3, 8, 20, 13, 2, 20, 13, 2, 19, 21, 2, 16, 27, 2, 26,
       28, 2, 23, 34, 2, 33, 35, 2, 34, 22, 14, 15, 13, 20, 3, 8, 20, 16, 19, 3, 16, 19, 26, 21,
       3, 26, 21, 3, 25, 28, 3, 23, 33, 3, 32, 35, 3, 33, 27, 13, 15, 4, 5, 10, 11, 14, 4, 15,
       13, 4, 22, 27, 4, 21, 23, 4, 33, 32, 4, 25, 28, 31, 35, 4, 25, 23, 19, 20, 9, 5] : List Nat)
    ++ ([15, 13, 5, 9, 20, 5, 21, 19, 5, 16, 7, 6, 8, 7, 26, 12, 6, 26, 12, 6, 18, 28, 6, 5, 23,
       25, 31, 6, 5, 18, 28, 24, 30, 35, 6, 5, 24, 30, 35, 6, 5, 24, 18, 12, 7, 20, 16, 7, 12,
       23, 7, 21, 19, 7, 25, 33, 7, 22, 27, 7, 32, 34, 7, 17, 29, 7, 17, 27, 13, 11, 14, 13, 27,
       29, 13, 14, 11, 19, 22, 27, 19, 11, 14, 19, 11, 22, 21, 25, 33, 31, 34, 32, 31, 33, 27,
       31, 29, 11, 22, 21, 31, 22, 21, 31, 25, 16, 9, 15, 10, 14, 31, 25, 15, 10, 14, 31, 25, 14,
       10, 9] : List Nat)
    ++ ([20, 8, 26, 12, 8, 20, 16, 8, 23, 27, 8, 15, 22, 8, 33, 29, 8, 21, 11, 8, 32, 17, 8, 11,
       14, 22, 9, 10, 22, 14, 21, 9, 14, 21, 11, 32, 9, 33, 29, 34, 17, 9, 33, 14, 10, 22, 21,
       11, 14, 10, 15, 29, 10, 33, 34, 10, 27, 18, 24, 17, 10, 27, 18, 28, 12, 23, 29, 15, 11,
       14, 33, 11, 15, 18, 11, 34, 27, 24, 30, 12, 28, 11, 24, 30, 12, 35, 17, 12, 11, 28, 35,
       17, 12, 11, 28, 24, 34, 33, 14, 15, 33, 27, 32, 14, 15, 21, 22, 16, 20, 29, 18, 20, 16,
       33, 20, 34, 27, 20, 21, 15] : List Nat)
    ++ ([20, 32, 30, 27, 34, 16, 29, 26, 23, 18, 26, 29, 16, 21, 32, 34, 21, 26, 29, 16, 33, 22,
       15, 32, 26, 33, 22, 15, 32, 26, 15, 22, 33, 21, 34, 15, 21, 34, 27, 30, 15, 21, 34, 29,
       16, 33, 29, 27, 24, 16, 27, 24, 16, 28, 30, 16, 28, 35, 18, 27, 35, 30, 17, 18, 30, 35,
       33, 29, 24, 33, 27, 23, 29, 24, 22, 34, 33, 27, 24, 22, 34, 33, 27, 24, 35, 30, 23, 35,
       22, 29, 35, 23, 30, 22, 24, 28, 22, 24, 23, 30, 24, 23, 29, 35] : List Nat)

/-- A solution of the initial 7 x 7 board, as the tile labels to move (852 moves). -/
def solutionSeven : List Nat :=
  ([7, 8, 1, 2, 9, 1, 15, 16, 1, 10, 17, 1, 23, 24, 1, 18, 25, 1, 31, 32, 1, 26, 33, 1, 39,
       40, 1, 34, 41, 1, 47, 48, 1, 41, 27, 20, 13, 12, 11, 17, 10, 15, 2, 9, 15, 23, 16, 2, 23,
       16, 2, 22, 24, 2, 18, 31, 2, 30, 32, 2, 26, 39, 2, 38, 40, 2, 34, 47, 2, 46, 48, 2, 47,
       33, 19, 11, 17, 10, 3, 4, 10, 25, 31, 3, 25, 31, 39, 26, 3, 39, 26, 34, 38, 3, 34, 38, 46,
       40, 3, 46, 40, 3, 45, 48, 3, 40, 38, 26, 31, 25, 4, 10, 25, 31, 39, 4, 31, 39, 26, 34] : List Nat)
    ++ ([4, 26, 34, 38, 46, 4, 38, 46, 40, 45, 4, 32, 37, 44, 48, 4, 32, 38, 26, 31, 39, 17, 5, 6,
       12, 13, 11, 5, 17, 34, 5, 19, 46, 5, 31, 26, 5, 40, 38, 5, 30, 37, 5, 32, 44, 5, 29, 36,
       43, 48, 5, 29, 37, 18, 16, 15, 10, 25, 6, 17, 34, 6, 25, 39, 6, 31, 26, 6, 15, 23, 8, 7,
       9, 8, 7, 14, 22, 7, 23, 16, 6, 30, 18, 24, 7, 6, 24, 37, 36, 7, 6, 24, 37, 36, 29, 43, 7,
       6, 21, 28, 35, 42, 48, 7, 6, 35, 42, 48, 7, 6, 35, 21, 24, 23, 8, 10, 16, 8, 23, 37] : List Nat)
    ++ ([8, 15, 30, 8, 36, 18, 8, 26, 40, 8, 32, 38, 8, 46, 33, 8, 45, 47, 8, 27, 41, 8, 27, 33,
       19, 34, 31, 30, 15, 36, 26, 15, 30, 40, 15, 32, 46, 15, 34, 19, 15, 45, 33, 15, 20, 41,
       15, 20, 19, 34, 32, 26, 37, 22, 28, 24, 22, 37, 18, 22, 21, 29, 38, 46, 22, 38, 46, 33,
       45, 22, 33, 45, 20, 19, 22, 32, 34, 11, 41, 22, 19, 20, 45, 46, 29, 35, 43, 44, 46, 29,
       38, 33, 29, 45, 32, 29, 26, 34, 29, 19, 11, 29, 40, 31, 13, 41, 29, 11, 20, 32, 45, 38,
       35, 43, 44, 35, 43, 21, 33, 43] : List Nat)
    ++ ([38, 26, 43, 18, 34, 43, 19, 40, 43, 30, 36, 16, 39, 25, 31, 43, 11, 13, 43, 36, 25, 31,
       17, 12, 41, 43, 36, 17, 12, 41, 43, 36, 41, 12, 31, 39, 10, 9, 14, 23, 9, 10, 16, 9, 37,
       34, 9, 25, 30, 9, 18, 19, 9, 11, 40, 9, 26, 45, 9, 20, 32, 9, 47, 27, 9, 32, 13, 41, 17,
       30, 25, 37, 10, 16, 37, 18, 34, 10, 18, 34, 10, 33, 19, 10, 11, 26, 10, 38, 45, 10, 20,
       47, 10, 46, 27, 10, 47, 20, 38, 11, 26, 38, 46, 45, 11, 46, 45, 11, 35, 27, 11, 45, 38,
       25, 30, 17, 12, 31, 17, 12] : List Nat)
    ++ ([41, 40, 12, 30, 25, 12, 20, 38, 12, 26, 46, 12, 45, 35, 12, 19, 21, 44, 27, 12, 19, 45,
       38, 13, 40, 20, 13, 38, 26, 13, 30, 25, 34, 18, 23, 14, 16, 23, 14, 28, 33, 14, 18, 46,
       13, 26, 45, 21, 14, 13, 21, 19, 44, 14, 13, 33, 24, 42, 48, 27, 14, 13, 42, 48, 27, 14,
       13, 42, 33, 18, 23, 16, 28, 23, 16, 37, 46, 16, 18, 21, 16, 34, 26, 16, 19, 45, 16, 30,
       38, 16, 35, 47, 16, 40, 32, 16, 40, 38, 25, 26, 34, 18, 23, 24, 21, 23, 18, 19, 23, 33,
       45, 23, 30, 35, 23, 44, 47, 40, 38, 23] : List Nat)
    ++ ([35, 25, 20, 32, 23, 20, 25, 30, 44, 35, 20, 25, 30, 34, 26, 41, 32, 30, 34, 44, 19, 46,
       37, 18, 46, 37, 39, 26, 44, 34, 41, 44, 37, 39, 26, 17, 31, 32, 44, 37, 17, 31, 32, 44,
       37, 41, 34, 17, 41, 34, 25, 20, 17, 25, 20, 17, 40, 38, 17, 20, 34, 41, 39, 46, 18, 26,
       46, 19, 33, 18, 19, 33, 18, 45, 35, 18, 25, 40, 18, 47, 38, 18, 40, 25, 45, 19, 33, 45,
       47, 35, 19, 47, 35, 19, 42, 38, 19, 40, 20, 34, 25, 20, 40, 35, 20, 40, 35, 42, 48, 21,
       47, 20, 42, 48, 21, 27, 38, 21, 20, 47] : List Nat)
    ++ ([27, 38, 21, 20, 47, 33, 24, 27, 33, 24, 45, 42, 24, 47, 48, 24, 40, 35, 24, 40, 35, 25,
       34, 24, 25, 39, 31, 32, 41, 31, 39, 34, 31, 39, 42, 45, 47, 33, 38, 48, 33, 38, 27, 47,
       38, 35, 34, 42, 45, 38, 26, 46, 32, 41, 39, 45, 38, 32, 41, 39, 45, 38, 42, 34, 35, 26,
       32, 35, 26, 33, 40, 26, 35, 32, 47, 28, 46, 47, 33, 40, 48, 27, 28, 33, 40, 48, 27, 28,
       48, 35, 32, 42, 34, 32, 42, 41, 47, 46, 33, 40, 41, 47, 46, 41, 47, 34, 39, 46, 41, 47,
       40, 33, 47, 40, 33, 48, 35, 33, 34, 42] : List Nat)
    ++ ([33, 34, 42, 41, 40, 47, 48, 42, 41, 40, 47, 48] : List Nat)

/-- A solution of the initial 8 x 8 board, as the tile labels to move (1276 moves). -/
def solutionEight : List Nat :=
  ([8, 9, 10, 1, 3, 11, 19, 18, 1, 19, 18, 1, 26, 27, 1, 20, 28, 1, 35, 36, 1, 29, 37, 1, 44,
       45, 1, 38, 46, 1, 53, 54, 1, 47, 55, 1, 62, 63, 1, 55, 39, 31, 23, 15, 14, 13, 12, 18, 19,
       10, 2, 3, 10, 26, 17, 2, 26, 17, 2, 25, 27, 2, 20, 35, 2, 34, 36, 2, 29, 44, 2, 43, 45, 2,
       38, 53, 2, 52, 54, 2, 47, 62, 2, 61, 63, 2, 62, 46, 30, 22, 13, 12, 18, 19, 17, 26, 3, 10,
       26, 20, 25, 3, 20, 25, 34, 27, 3, 34, 27, 3, 33, 36, 3, 29, 43, 3, 42, 45, 3, 38] : List Nat)
    ++ ([52, 3, 51, 54, 3, 47, 61, 3, 60, 63, 3, 61, 53, 37, 21, 18, 19, 4, 5, 19, 18, 28, 4, 18,
       28, 21, 44, 4, 21, 44, 37, 52, 4, 37, 52, 53, 47, 4, 53, 47, 61, 60, 4, 51, 54, 59, 63, 4,
       51, 53, 37, 21, 18, 5, 19, 28, 44, 18, 5, 44, 18, 52, 21, 5, 52, 21, 47, 37, 5, 47, 37,
       61, 53, 5, 38, 54, 5, 51, 59, 5, 45, 50, 58, 63, 5, 45, 54, 43, 35, 17, 44, 18, 12, 6, 7,
       14, 15, 13, 6, 12, 21, 6, 22, 37, 6, 52, 47, 6, 61, 38, 6, 35, 43, 6, 51, 54, 6, 42, 50, 6] : List Nat)
    ++ ([45, 58, 6, 41, 49, 57, 63, 6, 41, 50, 29, 27, 25, 26, 10, 8, 9, 20, 8, 10, 11, 19, 28, 7,
       12, 21, 7, 28, 18, 7, 52, 47, 7, 44, 17, 7, 35, 43, 7, 25, 34, 8, 26, 34, 27, 7, 42, 29,
       7, 33, 8, 16, 24, 32, 36, 8, 32, 36, 40, 49, 8, 7, 50, 41, 57, 8, 7, 40, 49, 48, 56, 63,
       8, 7, 48, 56, 63, 8, 7, 48, 40, 32, 16, 26, 10, 9, 20, 10, 9, 11, 34, 9, 26, 27, 9, 17,
       25, 9, 33, 42, 9, 35, 43, 9, 29, 51, 9, 61, 38, 9, 54, 53, 9, 30, 46, 9, 60, 62, 9, 39] : List Nat)
    ++ ([55, 9, 39, 46, 37, 22, 21, 52, 44, 25, 17, 33, 35, 17, 25, 43, 17, 29, 61, 17, 47, 38, 17,
       54, 30, 17, 22, 37, 17, 60, 46, 17, 31, 55, 17, 31, 37, 21, 52, 44, 43, 25, 29, 47, 25,
       43, 38, 25, 54, 22, 25, 52, 21, 25, 60, 37, 25, 23, 55, 25, 23, 21, 44, 38, 43, 29, 33,
       35, 47, 33, 29, 54, 33, 61, 22, 33, 52, 60, 33, 30, 37, 23, 21, 33, 60, 44, 13, 55, 33,
       21, 31, 46, 53, 45, 41, 50, 51, 41, 45, 37, 41, 22, 30, 41, 23, 60, 41, 52, 44, 41, 21,
       13, 41, 43, 38, 15, 55, 41, 13, 31] : List Nat)
    ++ ([46, 53, 37, 45, 50, 57, 48, 40, 32, 49, 36, 16, 49, 51, 57, 50, 22, 57, 42, 49, 27, 47,
       49, 30, 57, 23, 52, 57, 61, 49, 35, 29, 49, 44, 57, 21, 43, 57, 54, 49, 19, 18, 28, 38,
       57, 13, 15, 57, 49, 28, 38, 12, 14, 55, 57, 49, 12, 14, 55, 57, 49, 12, 28, 19, 29, 26,
       10, 24, 47, 10, 26, 35, 10, 27, 30, 10, 44, 61, 10, 42, 23, 10, 21, 52, 10, 22, 45, 10,
       60, 37, 10, 59, 62, 10, 53, 39, 10, 53, 37, 43, 13, 28, 19, 29, 35, 26, 11, 34, 26, 44,
       27, 11, 44, 27, 11, 30, 42, 11, 61, 21] : List Nat)
    ++ ([11, 23, 22, 11, 52, 60, 11, 45, 59, 11, 43, 37, 11, 62, 53, 11, 37, 13, 28, 15, 12, 19,
       15, 28, 31, 12, 28, 31, 12, 46, 13, 12, 60, 43, 12, 37, 62, 12, 45, 59, 58, 53, 12, 45,
       37, 13, 39, 62, 13, 37, 45, 13, 37, 45, 59, 58, 13, 59, 58, 22, 50, 48, 53, 13, 22, 52,
       21, 35, 29, 15, 14, 55, 19, 28, 31, 14, 15, 54, 14, 60, 43, 14, 35, 21, 14, 58, 52, 14,
       23, 50, 14, 22, 48, 14, 51, 32, 40, 53, 14, 51, 50, 61, 27, 29, 54, 15, 60, 35, 15, 54,
       21, 15, 58, 23, 15, 27, 61, 15, 22, 50] : List Nat)
    ++ ([15, 42, 32, 36, 16, 32, 36, 40, 56, 16, 40, 15, 51, 56, 16, 63, 53, 16, 15, 40, 63, 53,
       16, 15, 40, 36, 30, 44, 29, 21, 18, 38, 54, 58, 27, 18, 58, 27, 18, 22, 23, 18, 35, 43,
       18, 52, 45, 18, 46, 39, 18, 37, 62, 18, 39, 31, 28, 19, 55, 54, 38, 26, 21, 58, 26, 38,
       27, 26, 22, 35, 26, 60, 43, 26, 52, 46, 26, 28, 31, 26, 37, 39, 26, 31, 19, 55, 54, 27,
       38, 21, 34, 29, 58, 34, 21, 22, 34, 61, 35, 34, 60, 52, 34, 23, 46, 34, 28, 37, 34, 28,
       37, 19, 31, 34, 28, 46, 42, 51, 50, 45] : List Nat)
    ++ ([46, 42, 23, 37, 42, 28, 19, 42, 52, 43, 55, 31, 42, 19, 28, 23, 51, 50, 45, 51, 50, 35,
       61, 58, 44, 61, 37, 60, 58, 37, 60, 50, 23, 52, 43, 58, 50, 43, 19, 55, 58, 50, 22, 38,
       27, 54, 31, 58, 50, 27, 54, 31, 58, 50, 55, 28, 52, 19, 28, 52, 39, 46, 19, 39, 46, 19,
       59, 62, 19, 46, 52, 55, 27, 22, 37, 44, 24, 20, 29, 24, 20, 47, 61, 20, 44, 60, 20, 30,
       35, 20, 43, 23, 20, 45, 51, 20, 39, 59, 20, 48, 62, 20, 59, 28, 22, 37, 60, 21, 38, 60,
       23, 43, 21, 23, 43, 39, 45, 21, 39, 45] : List Nat)
    ++ ([48, 51, 21, 48, 51, 21, 56, 62, 21, 51, 45, 22, 28, 45, 22, 39, 48, 22, 51, 56, 22, 35,
       36, 40, 62, 22, 35, 48, 23, 44, 24, 29, 47, 61, 30, 24, 61, 30, 32, 36, 24, 23, 48, 35,
       40, 24, 23, 32, 36, 63, 53, 62, 24, 23, 63, 53, 62, 24, 23, 63, 32, 48, 39, 28, 55, 27,
       37, 55, 45, 52, 27, 45, 52, 59, 46, 27, 59, 51, 35, 40, 56, 46, 51, 35, 28, 52, 45, 59,
       35, 45, 55, 43, 52, 55, 43, 37, 59, 43, 45, 51, 46, 28, 55, 45, 51, 55, 45, 52, 37, 51,
       52, 37, 60, 54, 31, 59, 51, 52, 55, 46] : List Nat)
    ++ ([28, 45, 37, 60, 44, 61, 29, 38, 61, 39, 48, 29, 39, 48, 29, 32, 40, 29, 60, 37, 29, 56,
       45, 29, 37, 60, 32, 36, 30, 39, 36, 30, 53, 40, 30, 32, 56, 30, 63, 45, 30, 56, 48, 61,
       54, 31, 52, 44, 31, 54, 61, 31, 60, 37, 56, 63, 32, 36, 31, 48, 36, 31, 39, 53, 40, 62,
       45, 32, 31, 40, 62, 45, 32, 31, 63, 36, 37, 56, 36, 37, 56, 55, 46, 36, 55, 46, 44, 52,
       54, 60, 48, 61, 60, 54, 52, 48, 54, 60, 61, 54, 48, 52, 60, 48, 46, 55, 37, 56, 54, 39,
       38, 61, 39, 54, 40, 38, 54, 40, 38, 63] : List Nat)
    ++ ([56, 38, 40, 39, 61, 54, 63, 40, 39, 63, 53, 62, 45, 56, 40, 39, 63, 53, 62, 45, 56, 40,
       39, 62, 45, 56, 62, 45, 53, 63, 45, 53, 63, 46, 55, 45, 46, 61, 48, 55, 61, 63, 53, 46,
       63, 53, 54, 48, 55, 61, 53, 63, 46, 62, 56, 47, 48, 54, 63, 55, 54, 63, 62, 56, 47, 48,
       63, 62, 56, 47, 48, 56, 55, 54, 62, 63] : List Nat)

/-- A solution of the initial 9 x 9 board, as the tile labels to move (2008 moves). -/
def solutionNine : List Nat :=
  ([9, 10, 1, 2, 11, 1, 19, 20, 1, 12, 21, 1, 29, 30, 1, 22, 31, 1, 39, 40, 1, 32, 41, 1, 49,
       50, 1, 42, 51, 1, 59, 60, 1, 52, 61, 1, 69, 70, 1, 62, 71, 1, 79, 80, 1, 71, 53, 44, 35,
       26, 17, 16, 15, 14, 13, 21, 12, 19, 2, 11, 19, 29, 20, 2, 29, 20, 2, 28, 30, 2, 22, 39, 2,
       38, 40, 2, 32, 49, 2, 48, 50, 2, 42, 59, 2, 58, 60, 2, 52, 69, 2, 68, 70, 2, 62, 79, 2,
       78, 80, 2, 79, 61, 43, 34, 25, 15, 14, 13, 21, 12, 3, 4, 12, 31, 39, 3, 31, 39, 49, 32] : List Nat)
    ++ ([3, 49, 32, 42, 48, 3, 42, 48, 58, 50, 3, 58, 50, 3, 57, 60, 3, 52, 68, 3, 67, 70, 3, 62,
       78, 3, 77, 80, 3, 78, 69, 51, 33, 24, 13, 21, 39, 31, 4, 12, 31, 32, 49, 4, 32, 49, 48,
       42, 4, 48, 42, 50, 58, 4, 50, 58, 52, 57, 4, 52, 57, 67, 60, 4, 67, 60, 4, 66, 70, 4, 62,
       77, 4, 76, 80, 4, 77, 68, 59, 41, 23, 39, 5, 6, 21, 13, 39, 5, 13, 39, 24, 23, 5, 24, 23,
       33, 41, 5, 33, 41, 51, 59, 5, 51, 59, 69, 68, 5, 60, 62, 5, 77, 76, 5, 66, 70, 75, 80, 5,
       66] : List Nat)
    ++ ([62, 57, 58, 42, 49, 13, 6, 21, 39, 23, 24, 6, 23, 24, 41, 33, 6, 41, 33, 59, 51, 6, 59,
       51, 69, 60, 6, 58, 57, 6, 77, 62, 6, 67, 70, 6, 66, 75, 6, 56, 65, 74, 80, 6, 56, 70, 52,
       50, 48, 32, 13, 23, 24, 14, 7, 8, 16, 17, 15, 7, 14, 33, 7, 25, 51, 7, 41, 59, 7, 69, 58,
       7, 42, 57, 7, 77, 67, 7, 50, 52, 7, 66, 70, 7, 47, 65, 7, 56, 74, 7, 55, 64, 73, 80, 7,
       55, 65, 40, 38, 22, 20, 29, 10, 9, 11, 10, 9, 18, 28, 9, 10, 19, 12, 31, 21, 39, 8, 14,
       33, 8] : List Nat)
    ++ ([39, 24, 8, 41, 59, 8, 23, 49, 8, 42, 57, 8, 32, 48, 8, 50, 52, 8, 22, 30, 9, 20, 30, 38,
       8, 47, 40, 8, 37, 9, 27, 36, 45, 46, 9, 45, 46, 54, 64, 9, 8, 65, 55, 73, 9, 8, 54, 64,
       63, 72, 80, 9, 8, 63, 72, 80, 9, 8, 63, 54, 45, 27, 20, 10, 29, 30, 10, 20, 38, 10, 48,
       22, 10, 37, 47, 10, 50, 52, 10, 40, 66, 10, 77, 67, 10, 70, 62, 10, 60, 68, 10, 76, 78,
       10, 61, 79, 10, 61, 79, 53, 71, 10, 53, 43, 34, 51, 25, 33, 14, 39, 24, 21, 31, 12, 19,
       29, 30, 19, 12, 13] : List Nat)
    ++ ([19, 48, 22, 19, 49, 32, 19, 50, 52, 19, 42, 57, 19, 77, 67, 19, 69, 58, 19, 60, 68, 19,
       51, 34, 19, 79, 43, 19, 44, 71, 19, 44, 34, 25, 33, 59, 57, 42, 50, 22, 20, 28, 36, 38,
       28, 20, 37, 28, 27, 47, 28, 52, 40, 28, 65, 66, 28, 67, 70, 28, 56, 62, 76, 68, 28, 76,
       68, 43, 79, 28, 43, 79, 44, 34, 28, 51, 25, 35, 71, 28, 35, 33, 59, 57, 42, 50, 22, 37,
       52, 40, 37, 22, 77, 37, 67, 70, 37, 69, 60, 37, 76, 43, 51, 25, 37, 51, 25, 35, 33, 37,
       58, 59, 26, 71, 37, 58, 51, 76, 70, 65] : List Nat)
    ++ ([47, 46, 64, 45, 66, 47, 46, 66, 47, 56, 65, 46, 56, 65, 43, 70, 46, 43, 70, 25, 76, 46,
       25, 76, 35, 51, 46, 60, 59, 46, 58, 26, 46, 42, 57, 15, 71, 46, 26, 33, 34, 44, 79, 68,
       62, 55, 65, 70, 55, 62, 76, 55, 43, 25, 55, 35, 60, 55, 69, 59, 55, 58, 42, 55, 50, 57,
       55, 26, 15, 55, 41, 14, 17, 71, 55, 15, 33, 34, 44, 79, 68, 76, 62, 65, 73, 63, 54, 47,
       66, 64, 45, 66, 70, 73, 65, 43, 73, 56, 64, 27, 40, 64, 25, 73, 35, 69, 73, 67, 64, 52,
       22, 64, 59, 73, 58, 50, 73, 77, 64, 49] : List Nat)
    ++ ([32, 64, 57, 73, 26, 41, 73, 23, 64, 31, 21, 24, 14, 73, 15, 17, 73, 64, 24, 14, 39, 16,
       71, 73, 64, 39, 16, 71, 73, 64, 71, 16, 14, 21, 13, 12, 29, 11, 18, 30, 11, 29, 48, 11,
       20, 22, 11, 32, 49, 11, 52, 59, 11, 57, 77, 11, 67, 58, 11, 26, 50, 11, 69, 60, 11, 42,
       51, 11, 76, 68, 11, 44, 79, 11, 61, 53, 11, 79, 34, 33, 17, 71, 39, 24, 31, 49, 12, 13,
       49, 77, 57, 12, 77, 57, 26, 67, 12, 26, 67, 69, 58, 12, 69, 58, 12, 35, 60, 12, 42, 76,
       12, 62, 68, 12, 44, 61, 12, 78, 53, 12] : List Nat)
    ++ ([61, 51, 41, 15, 24, 31, 57, 77, 13, 49, 77, 67, 26, 13, 67, 26, 58, 69, 13, 58, 69, 42,
       35, 13, 42, 35, 62, 60, 13, 62, 60, 13, 43, 68, 13, 44, 78, 13, 75, 53, 13, 78, 76, 50,
       23, 57, 31, 14, 16, 39, 71, 24, 14, 71, 24, 17, 15, 14, 17, 15, 33, 41, 14, 23, 50, 14,
       51, 76, 14, 60, 44, 14, 78, 75, 14, 43, 68, 74, 53, 14, 43, 44, 35, 69, 57, 17, 15, 33,
       23, 15, 17, 50, 15, 51, 60, 15, 69, 35, 15, 78, 44, 15, 62, 68, 15, 43, 74, 15, 56, 65,
       63, 53, 15, 56, 68, 42, 58, 67, 26, 31] : List Nat)
    ++ ([71, 16, 39, 24, 33, 17, 16, 71, 50, 16, 51, 69, 16, 57, 35, 16, 78, 62, 16, 58, 42, 16,
       43, 68, 16, 25, 65, 16, 56, 63, 16, 70, 47, 54, 53, 16, 70, 65, 59, 52, 32, 20, 30, 18,
       29, 30, 22, 36, 18, 22, 36, 18, 38, 40, 18, 32, 67, 35, 57, 51, 17, 23, 69, 17, 51, 78,
       17, 60, 62, 17, 58, 43, 17, 44, 68, 56, 25, 17, 56, 25, 65, 59, 27, 18, 52, 27, 17, 65,
       59, 47, 18, 17, 47, 70, 54, 18, 17, 45, 66, 72, 80, 53, 18, 17, 72, 80, 53, 18, 17, 72,
       45, 52, 32, 67, 20, 26, 35, 20, 27, 42] : List Nat)
    ++ ([20, 57, 43, 20, 65, 56, 20, 58, 44, 20, 25, 68, 20, 62, 76, 20, 75, 61, 20, 34, 79, 20,
       34, 76, 60, 51, 71, 39, 21, 77, 49, 48, 30, 29, 22, 36, 29, 30, 26, 29, 67, 27, 29, 35,
       57, 29, 42, 65, 29, 43, 58, 29, 56, 25, 29, 44, 62, 29, 68, 75, 29, 60, 76, 29, 60, 76,
       41, 79, 29, 41, 51, 71, 78, 58, 43, 42, 27, 38, 40, 32, 38, 27, 65, 38, 52, 47, 38, 56,
       25, 38, 70, 59, 75, 68, 38, 75, 68, 60, 76, 38, 60, 76, 41, 51, 38, 62, 71, 69, 79, 38,
       62, 60, 75, 70, 47, 45, 59, 68, 70, 47] : List Nat)
    ++ ([68, 70, 76, 75, 47, 76, 75, 41, 60, 47, 44, 71, 47, 62, 69, 47, 58, 78, 23, 79, 47, 58,
       71, 25, 56, 68, 76, 44, 25, 56, 44, 25, 62, 71, 56, 43, 78, 56, 58, 23, 56, 50, 39, 33,
       79, 56, 23, 69, 51, 60, 41, 74, 61, 41, 71, 62, 74, 71, 62, 58, 43, 74, 25, 44, 42, 65,
       35, 57, 65, 78, 74, 43, 50, 74, 31, 65, 48, 49, 77, 39, 74, 23, 33, 74, 65, 77, 39, 21,
       24, 79, 74, 65, 21, 24, 79, 74, 65, 33, 23, 21, 33, 23, 69, 50, 21, 69, 50, 51, 58, 21,
       51, 58, 60, 62, 21, 60, 62, 21, 41, 34] : List Nat)
    ++ ([21, 62, 58, 50, 23, 33, 77, 48, 57, 67, 36, 22, 30, 36, 22, 40, 27, 22, 67, 35, 22, 52,
       68, 22, 78, 42, 22, 76, 44, 22, 43, 25, 22, 75, 71, 22, 60, 41, 22, 61, 34, 22, 41, 51,
       50, 23, 69, 50, 23, 58, 51, 23, 25, 60, 23, 41, 61, 23, 75, 71, 63, 34, 23, 75, 60, 31,
       48, 77, 24, 79, 33, 69, 50, 24, 69, 50, 58, 25, 24, 48, 31, 24, 41, 60, 24, 43, 71, 24,
       75, 63, 24, 44, 70, 54, 34, 24, 44, 71, 43, 41, 25, 51, 60, 25, 41, 75, 25, 61, 63, 25,
       71, 44, 25, 71, 44, 70, 54, 25, 70, 54] : List Nat)
    ++ ([45, 59, 72, 34, 25, 45, 76, 78, 35, 26, 49, 57, 42, 35, 26, 67, 52, 27, 32, 68, 27, 26,
       78, 76, 59, 27, 26, 78, 76, 59, 45, 72, 27, 26, 68, 66, 80, 53, 34, 27, 26, 80, 53, 34,
       27, 26, 80, 68, 78, 52, 36, 30, 40, 36, 30, 49, 67, 30, 52, 76, 30, 42, 35, 30, 59, 43,
       30, 31, 75, 30, 54, 44, 30, 41, 61, 30, 71, 63, 30, 60, 62, 30, 60, 61, 48, 69, 77, 39,
       79, 77, 69, 75, 39, 69, 75, 39, 41, 48, 39, 58, 51, 39, 61, 62, 39, 61, 48, 41, 58, 51,
       61, 48, 51, 75, 77, 79, 57, 35, 69, 57] : List Nat)
    ++ ([79, 77, 57, 58, 75, 57, 50, 61, 57, 51, 41, 54, 43, 78, 66, 32, 76, 66, 78, 59, 66, 52,
       42, 66, 31, 69, 66, 67, 35, 79, 58, 75, 51, 50, 75, 66, 79, 58, 77, 33, 61, 75, 66, 77,
       33, 61, 75, 66, 50, 51, 69, 31, 59, 43, 31, 69, 54, 31, 44, 71, 31, 41, 62, 31, 63, 60,
       31, 62, 41, 44, 43, 78, 32, 53, 68, 32, 78, 45, 32, 80, 72, 32, 71, 70, 32, 71, 70, 63,
       60, 32, 63, 43, 69, 79, 77, 33, 61, 50, 51, 54, 33, 51, 54, 41, 44, 33, 79, 69, 33, 60,
       43, 33, 45, 70, 71, 63, 33, 71, 63, 72] : List Nat)
    ++ ([34, 68, 80, 63, 72, 34, 63, 78, 52, 42, 67, 35, 49, 67, 36, 76, 42, 36, 35, 59, 70, 52,
       36, 35, 59, 70, 52, 72, 78, 36, 35, 42, 53, 80, 68, 63, 36, 35, 80, 68, 63, 36, 35, 80,
       42, 59, 67, 40, 76, 67, 40, 49, 70, 40, 59, 52, 40, 77, 69, 40, 72, 45, 40, 79, 60, 40,
       71, 43, 40, 44, 62, 40, 44, 60, 51, 61, 58, 70, 49, 59, 77, 49, 70, 69, 49, 72, 79, 49,
       61, 51, 49, 71, 60, 49, 41, 62, 49, 41, 51, 58, 50, 54, 58, 51, 62, 58, 51, 61, 72, 77,
       67, 76, 59, 67, 76, 53, 52, 79, 77, 76] : List Nat)
    ++ ([67, 70, 69, 72, 76, 67, 79, 77, 71, 62, 61, 76, 67, 69, 72, 50, 54, 51, 76, 67, 50, 54,
       51, 76, 67, 61, 62, 60, 43, 44, 41, 43, 45, 42, 80, 78, 42, 45, 44, 42, 45, 44, 43, 62,
       60, 71, 44, 43, 71, 44, 77, 80, 78, 45, 43, 77, 44, 71, 77, 44, 80, 78, 44, 80, 78, 52,
       68, 63, 45, 44, 52, 78, 71, 50, 61, 60, 50, 77, 62, 50, 60, 51, 54, 72, 70, 59, 53, 79,
       59, 70, 69, 59, 78, 71, 59, 61, 77, 59, 61, 77, 51, 60, 59, 51, 77, 61, 71, 68, 79, 78,
       68, 71, 61, 68, 70, 69, 72, 54, 60, 77] : List Nat)
    ++ ([68, 72, 54, 60, 77, 68, 72, 61, 80, 62, 51, 80, 62, 52, 71, 70, 69, 54, 61, 69, 54, 53,
       78, 79, 70, 54, 53, 78, 79, 70, 63, 71, 54, 53, 70, 63, 71, 54, 53, 70, 69, 72, 60, 61,
       72, 62, 80, 60, 62, 69, 78, 72, 69, 62, 61, 69, 62, 78, 72, 62, 78, 61, 69, 78, 61, 72,
       62, 79, 63, 62, 72, 61, 79, 72, 70, 80, 61, 70, 80, 71, 62, 63, 72, 80, 71, 62, 63, 72] : List Nat)

/-- Two storages hold the same values in all cells `(i, j)` with `0 <= i, j < d`. -/
def SameGrid (d : Nat) (b b1 : Board) : Prop :=
  ∀ i : Nat, i < d → ∀ j : Nat, j < d → b i j = b1 i j

instance (d : Nat) (b b1 : Board) : Decidable (SameGrid d b b1) := by
  unfold SameGrid; infer_instance

/-! ### The array accesses of `move` -/

/-- The indices `(i, j)` read by the search loops of `move`, in order. -/
def searchReads (d : Nat) : List (Int × Int) :=
  (List.range d).foldl
    (fun (acc : List (Int × Int)) (i : Nat) =>
      acc ++ (List.range d).map fun (j : Nat) => ((i : Int), (j : Int))) []

/-- The function `move` together with the list of the index pairs `[i][j]` of
every element of `board` it reads or writes, in the order of the C code: the
search loops, then each condition `board[..][..] == 0 && bound` that is
evaluated (its left operand is the read), then the two assignments of the
branch taken (`board[row][column]` is read for the first of them). -/
def moveTraced (d : Nat) (b : Board) (tile : Int) : (Bool × Board) × List (Int × Int) :=
  if tile > (d : Int) * d - 1 ∨ tile < 1 then ((false, b), [])
  else
    let row := (findTile d b tile).1
    let column := (findTile d b tile).2
    let s := searchReads d
    if b (row - 1) column = 0 ∧ row - 1 ≥ 0 then
      ((true, (b.set (row - 1) column (b row column)).set row column 0),
        s ++ [(row - 1, column), (row, column), (row - 1, column), (row, column)])
    else if b (row + 1) column = 0 ∧ row + 1 < d then
      ((true, (b.set (row + 1) column (b row column)).set row column 0),
        s ++ [(row - 1, column), (row + 1, column),
          (row, column), (row + 1, column), (row, column)])
    else if b row (column - 1) = 0 ∧ column - 1 ≥ 0 then
      ((true, (b.set row (column - 1) (b row column)).set row column 0),
        s ++ [(row - 1, column), (row + 1, column), (row, column - 1),
          (row, column), (row, column - 1), (row, column)])
    else if b row (column + 1) = 0 ∧ column + 1 < d then
      ((true, (b.set row (column + 1) (b row column)).set row column 0),
        s ++ [(row - 1, column), (row + 1, column), (row, column - 1), (row, column + 1),
          (row, column), (row, column + 1), (row, column)])
    else
      ((false, b),
        s ++ [(row - 1, column), (row + 1, column), (row, column - 1), (row, column + 1)])

/-- An index pair addresses an element of `int board[DIM_MAX][DIM_MAX]`. -/
def InStorage (p : Int × Int) : Prop :=
  0 ≤ p.1 ∧ p.1 < (DIM_MAX : Int) ∧ 0 ≤ p.2 ∧ p.2 < (DIM_MAX : Int)

instance (p : Int × Int) : Decidable (InStorage p) := by
  unfold InStorage; infer_instance

/-! ### Variants of `move` with another order of the directional tests -/

/-- The four directions in which `move` looks for the empty cell. -/
inductive Dir where
  | above : Dir
  | below : Dir
  | left : Dir
  | right : Dir
  deriving DecidableEq

/-- The directional conditions of `move` at the located cell `(row, column)`. -/
def dirCond (d : Nat) (b : Board) (row column : Int) : Dir → Prop
  | Dir.above => b (row - 1) column = 0 ∧ row - 1 ≥ 0
  | Dir.below => b (row + 1) column = 0 ∧ row + 1 < d
  | Dir.left => b row (column - 1) = 0 ∧ column - 1 ≥ 0
  | Dir.right => b row (column + 1) = 0 ∧ column + 1 < d

instance (d : Nat) (b : Board) (row column : Int) (x : Dir) :
    Decidable (dirCond d b row column x) := by
  cases x <;> unfold dirCond <;> infer_instance

/-- The two assignments of the branch of `move` for a direction. -/
def dirSwap (b : Board) (row column : Int) : Dir → Board
  | Dir.above => (b.set (row - 1) column (b row column)).set row column 0
  | Dir.below => (b.set (row + 1) column (b row column)).set row column 0
  | Dir.left => (b.set row (column - 1) (b row column)).set row column 0
  | Dir.right => (b.set row (column + 1) (b row column)).set row column 0

/-- The `if / else if` chain of `move` with the directions tested in a given order. -/
def tryDirs (d : Nat) (b : Board) (row column : Int) : List Dir → Bool × Board
  | [] => (false, b)
  | x :: xs =>
    if dirCond d b row column x then (true, dirSwap b row column x)
    else tryDirs d b row column xs

/-- The variant of `move` that tests the four directions in a given order. -/
def moveOrder (d : Nat) (b : Board) (tile : Int) (order : List Dir) : Bool × Board :=
  if tile > (d : Int) * d - 1 ∨ tile < 1 then (false, b)
  else tryDirs d b (findTile d b tile).1 (findTile d b tile).2 order

/-! ### Counting the legal moves -/

/-- The tile labels `t` in `[1, d*d-1]` for which `move t` returns `true`. -/
def movableTiles (d : Nat) (b : Board) : List Nat :=
  (List.range (d * d)).filter fun (t : Nat) => decide (1 ≤ t) && (move d b (t : Int)).1

/-- The orthogonal neighbours of the cell `(r0, c0)` that lie inside the grid. -/
def neighbours (d r0 c0 : Nat) : List (Nat × Nat) :=
  (if 1 ≤ r0 then [(r0 - 1, c0)] else []) ++ (if r0 + 1 < d then [(r0 + 1, c0)] else [])
    ++ (if 1 ≤ c0 then [(r0, c0 - 1)] else []) ++ (if c0 + 1 < d then [(r0, c0 + 1)] else [])

/-! ### The parity of a board -/

/-- The grid of a storage read as a permutation of `0 .. d*d-1`: the cell with
row-major index `k` holds the value `σ k`. -/
def PermRep (d : Nat) (b : Board) (σ : Equiv.Perm (Fin (d * d))) : Prop :=
  ∀ k : Fin (d * d), b ((k.val / d : Nat) : Int) ((k.val % d : Nat) : Int) = (((σ k).val : Nat) : Int)

/-- The parity of a board: the sign of its permutation times the parity of the
row plus column of the empty cell. -/
def Parity (d : Nat) (b : Board) (s : ℤˣ) : Prop :=
  ∃ (σ : Equiv.Perm (Fin (d * d))) (z : Fin (d * d)),
    PermRep d b σ ∧ (σ z).val = 0 ∧ s = Equiv.Perm.sign σ * (-1) ^ (z.val / d + z.val % d)

/-! ## Storage updates -/

theorem set_same (b : Board) (i j v : Int) : (b.set i j v) i j = v := by
  simp [Board.set]

theorem set_other (b : Board) (i j v r c : Int) (h : ¬ (r = i ∧ c = j)) :
    (b.set i j v) r c = b r c := by
  simp [Board.set, h]

/-! ## The search loops of `move` -/

theorem findRow_fold (b : Board) (tile : Int) (i : Nat) (js : List Nat) (rc : Int × Int) :
    (js.foldl (fun (s : Int × Int) (j : Nat) => if b i j = tile then ((i : Int), (j : Int)) else s) rc = rc
        ∧ ∀ j ∈ js, b i j ≠ tile)
      ∨ ∃ j ∈ js, js.foldl (fun (s : Int × Int) (j : Nat) => if b i j = tile then ((i : Int), (j : Int)) else s) rc
          = ((i : Int), (j : Int)) ∧ b i j = tile := by
  induction js generalizing rc with
  | nil => left; simp
  | cons j js ih =>
    simp only [List.foldl_cons]
    rcases ih (if b i j = tile then ((i : Int), (j : Int)) else rc) with ⟨h1, h2⟩ | ⟨k, hk, h1, h2⟩
    · by_cases hj : b i j = tile
      · right
        refine ⟨j, List.mem_cons_self _ _, ?_, hj⟩
        rw [h1, if_pos hj]
      · left
        refine ⟨?_, ?_⟩
        · rw [h1, if_neg hj]
        · intro k hk
          rcases List.mem_cons.mp hk with rfl | hk
          · exact hj
          · exact h2 k hk
    · right
      exact ⟨k, List.mem_cons_of_mem _ hk, h1, h2⟩

theorem findRow_spec (d : Nat) (b : Board) (tile : Int) (i : Nat) (rc : Int × Int) :
    (findRow d b tile i rc = rc ∧ ∀ j : Nat, j < d → b i j ≠ tile)
      ∨ ∃ j : Nat, j < d ∧ findRow d b tile i rc = ((i : Int), (j : Int)) ∧ b i j = tile := by
  rcases findRow_fold b tile i (List.range d) rc with ⟨h1, h2⟩ | ⟨j, hj, h1, h2⟩
  · left
    exact ⟨h1, fun j hj => h2 j (List.mem_range.mpr hj)⟩
  · right
    exact ⟨j, List.mem_range.mp hj, h1, h2⟩

theorem findRows_fold (d : Nat) (b : Board) (tile : Int) (is : List Nat) (rc : Int × Int) :
    (is.foldl (fun (s : Int × Int) (i : Nat) => findRow d b tile i s) rc = rc
        ∧ ∀ i ∈ is, ∀ j : Nat, j < d → b i j ≠ tile)
      ∨ ∃ i ∈ is, ∃ j : Nat, j < d ∧
          is.foldl (fun (s : Int × Int) (i : Nat) => findRow d b tile i s) rc = ((i : Int), (j : Int))
            ∧ b i j = tile := by
  induction is generalizing rc with
  | nil => left; simp
  | cons i is ih =>
    simp only [List.foldl_cons]
    rcases ih (findRow d b tile i rc) with ⟨h1, h2⟩ | ⟨k, hk, j, hj, h1, h2⟩
    · rcases findRow_spec d b tile i rc with ⟨h3, h4⟩ | ⟨j, hj, h3, h4⟩
      · left
        refine ⟨by rw [h1, h3], ?_⟩
        intro k hk
        rcases List.mem_cons.mp hk with rfl | hk
        · exact h4
        · exact h2 k hk
      · right
        exact ⟨i, List.mem_cons_self _ _, j, hj, by rw [h1, h3], h4⟩
    · right
      exact ⟨k, List.mem_cons_of_mem _ hk, j, hj, h1, h2⟩

/-- When the tile is held by exactly one cell of the grid, the search ends on it. -/
theorem findTile_unique (d : Nat) (b : Board) (tile : Int) (r c : Nat)
    (hr : r < d) (hc : c < d) (hb : b r c = tile)
    (hu : ∀ i : Nat, i < d → ∀ j : Nat, j < d → b i j = tile → i = r ∧ j = c) :
    findTile d b tile = ((r : Int), (c : Int)) := by
  rcases findRows_fold d b tile (List.range d) (0, 0) with ⟨_, h2⟩ | ⟨i, hi, j, hj, h1, h2⟩
  · exact absurd hb (h2 r (List.mem_range.mpr hr) c hc)
  · obtain ⟨rfl, rfl⟩ := hu i (List.mem_range.mp hi) j hj h2
    exact h1

/-! ## One call of `move` on a board that satisfies the invariant -/

/-- On a valid board, with the tile at `(r, c)` and the empty cell at `(r0, c0)`:
`move` either swaps the two cells and returns `true` (adjacent cells), or
returns `false` and writes nothing (cells not adjacent). -/
theorem move_cases (d : Nat) (b : Board) (hv : Valid d b) (tile : Int)
    (h1 : 1 ≤ tile) (h2 : tile ≤ (d : Int) * d - 1) (r c r0 c0 : Nat)
    (hr : r < d) (hc : c < d) (hr0 : r0 < d) (hc0 : c0 < d)
    (ht : b r c = tile) (hz : b r0 c0 = 0) :
    (Adjacent r c r0 c0 ∧ move d b tile = (true, (b.set r0 c0 tile).set r c 0))
      ∨ (¬ Adjacent r c r0 c0 ∧ move d b tile = (false, b)) := by
  -- uniqueness of the cell holding the tile and of the empty cell
  have hut : ∀ i : Nat, i < d → ∀ j : Nat, j < d → b i j = tile → i = r ∧ j = c := by
    have hlt : tile.toNat < d * d := by
      have : ((d * d : Nat) : Int) = (d : Int) * d := by push_cast; ring
      omega
    obtain ⟨i0, hi0, j0, hj0, _, hu⟩ := hv tile.toNat hlt
    have hcast : ((tile.toNat : Nat) : Int) = tile := by omega
    rw [hcast] at hu
    intro i hi j hj hij
    obtain ⟨e1, e2⟩ := hu i hi j hj hij
    obtain ⟨e3, e4⟩ := hu r hr c hc ht
    exact ⟨by omega, by omega⟩
  have huz : ∀ i : Nat, i < d → ∀ j : Nat, j < d → b i j = 0 → i = r0 ∧ j = c0 := by
    have hlt : 0 < d * d := Nat.mul_pos (by omega) (by omega)
    obtain ⟨i0, hi0, j0, hj0, _, hu⟩ := hv 0 hlt
    simp only [Nat.cast_zero] at hu
    intro i hi j hj hij
    obtain ⟨e1, e2⟩ := hu i hi j hj hij
    obtain ⟨e3, e4⟩ := hu r0 hr0 c0 hc0 hz
    exact ⟨by omega, by omega⟩
  have hfind := findTile_unique d b tile r c hr hc ht hut
  have hrange : ¬ (tile > (d : Int) * d - 1 ∨ tile < 1) := by omega
  unfold move
  rw [if_neg hrange, hfind]
  simp only
  by_cases hup : b ((r : Int) - 1) c = 0 ∧ (r : Int) - 1 ≥ 0
  · left
    obtain ⟨hup1, hup2⟩ := hup
    have e : (r : Int) - 1 = ((r - 1 : Nat) : Int) := by omega
    rw [e] at hup1
    obtain ⟨e1, e2⟩ := huz (r - 1) (by omega) c hc hup1
    have e3 : (r : Int) - 1 = (r0 : Int) := by omega
    refine ⟨Or.inl ⟨e2, by omega⟩, ?_⟩
    rw [if_pos ⟨by rw [e]; exact hup1, hup2⟩, e3, e2, ← e2, ht]
  rw [if_neg hup]
  by_cases hdown : b ((r : Int) + 1) c = 0 ∧ (r : Int) + 1 < d
  · left
    obtain ⟨hd1, hd2⟩ := hdown
    have e : (r : Int) + 1 = ((r + 1 : Nat) : Int) := by omega
    rw [e] at hd1
    obtain ⟨e1, e2⟩ := huz (r + 1) (by omega) c hc hd1
    have e3 : (r : Int) + 1 = (r0 : Int) := by omega
    refine ⟨Or.inl ⟨e2, by omega⟩, ?_⟩
    rw [if_pos ⟨by rw [e]; exact hd1, hd2⟩, e3, e2, ← e2, ht]
  rw [if_neg hdown]
  by_cases hleft : b r ((c : Int) - 1) = 0 ∧ (c : Int) - 1 ≥ 0
  · left
    obtain ⟨hl1, hl2⟩ := hleft
    have e : (c : Int) - 1 = ((c - 1 : Nat) : Int) := by omega
    rw [e] at hl1
    obtain ⟨e1, e2⟩ := huz r hr (c - 1) (by omega) hl1
    have e3 : (c : Int) - 1 = (c0 : Int) := by omega
    refine ⟨Or.inr ⟨e1, by omega⟩, ?_⟩
    rw [if_pos ⟨by rw [e]; exact hl1, hl2⟩, e3, e1, ← e1, ht]
  rw [if_neg hleft]
  by_cases hright : b r ((c : Int) + 1) = 0 ∧ (c : Int) + 1 < d
  · left
    obtain ⟨hr1, hr2⟩ := hright
    have e : (c : Int) + 1 = ((c + 1 : Nat) : Int) := by omega
    rw [e] at hr1
    obtain ⟨e1, e2⟩ := huz r hr (c + 1) (by omega) hr1
    have e3 : (c : Int) + 1 = (c0 : Int) := by omega
    refine ⟨Or.inr ⟨e1, by omega⟩, ?_⟩
    rw [if_pos ⟨by rw [e]; exact hr1, hr2⟩, e3, e1, ← e1, ht]
  rw [if_neg hright]
  right
  refine ⟨?_, rfl⟩
  rintro (⟨e1, e2 | e2⟩ | ⟨e1, e2 | e2⟩)
  · apply hup
    have e : (r : Int) - 1 = (r0 : Int) := by omega
    rw [e, e1]
    exact ⟨hz, by omega⟩
  · apply hdown
    have e : (r : Int) + 1 = (r0 : Int) := by omega
    rw [e, e1]
    exact ⟨hz, by omega⟩
  · apply hleft
    have e : (c : Int) - 1 = (c0 : Int) := by omega
    rw [e, e1]
    exact ⟨hz, by omega⟩
  · apply hright
    have e : (c : Int) + 1 = (c0 : Int) := by omega
    rw [e, e1]
    exact ⟨hz, by omega⟩

/-! ## The fill loops of `init` -/

theorem initRow_fold (i : Nat) (n : Nat) (b : Board) (s : Int) :
    (List.range n).foldl (fun (s : Board × Int) (j : Nat) => (s.1.set i j s.2, s.2 - 1)) (b, s)
      = ((fun r c => if r = (i : Int) ∧ 0 ≤ c ∧ c < (n : Int) then s - c else b r c), s - n) := by
  induction n with
  | zero =>
    simp only [List.range_zero, List.foldl_nil, Nat.cast_zero, sub_zero]
    congr 1
    funext r c
    rw [if_neg (by omega)]
  | succ n ih =>
    rw [List.range_succ, List.foldl_append, ih]
    simp only [List.foldl_cons, List.foldl_nil]
    refine Prod.ext ?_ ?_
    · funext r c
      simp only [Board.set]
      by_cases h1 : r = (i : Int) ∧ c = (n : Int)
      · rw [if_pos h1, if_pos ⟨h1.1, by omega, by push_cast; omega⟩, h1.2]
      · rw [if_neg h1]
        by_cases h2 : r = (i : Int) ∧ 0 ≤ c ∧ c < (n : Int)
        · rw [if_pos h2, if_pos ⟨h2.1, h2.2.1, by push_cast; omega⟩]
        · rw [if_neg h2, if_neg]
          push_cast
          omega
    · simp only
      push_cast
      omega

theorem initRow_eq (d i : Nat) (b : Board) (s : Int) :
    initRow d i (b, s)
      = ((fun r c => if r = (i : Int) ∧ 0 ≤ c ∧ c < (d : Int) then s - c else b r c), s - d) :=
  initRow_fold i d b s

theorem initFill_fold (d n : Nat) (b : Board) (s : Int) :
    (List.range n).foldl (fun (s : Board × Int) (i : Nat) => initRow d i s) (b, s)
      = ((fun r c => if 0 ≤ r ∧ r < (n : Int) ∧ 0 ≤ c ∧ c < (d : Int)
                     then s - (r * d + c) else b r c), s - n * d) := by
  induction n with
  | zero =>
    simp only [List.range_zero, List.foldl_nil, Nat.cast_zero, zero_mul, sub_zero]
    congr 1
    funext r c
    rw [if_neg (by omega)]
  | succ n ih =>
    rw [List.range_succ, List.foldl_append, ih]
    simp only [List.foldl_cons, List.foldl_nil]
    rw [initRow_eq]
    refine Prod.ext ?_ ?_
    · funext r c
      simp only
      by_cases h1 : r = (n : Int) ∧ 0 ≤ c ∧ c < (d : Int)
      · rw [if_pos h1, if_pos ⟨by omega, by push_cast; omega, h1.2.1, h1.2.2⟩, h1.1]
        ring
      · rw [if_neg h1]
        by_cases h2 : 0 ≤ r ∧ r < (n : Int) ∧ 0 ≤ c ∧ c < (d : Int)
        · rw [if_pos h2, if_pos ⟨h2.1, by push_cast; omega, h2.2.2.1, h2.2.2.2⟩]
        · rw [if_neg h2, if_neg]
          push_cast
          omega
    · simp only
      push_cast
      ring

/-- After the two fill loops, cell `(i, j)` of the grid holds `d*d - 1 - (i*d + j)`
and every cell outside the grid is untouched. -/
theorem initFill_cell (d : Nat) (b : Board) (r c : Int) :
    (initFill d b).1 r c
      = if 0 ≤ r ∧ r < (d : Int) ∧ 0 ≤ c ∧ c < (d : Int)
        then (d : Int) * d - 1 - (r * d + c) else b r c := by
  unfold initFill
  rw [initFill_fold]

/-- The test `(d*d) % 2 == 0` of `init` holds exactly for even `d`. -/
theorem sq_even_iff (d : Nat) : ((d : Int) * d) % 2 = 0 ↔ d % 2 = 0 := by
  rcases Nat.even_or_odd d with ⟨k, hk⟩ | ⟨k, hk⟩
  · subst hk
    constructor
    · intro _; omega
    · intro _
      have : ((k + k : Nat) : Int) * ((k + k : Nat) : Int) = 2 * (2 * k * k) := by
        push_cast; ring
      omega
  · subst hk
    constructor
    · intro h
      have : ((2 * k + 1 : Nat) : Int) * ((2 * k + 1 : Nat) : Int)
          = 2 * (2 * k * k + 2 * k) + 1 := by
        push_cast; ring
      omega
    · intro h; omega

/-- The cells of the grid after `init`. -/
theorem init_cell (d : Nat) (hd : 3 ≤ d) (b : Board) (i j : Nat) (hi : i < d) (hj : j < d) :
    init d b i j
      = if d % 2 = 0 ∧ i = d - 1 ∧ j = d - 3 then 1
        else if d % 2 = 0 ∧ i = d - 1 ∧ j = d - 2 then 2
        else (d : Int) * d - 1 - ((i : Int) * d + j) := by
  unfold init
  by_cases he : d % 2 = 0
  · rw [if_pos ((sq_even_iff d).mpr he)]
    simp only [Board.set]
    by_cases h2 : i = d - 1 ∧ j = d - 2
    · rw [if_pos ⟨by omega, by omega⟩, if_neg (by omega), if_pos ⟨he, h2⟩]
    · rw [if_neg (by omega)]
      by_cases h1 : i = d - 1 ∧ j = d - 3
      · rw [if_pos ⟨by omega, by omega⟩, if_pos ⟨he, h1⟩]
      · rw [if_neg (by omega), if_neg (by tauto), if_neg (by tauto), initFill_cell,
          if_pos ⟨by omega, by omega, by omega, by omega⟩]
  · rw [if_neg (fun h => he ((sq_even_iff d).mp h)), if_neg (by tauto), if_neg (by tauto),
      initFill_cell, if_pos ⟨by omega, by omega, by omega, by omega⟩]

/-- Reading `init_cell` as an equation for the value held by a cell. -/
theorem init_cell_eq_iff (d : Nat) (hd : 3 ≤ d) (b : Board) (i j : Nat) (hi : i < d)
    (hj : j < d) (v : Nat) :
    init d b i j = (v : Int) ↔
      ((d % 2 = 0 ∧ i = d - 1 ∧ j = d - 3 ∧ v = 1)
        ∨ (d % 2 = 0 ∧ i = d - 1 ∧ j = d - 2 ∧ v = 2)
        ∨ (¬ (d % 2 = 0 ∧ i = d - 1 ∧ (j = d - 3 ∨ j = d - 2)) ∧ v + (i * d + j) + 1 = d * d)) := by
  have hlt : i * d + j + 1 ≤ d * d := by
    have h1 : (i + 1) * d ≤ d * d := Nat.mul_le_mul_right d (by omega)
    have h2 : (i + 1) * d = i * d + d := by ring
    omega
  have hc1 : ((i * d : Nat) : Int) = (i : Int) * d := by push_cast; ring
  have hc2 : ((d * d : Nat) : Int) = (d : Int) * d := by push_cast; ring
  rw [init_cell d hd b i j hi hj]
  by_cases h1 : d % 2 = 0 ∧ i = d - 1 ∧ j = d - 3
  · rw [if_pos h1]
    constructor
    · intro h; left; exact ⟨h1.1, h1.2.1, h1.2.2, by omega⟩
    · rintro (h | h | h)
      · omega
      · omega
      · exact absurd ⟨h1.1, h1.2.1, Or.inl h1.2.2⟩ h.1
  · rw [if_neg h1]
    by_cases h2 : d % 2 = 0 ∧ i = d - 1 ∧ j = d - 2
    · rw [if_pos h2]
      constructor
      · intro h; right; left; exact ⟨h2.1, h2.2.1, h2.2.2, by omega⟩
      · rintro (h | h | h)
        · omega
        · omega
        · exact absurd ⟨h2.1, h2.2.1, Or.inr h2.2.2⟩ h.1
    · rw [if_neg h2]
      constructor
      · intro h
        right; right
        refine ⟨?_, by omega⟩
        rintro ⟨e1, e2, e3 | e3⟩
        · exact h1 ⟨e1, e2, e3⟩
        · exact h2 ⟨e1, e2, e3⟩
      · rintro (h | h | h)
        · exact absurd ⟨h.1, h.2.1, h.2.2.1⟩ h1
        · exact absurd ⟨h.1, h.2.1, h.2.2.1⟩ h2
        · omega

/-- The board written by `init` satisfies the invariant. -/
theorem init_valid (d : Nat) (hd3 : 3 ≤ d) (hd9 : d ≤ 9) (b : Board) : Valid d (init d b) := by
  intro v hv
  have key := fun (i j : Nat) (hi : i < d) (hj : j < d) => init_cell_eq_iff d hd3 b i j hi hj v
  by_cases hs : d % 2 = 0 ∧ (v = 1 ∨ v = 2)
  · refine ⟨d - 1, by omega, d - 4 + v, by omega, ?_, ?_⟩
    · rw [key (d - 1) (d - 4 + v) (by omega) (by omega)]
      omega
    · intro i1 hi1 j1 hj1 h
      rw [key i1 j1 hi1 hj1] at h
      interval_cases d <;> omega
  · refine ⟨(d * d - 1 - v) / d, ?_, (d * d - 1 - v) % d, Nat.mod_lt _ (by omega), ?_, ?_⟩
    · interval_cases d <;> omega
    · rw [key _ _ (by interval_cases d <;> omega) (Nat.mod_lt _ (by omega))]
      interval_cases d <;> omega
    · intro i1 hi1 j1 hj1 h
      rw [key i1 j1 hi1 hj1] at h
      interval_cases d <;> omega

/-- Every cell of the grid written by `init` holds a value in `0 .. d*d-1`. -/
theorem init_cell_range (d : Nat) (hd3 : 3 ≤ d) (b : Board) (i j : Nat) (hi : i < d)
    (hj : j < d) : 0 ≤ init d b i j ∧ init d b i j ≤ (d : Int) * d - 1 := by
  have h1 : (i + 1) * d ≤ d * d := Nat.mul_le_mul_right d (by omega)
  have h2 : (i + 1) * d = i * d + d := by ring
  have h3 : 3 * d ≤ d * d := Nat.mul_le_mul_right d hd3
  have hc1 : ((i * d : Nat) : Int) = (i : Int) * d := by push_cast; ring
  have hc2 : ((d * d : Nat) : Int) = (d : Int) * d := by push_cast; ring
  rw [init_cell d hd3 b i j hi hj]
  split_ifs <;> omega

/-- The last cell of the grid written by `init` is the empty cell. -/
theorem init_last (d : Nat) (hd3 : 3 ≤ d) (b : Board) :
    init d b ((d - 1 : Nat) : Int) ((d - 1 : Nat) : Int) = 0 := by
  have e : ((d - 1 : Nat) : Int) = (d : Int) - 1 := by omega
  rw [init_cell d hd3 b (d - 1) (d - 1) (by omega) (by omega), if_neg (by omega),
    if_neg (by omega), e]
  ring

/-- The grid written by `init` does not depend on the previous storage content. -/
theorem init_cell_indep (d : Nat) (hd3 : 3 ≤ d) (b b1 : Board) (i j : Nat) (hi : i < d)
    (hj : j < d) : init d b i j = init d b1 i j := by
  rw [init_cell d hd3 b i j hi hj, init_cell d hd3 b1 i j hi hj]

/-! ## The loops of `won` -/

theorem wonRow_range (d : Nat) (b : Board) (i : Nat) (n s : Nat) (check : Int) :
    wonRow d b i (List.range' s n) check
      = if ∀ j : Nat, s ≤ j → j < s + n →
            (b i j = check + ((j : Int) - s) + 1 ∨ (d : Int) * d = check + ((j : Int) - s) + 1)
        then some (check + n) else none := by
  induction n generalizing s check with
  | zero =>
    simp only [List.range'_zero, wonRow, Nat.cast_zero, add_zero]
    rw [if_pos]
    intro j h1 h2
    omega
  | succ n ih =>
    rw [List.range'_succ, wonRow]
    by_cases h0 : b i s ≠ check + 1 ∧ (d : Int) * d ≠ check + 1
    · rw [if_pos h0, if_neg]
      intro h
      have := h s (le_refl s) (by omega)
      simp only [sub_self, add_zero] at this
      tauto
    · rw [if_neg h0, ih]
      have h0' : b i s = check + 1 ∨ (d : Int) * d = check + 1 := by tauto
      by_cases h : ∀ j : Nat, s + 1 ≤ j → j < s + 1 + n →
          (b i j = check + 1 + ((j : Int) - (s + 1 : Nat)) + 1
            ∨ (d : Int) * d = check + 1 + ((j : Int) - (s + 1 : Nat)) + 1)
      · rw [if_pos h, if_pos]
        · congr 1
          push_cast
          ring
        · intro j h1 h2
          rcases Nat.eq_or_lt_of_le h1 with e | e
          · subst e
            simpa using h0'
          · have := h j e (by omega)
            have e2 : check + 1 + ((j : Int) - (s + 1 : Nat)) + 1 = check + ((j : Int) - s) + 1 := by
              push_cast; ring
            rwa [e2] at this
      · rw [if_neg h, if_neg]
        intro h2
        apply h
        intro j h3 h4
        have := h2 j (by omega) (by omega)
        have e2 : check + 1 + ((j : Int) - (s + 1 : Nat)) + 1 = check + ((j : Int) - s) + 1 := by
          push_cast; ring
        rwa [e2]

theorem wonRow_full (d : Nat) (b : Board) (i : Nat) (check : Int) :
    wonRow d b i (List.range d) check
      = if ∀ j : Nat, j < d → (b i j = check + j + 1 ∨ (d : Int) * d = check + j + 1)
        then some (check + d) else none := by
  rw [List.range_eq_range', wonRow_range]
  simp only [Nat.zero_le, zero_add, Nat.cast_zero, sub_zero, true_implies]

theorem wonRows_range (d : Nat) (b : Board) (n s : Nat) (check : Int) :
    wonRows d b (List.range' s n) check
      = if ∀ i : Nat, s ≤ i → i < s + n → ∀ j : Nat, j < d →
            (b i j = check + ((i : Int) - s) * d + j + 1
              ∨ (d : Int) * d = check + ((i : Int) - s) * d + j + 1)
        then some (check + n * d) else none := by
  induction n generalizing s check with
  | zero =>
    simp only [List.range'_zero, wonRows, Nat.cast_zero, zero_mul, add_zero]
    rw [if_pos]
    intro i h1 h2
    omega
  | succ n ih =>
    rw [List.range'_succ, wonRows, wonRow_full]
    by_cases h0 : ∀ j : Nat, j < d → (b s j = check + j + 1 ∨ (d : Int) * d = check + j + 1)
    · rw [if_pos h0]
      simp only
      rw [ih]
      have e2 : ∀ (i j : Nat), check + d + ((i : Int) - (s + 1 : Nat)) * d + j + 1
          = check + ((i : Int) - s) * d + j + 1 := by
        intro i j; push_cast; ring
      by_cases h : ∀ i : Nat, s + 1 ≤ i → i < s + 1 + n → ∀ j : Nat, j < d →
          (b i j = check + d + ((i : Int) - (s + 1 : Nat)) * d + j + 1
            ∨ (d : Int) * d = check + d + ((i : Int) - (s + 1 : Nat)) * d + j + 1)
      · rw [if_pos h, if_pos]
        · congr 1
          push_cast
          ring
        · intro i h1 h2 j hj
          rcases Nat.eq_or_lt_of_le h1 with e | e
          · subst e
            simpa using h0 j hj
          · have := h i e (by omega) j hj
            rwa [e2] at this
      · rw [if_neg h, if_neg]
        intro h2
        apply h
        intro i h3 h4 j hj
        have := h2 i (by omega) (by omega) j hj
        rwa [e2]
    · rw [if_neg h0]
      simp only
      rw [if_neg]
      intro h
      apply h0
      intro j hj
      simpa using h s (le_refl s) (by omega) j hj

/-- What `won` tests, for any grid content: every cell holds its 1-based
row-major position, except that a cell at position `d*d` passes untested. -/
theorem won_iff_cells (d : Nat) (b : Board) :
    won d b = true ↔
      ∀ i : Nat, i < d → ∀ j : Nat, j < d →
        (b i j = (i : Int) * d + j + 1 ∨ (d : Int) * d = (i : Int) * d + j + 1) := by
  unfold won
  rw [List.range_eq_range', wonRows_range]
  simp only [Nat.zero_le, zero_add, Nat.cast_zero, sub_zero, true_implies]
  constructor
  · intro h
    by_contra hc
    rw [if_neg hc] at h
    simp at h
  · intro h
    rw [if_pos h]
    rfl

/-- Inside the grid only the last cell has row-major position `d*d`. -/
theorem last_cell_iff (d i j : Nat) (hi : i < d) (hj : j < d) :
    (d : Int) * d = (i : Int) * d + j + 1 ↔ (i = d - 1 ∧ j = d - 1) := by
  have h1 : (i + 1) * d ≤ d * d := Nat.mul_le_mul_right d (by omega)
  have h2 : (i + 1) * d = i * d + d := by ring
  have hc1 : ((i * d : Nat) : Int) = (i : Int) * d := by push_cast; ring
  have hc2 : ((d * d : Nat) : Int) = (d : Int) * d := by push_cast; ring
  constructor
  · intro h
    have h3 : d * d = i * d + j + 1 := by omega
    have h4 : j = d - 1 := by omega
    refine ⟨?_, h4⟩
    by_contra hne
    have h5 : (i + 2) * d ≤ d * d := Nat.mul_le_mul_right d (by omega)
    have h6 : (i + 2) * d = i * d + 2 * d := by ring
    omega
  · rintro ⟨e1, e2⟩
    have h3 : (d - 1 + 1) * d = (d - 1) * d + d := by ring
    have h4 : d - 1 + 1 = d := by omega
    rw [h4] at h3
    have hc3 : (((d - 1) * d : Nat) : Int) = (i : Int) * d := by
      rw [e1]; push_cast; ring
    omega

/-! ## Moves preserve the invariant -/

/-- Cells of the grid after the two writes of a successful `move`. -/
theorem swap_cell (b : Board) (r c r0 c0 : Nat) (t : Int) (i j : Nat) :
    ((b.set r0 c0 t).set r c 0) i j
      = if i = r ∧ j = c then 0 else if i = r0 ∧ j = c0 then t else b i j := by
  simp only [Board.set, Nat.cast_inj]

theorem valid_swap (d : Nat) (b : Board) (hv : Valid d b) (r c r0 c0 : Nat)
    (hr : r < d) (hc : c < d) (hr0 : r0 < d) (hc0 : c0 < d) (t : Int)
    (ht : b r c = t) (hz : b r0 c0 = 0) (hne : t ≠ 0) :
    Valid d ((b.set r0 c0 t).set r c 0) := by
  have hdiff : ¬ (r0 = r ∧ c0 = c) := by
    rintro ⟨e1, e2⟩
    rw [e1, e2, ht] at hz
    exact hne hz
  intro v hvlt
  obtain ⟨i, hi, j, hj, hb, hu⟩ := hv v hvlt
  by_cases h1 : i = r ∧ j = c
  · -- the value is the tile: it now sits in the old empty cell
    obtain ⟨rfl, rfl⟩ := h1
    have hvt : (v : Int) = t := by rw [← hb, ht]
    refine ⟨r0, hr0, c0, hc0, ?_, ?_⟩
    · rw [swap_cell, if_neg hdiff, if_pos ⟨rfl, rfl⟩, hvt]
    · intro i1 hi1 j1 hj1 h
      rw [swap_cell] at h
      by_cases k1 : i1 = i ∧ j1 = j
      · rw [if_pos k1] at h
        exact absurd (hvt ▸ h.symm) hne
      · rw [if_neg k1] at h
        by_cases k2 : i1 = r0 ∧ j1 = c0
        · exact k2
        · rw [if_neg k2] at h
          exact absurd (hu i1 hi1 j1 hj1 h) k1
  · by_cases h2 : i = r0 ∧ j = c0
    · -- the value is 0: it now sits in the old cell of the tile
      obtain ⟨rfl, rfl⟩ := h2
      have hv0 : (v : Int) = 0 := by rw [← hb, hz]
      refine ⟨r, hr, c, hc, ?_, ?_⟩
      · rw [swap_cell, if_pos ⟨rfl, rfl⟩, hv0]
      · intro i1 hi1 j1 hj1 h
        rw [swap_cell] at h
        by_cases k1 : i1 = r ∧ j1 = c
        · exact k1
        · rw [if_neg k1] at h
          by_cases k2 : i1 = i ∧ j1 = j
          · rw [if_pos k2] at h
            have := hu r hr c hc (by rw [ht, h])
            exact absurd ⟨this.1.symm, this.2.symm⟩ h1
          · rw [if_neg k2] at h
            exact absurd (hu i1 hi1 j1 hj1 h) k2
    · -- any other value stays where it was
      refine ⟨i, hi, j, hj, ?_, ?_⟩
      · rw [swap_cell, if_neg h1, if_neg h2, hb]
      · intro i1 hi1 j1 hj1 h
        rw [swap_cell] at h
        by_cases k1 : i1 = r ∧ j1 = c
        · rw [if_pos k1] at h
          have := hu r0 hr0 c0 hc0 (by rw [hz, h])
          exact absurd ⟨this.1.symm, this.2.symm⟩ h2
        · rw [if_neg k1] at h
          by_cases k2 : i1 = r0 ∧ j1 = c0
          · rw [if_pos k2] at h
            have := hu r hr c hc (by rw [ht, h])
            exact absurd ⟨this.1.symm, this.2.symm⟩ h1
          · rw [if_neg k2] at h
            exact hu i1 hi1 j1 hj1 h

/-- The range check at the top of `move`. -/
theorem move_out_of_range (d : Nat) (b : Board) (tile : Int)
    (h : tile < 1 ∨ tile > (d : Int) * d - 1) : move d b tile = (false, b) := by
  unfold move
  rw [if_pos (by tauto)]

/-- Every path of `move` that returns `false` has written nothing. -/
theorem move_false_eq (d : Nat) (b : Board) (tile : Int) (h : (move d b tile).1 = false) :
    (move d b tile).2 = b := by
  unfold move at h ⊢
  dsimp only at h ⊢
  split_ifs at h ⊢
  all_goals rfl

/-- The cell of a value on a valid board. -/
theorem valid_cell (d : Nat) (b : Board) (hv : Valid d b) (t : Int) (h0 : 0 ≤ t)
    (h1 : t ≤ (d : Int) * d - 1) :
    ∃ r : Nat, r < d ∧ ∃ c : Nat, c < d ∧ b r c = t := by
  have hlt : t.toNat < d * d := by
    have : ((d * d : Nat) : Int) = (d : Int) * d := by push_cast; ring
    omega
  obtain ⟨i, hi, j, hj, hb, _⟩ := hv t.toNat hlt
  have hcast : ((t.toNat : Nat) : Int) = t := by omega
  exact ⟨i, hi, j, hj, by rw [hb, hcast]⟩

/-- The cell holding a given value on a valid board is unique. -/
theorem valid_unique (d : Nat) (b : Board) (hv : Valid d b) (t : Int) (h0 : 0 ≤ t)
    (h1 : t ≤ (d : Int) * d - 1) (i j i1 j1 : Nat) (hi : i < d) (hj : j < d)
    (hi1 : i1 < d) (hj1 : j1 < d) (h : b i j = t) (h2 : b i1 j1 = t) : i = i1 ∧ j = j1 := by
  have hlt : t.toNat < d * d := by
    have : ((d * d : Nat) : Int) = (d : Int) * d := by push_cast; ring
    omega
  obtain ⟨i0, _, j0, _, _, hu⟩ := hv t.toNat hlt
  have hcast : ((t.toNat : Nat) : Int) = t := by omega
  rw [hcast] at hu
  have e1 := hu i hi j hj h
  have e2 := hu i1 hi1 j1 hj1 h2
  exact ⟨by omega, by omega⟩

theorem move_valid (d : Nat) (b : Board) (hv : Valid d b) (tile : Int) :
    Valid d (move d b tile).2 := by
  by_cases hrange : tile < 1 ∨ tile > (d : Int) * d - 1
  · rw [move_out_of_range d b tile hrange]
    exact hv
  · have h1 : 1 ≤ tile := by omega
    have h2 : tile ≤ (d : Int) * d - 1 := by omega
    obtain ⟨r, hr, c, hc, ht⟩ := valid_cell d b hv tile (by omega) h2
    obtain ⟨r0, hr0, c0, hc0, hz⟩ := valid_cell d b hv 0 (le_refl 0) (by omega)
    rcases move_cases d b hv tile h1 h2 r c r0 c0 hr hc hr0 hc0 ht hz with ⟨_, h⟩ | ⟨_, h⟩
    · rw [h]
      exact valid_swap d b hv r c r0 c0 hr hc hr0 hc0 tile ht hz (by omega)
    · rw [h]
      exact hv

/-! ## Soundness of the solution checker -/

theorem force_eq {α : Type} (x : Nat) (k : Nat → α) : force x k = k x := by
  cases x <;> rfl

theorem digit_pack (l : List Nat) (hl : ∀ k : Nat, l.getD k 0 < 128) (k : Nat) :
    digit (pack l) k = l.getD k 0 := by
  induction l generalizing k with
  | nil => simp [digit, pack]
  | cons x xs ih =>
    have hx : x < 128 := by simpa using hl 0
    have hxs : ∀ k : Nat, xs.getD k 0 < 128 := fun k => by simpa using hl (k + 1)
    cases k with
    | zero =>
      simp only [digit, pack, pow_zero, Nat.div_one, List.getD_cons_zero]
      omega
    | succ k =>
      have e : (x + 128 * pack xs) / 128 = pack xs := by omega
      have := ih hxs k
      simp only [digit] at this
      simp only [digit, pack, List.getD_cons_succ, pow_succ]
      rw [Nat.mul_comm (128 ^ k) 128, ← Nat.div_div_eq_div_mul, e, this]

theorem pack_set (l : List Nat) (k v : Nat) (hk : k < l.length) :
    pack (l.set k v) + l.getD k 0 * 128 ^ k = pack l + v * 128 ^ k := by
  induction l generalizing k with
  | nil => simp at hk
  | cons x xs ih =>
    cases k with
    | zero =>
      simp only [List.set_cons_zero, pack, List.getD_cons_zero, pow_zero]
      omega
    | succ k =>
      have hk' : k < xs.length := by simpa using hk
      have := ih k hk'
      simp only [List.set_cons_succ, pack, List.getD_cons_succ]
      have e1 : xs.getD k 0 * 128 ^ (k + 1) = 128 * (xs.getD k 0 * 128 ^ k) := by ring
      have e2 : v * 128 ^ (k + 1) = 128 * (v * 128 ^ k) := by ring
      rw [e1, e2]
      omega

theorem getD_set (l : List Nat) (i j v : Nat) (hi : i < l.length) :
    (l.set i v).getD j 0 = if j = i then v else l.getD j 0 := by
  induction l generalizing i j with
  | nil => simp at hi
  | cons x xs ih =>
    cases i with
    | zero =>
      cases j with
      | zero => simp
      | succ j => simp
    | succ i =>
      have hi' : i < xs.length := by simpa using hi
      cases j with
      | zero => simp
      | succ j =>
        simp only [List.set_cons_succ, List.getD_cons_succ, add_left_inj]
        exact ih i j hi'

/-- Row-major indices of cells of the grid are below `d*d`. -/
theorem idx_lt (d r c : Nat) (hr : r < d) (hc : c < d) : r * d + c < d * d := by
  have h1 : (r + 1) * d ≤ d * d := Nat.mul_le_mul_right d (by omega)
  have h2 : (r + 1) * d = r * d + d := by ring
  omega

/-- Distinct cells of the grid have distinct row-major indices. -/
theorem idx_inj (d r c r1 c1 : Nat) (hc : c < d) (hc1 : c1 < d)
    (h : r * d + c = r1 * d + c1) : r = r1 ∧ c = c1 := by
  have hd : 0 < d := by omega
  have e1 : (r * d + c) / d = r := by
    rw [Nat.mul_comm, Nat.mul_add_div hd, Nat.div_eq_of_lt hc, Nat.add_zero]
  have e2 : (r1 * d + c1) / d = r1 := by
    rw [Nat.mul_comm, Nat.mul_add_div hd, Nat.div_eq_of_lt hc1, Nat.add_zero]
  have e3 : r = r1 := by rw [← e1, ← e2, h]
  subst e3
  exact ⟨rfl, by omega⟩

/-- A legal move on the storage and the same move on the row-major copy of its grid. -/
theorem slide_core (d : Nat) (hd : d * d ≤ 128) (b : Board) (hv : Valid d b) (l : List Nat)
    (hrep : Rep d l b) (t r c r0 c0 : Nat) (ht0 : t ≠ 0) (htd : t < d * d)
    (hr : r < d) (hc : c < d) (hr0 : r0 < d) (hc0 : c0 < d) (hz : b r0 c0 = 0)
    (hadj : Adjacent r c r0 c0) (hcell : l.getD (r * d + c) 0 = t) :
    move d b (t : Int) = (true, (b.set r0 c0 t).set r c 0) ∧
      pack ((l.set (r0 * d + c0) t).set (r * d + c) 0)
        = pack l + t * 128 ^ (r0 * d + c0) - t * 128 ^ (r * d + c) ∧
      Rep d ((l.set (r0 * d + c0) t).set (r * d + c) 0) ((b.set r0 c0 t).set r c 0) := by
  obtain ⟨hlen, hbound, hcells⟩ := hrep
  have ht : b r c = (t : Int) := by rw [← hcells r hr c hc, hcell]
  have hcast : ((d * d : Nat) : Int) = (d : Int) * d := by push_cast; ring
  have h1 : 1 ≤ (t : Int) := by omega
  have h2 : (t : Int) ≤ (d : Int) * d - 1 := by omega
  have hzlt : r0 * d + c0 < l.length := by rw [hlen]; exact idx_lt d r0 c0 hr0 hc0
  have hplt : r * d + c < (l.set (r0 * d + c0) t).length := by
    rw [List.length_set, hlen]; exact idx_lt d r c hr hc
  have lz : l.getD (r0 * d + c0) 0 = 0 := by
    have := hcells r0 hr0 c0 hc0
    rw [hz] at this
    exact_mod_cast this
  have hne : r * d + c ≠ r0 * d + c0 := by
    intro e
    rw [e, lz] at hcell
    exact ht0 hcell.symm
  have l1p : (l.set (r0 * d + c0) t).getD (r * d + c) 0 = t := by
    rw [getD_set l _ _ _ hzlt, if_neg hne, hcell]
  refine ⟨?_, ?_, ?_, ?_, ?_⟩
  · rcases move_cases d b hv t h1 h2 r c r0 c0 hr hc hr0 hc0 ht hz with ⟨_, h⟩ | ⟨hn, _⟩
    · exact h
    · exact absurd hadj hn
  · have P1 := pack_set l (r0 * d + c0) t hzlt
    have P2 := pack_set (l.set (r0 * d + c0) t) (r * d + c) 0 hplt
    rw [lz] at P1
    rw [l1p] at P2
    omega
  · rw [List.length_set, List.length_set, hlen]
  · intro k
    rw [getD_set _ _ _ _ hplt, getD_set l _ _ _ hzlt]
    split_ifs
    · omega
    · omega
    · exact hbound k
  · intro i hi j hj
    rw [getD_set _ _ _ _ hplt, getD_set l _ _ _ hzlt, swap_cell]
    by_cases k1 : i = r ∧ j = c
    · rw [if_pos k1, if_pos (by rw [k1.1, k1.2])]
      rfl
    · have k1' : ¬ i * d + j = r * d + c := fun e => k1 (idx_inj d i j r c hj hc e)
      rw [if_neg k1, if_neg k1']
      by_cases k2 : i = r0 ∧ j = c0
      · rw [if_pos k2, if_pos (by rw [k2.1, k2.2])]
      · have k2' : ¬ i * d + j = r0 * d + c0 := fun e => k2 (idx_inj d i j r0 c0 hj hc0 e)
        rw [if_neg k2, if_neg k2']
        exact hcells i hi j hj

theorem slide_sound (d : Nat) (hd : d * d ≤ 128) (b : Board) (hv : Valid d b) (l : List Nat)
    (hrep : Rep d l b) (t r0 c0 : Nat) (hr0 : r0 < d) (hc0 : c0 < d) (hz : b r0 c0 = 0)
    (s : Nat × Nat × Nat) (h : slide d t (pack l) r0 c0 = some s) :
    ∃ l1 : List Nat, s.1 = pack l1 ∧ Rep d l1 (move d b (t : Int)).2 ∧ s.2.1 < d ∧ s.2.2 < d
      ∧ (move d b (t : Int)).2 s.2.1 s.2.2 = 0 := by
  have hdig := digit_pack l hrep.2.1
  have fin : ∀ r c : Nat, r < d → c < d → Adjacent r c r0 c0 → l.getD (r * d + c) 0 = t →
      t ≠ 0 → t < d * d →
      s = (pack l + t * 128 ^ (r0 * d + c0) - t * 128 ^ (r * d + c), r, c) →
      ∃ l1 : List Nat, s.1 = pack l1 ∧ Rep d l1 (move d b (t : Int)).2 ∧ s.2.1 < d ∧ s.2.2 < d
        ∧ (move d b (t : Int)).2 s.2.1 s.2.2 = 0 := by
    intro r c hr hc hadj hcell ht0 htd hs
    obtain ⟨hm, hp, hr1⟩ :=
      slide_core d hd b hv l hrep t r c r0 c0 ht0 htd hr hc hr0 hc0 hz hadj hcell
    subst hs
    refine ⟨_, hp.symm, ?_, hr, hc, ?_⟩
    · rw [hm]; exact hr1
    · rw [hm]
      show ((b.set r0 c0 t).set r c 0) r c = 0
      rw [swap_cell, if_pos ⟨rfl, rfl⟩]
  unfold slide at h
  by_cases g0 : t = 0 ∨ d * d ≤ t
  · rw [if_pos g0] at h
    exact absurd h (by simp)
  rw [if_neg g0] at h
  have ht0 : t ≠ 0 := by omega
  have htd : t < d * d := by omega
  by_cases g1 : 1 ≤ r0 ∧ digit (pack l) ((r0 - 1) * d + c0) = t
  · rw [if_pos g1] at h
    rw [hdig] at g1
    exact fin (r0 - 1) c0 (by omega) hc0 (Or.inl ⟨rfl, Or.inr (by omega)⟩) g1.2 ht0 htd
      (Option.some.inj h).symm
  rw [if_neg g1] at h
  by_cases g2 : r0 + 1 < d ∧ digit (pack l) ((r0 + 1) * d + c0) = t
  · rw [if_pos g2] at h
    rw [hdig] at g2
    exact fin (r0 + 1) c0 g2.1 hc0 (Or.inl ⟨rfl, Or.inl rfl⟩) g2.2 ht0 htd
      (Option.some.inj h).symm
  rw [if_neg g2] at h
  by_cases g3 : 1 ≤ c0 ∧ digit (pack l) (r0 * d + (c0 - 1)) = t
  · rw [if_pos g3] at h
    rw [hdig] at g3
    exact fin r0 (c0 - 1) hr0 (by omega) (Or.inr ⟨rfl, Or.inr (by omega)⟩) g3.2 ht0 htd
      (Option.some.inj h).symm
  rw [if_neg g3] at h
  by_cases g4 : c0 + 1 < d ∧ digit (pack l) (r0 * d + (c0 + 1)) = t
  · rw [if_pos g4] at h
    rw [hdig] at g4
    exact fin r0 (c0 + 1) hr0 g4.1 (Or.inr ⟨rfl, Or.inl rfl⟩) g4.2 ht0 htd
      (Option.some.inj h).symm
  rw [if_neg g4] at h
  exact absurd h (by simp)

theorem slideAll_sound (d : Nat) (hd : d * d ≤ 128) (tiles : List Nat) (b : Board)
    (hv : Valid d b) (l : List Nat) (hrep : Rep d l b) (r0 c0 : Nat) (hr0 : r0 < d)
    (hc0 : c0 < d) (hz : b r0 c0 = 0) (s : Nat × Nat × Nat)
    (h : slideAll d tiles (pack l) r0 c0 = some s) :
    ∃ l1 : List Nat, s.1 = pack l1
      ∧ Rep d l1 (play d b (tiles.map fun (n : Nat) => (n : Int))) := by
  induction tiles generalizing b l r0 c0 with
  | nil =>
    simp only [slideAll, Option.some.injEq] at h
    subst h
    exact ⟨l, rfl, hrep⟩
  | cons t ts ih =>
    rw [slideAll] at h
    cases hs : slide d t (pack l) r0 c0 with
    | none =>
      rw [hs] at h
      exact absurd h (by simp)
    | some s1 =>
      rw [hs] at h
      simp only [force_eq] at h
      obtain ⟨l1, e1, hrep1, hr1, hc1, hz1⟩ := slide_sound d hd b hv l hrep t r0 c0 hr0 hc0 hz s1 hs
      rw [e1] at h
      have hv1 := move_valid d b hv (t : Int)
      obtain ⟨l2, e2, hrep2⟩ := ih (move d b (t : Int)).2 hv1 l1 hrep1 s1.2.1 s1.2.2 hr1 hc1 hz1 h
      exact ⟨l2, e2, by simpa [play] using hrep2⟩

theorem solvedGrid_getD (d k : Nat) :
    (solvedGrid d).getD k 0 = if k < d * d then (if k + 1 = d * d then 0 else k + 1) else 0 := by
  unfold solvedGrid
  by_cases hk : k < d * d
  · rw [if_pos hk, List.getD_eq_getElem _ _ (by simpa using hk)]
    simp
  · rw [if_neg hk, List.getD_eq_default _ _ (by simpa using hk)]

/-- A replay accepted by the checker ends on a storage that `won` accepts. -/
theorem solves_sound (d : Nat) (hd : d * d ≤ 128) (b : Board) (hv : Valid d b) (l : List Nat)
    (hrep : Rep d l b) (r0 c0 : Nat) (hr0 : r0 < d) (hc0 : c0 < d) (hz : b r0 c0 = 0)
    (tiles : List Nat) (h : solves d (pack l) r0 c0 tiles = true) :
    won d (play d b (tiles.map fun (n : Nat) => (n : Int))) = true := by
  unfold solves at h
  rw [force_eq] at h
  cases hs : slideAll d tiles (pack l) r0 c0 with
  | none =>
    rw [hs] at h
    exact absurd h (by simp)
  | some s =>
    rw [hs] at h
    have hfin : s.1 = pack (solvedGrid d) := by simpa using h
    obtain ⟨l1, e1, hlen, hbound, hcells⟩ :=
      slideAll_sound d hd tiles b hv l hrep r0 c0 hr0 hc0 hz s hs
    have hsb : ∀ k : Nat, (solvedGrid d).getD k 0 < 128 := by
      intro k
      rw [solvedGrid_getD]
      split_ifs <;> omega
    have hget : ∀ k : Nat, l1.getD k 0 = (solvedGrid d).getD k 0 := by
      intro k
      rw [← digit_pack l1 hbound k, ← digit_pack (solvedGrid d) hsb k, ← e1, hfin]
    rw [won_iff_cells]
    intro i hi j hj
    have hlt := idx_lt d i j hi hj
    have hc := hcells i hi j hj
    rw [hget, solvedGrid_getD, if_pos hlt] at hc
    by_cases hl : i * d + j + 1 = d * d
    · right
      have : ((d * d : Nat) : Int) = ((i * d + j + 1 : Nat) : Int) := by rw [hl]
      push_cast at this
      exact this
    · left
      rw [if_neg hl] at hc
      rw [← hc]
      push_cast
      ring

/-- The row-major copy of the grid written by `init`, whatever the storage held before. -/
theorem init_rep (d : Nat) (hd3 : 3 ≤ d) (hd9 : d ≤ 9) (b0 : Board) :
    Rep d (gridNat d (init d (fun _ _ => 0))) (init d b0) := by
  have hd0 : 0 < d := by omega
  have h81 : d * d ≤ 81 := Nat.mul_le_mul hd9 hd9
  have hcast : ((d * d : Nat) : Int) = (d : Int) * d := by push_cast; ring
  have hget : ∀ k : Nat, k < d * d →
      (gridNat d (init d (fun _ _ => 0))).getD k 0
        = (init d (fun _ _ => 0) ((k / d : Nat) : Int) ((k % d : Nat) : Int)).toNat := by
    intro k hk
    unfold gridNat
    rw [List.getD_eq_getElem _ _ (by simpa using hk)]
    simp
  refine ⟨by simp [gridNat], ?_, ?_⟩
  · intro k
    by_cases hk : k < d * d
    · rw [hget k hk]
      have hdiv : k / d < d := Nat.div_lt_of_lt_mul hk
      have := init_cell_range d hd3 (fun _ _ => 0) (k / d) (k % d) hdiv (Nat.mod_lt _ hd0)
      omega
    · rw [List.getD_eq_default _ _ (by simpa [gridNat] using hk)]
      omega
  · intro r hr c hc
    rw [hget _ (idx_lt d r c hr hc)]
    have e1 : (r * d + c) / d = r := by
      rw [Nat.mul_comm, Nat.mul_add_div hd0, Nat.div_eq_of_lt hc, Nat.add_zero]
    have e2 : (r * d + c) % d = c := by
      rw [Nat.mul_comm, Nat.mul_add_mod, Nat.mod_eq_of_lt hc]
    rw [e1, e2]
    have := init_cell_range d hd3 (fun _ _ => 0) r c hr hc
    rw [init_cell_indep d hd3 b0 (fun _ _ => 0) r c hr hc]
    omega

/-! ### The recorded solutions are accepted by the checker -/

set_option maxRecDepth 100000 in
theorem solutionThree_ok :
    solves 3 (pack (gridNat 3 (init 3 (fun _ _ => 0)))) 2 2 solutionThree = true := by
  decide!

set_option maxRecDepth 100000 in
theorem solutionFour_ok :
    solves 4 (pack (gridNat 4 (init 4 (fun _ _ => 0)))) 3 3 solutionFour = true := by
  decide!

set_option maxRecDepth 100000 in
theorem solutionFive_ok :
    solves 5 (pack (gridNat 5 (init 5 (fun _ _ => 0)))) 4 4 solutionFive = true := by
  decide!

set_option maxRecDepth 100000 in
theorem solutionSix_ok :
    solves 6 (pack (gridNat 6 (init 6 (fun _ _ => 0)))) 5 5 solutionSix = true := by
  decide!

set_option maxRecDepth 100000 in
theorem solutionSeven_ok :
    solves 7 (pack (gridNat 7 (init 7 (fun _ _ => 0)))) 6 6 solutionSeven = true := by
  decide!

set_option maxRecDepth 100000 in
theorem solutionEight_ok :
    solves 8 (pack (gridNat 8 (init 8 (fun _ _ => 0)))) 7 7 solutionEight = true := by
  decide!

set_option maxRecDepth 100000 in
theorem solutionNine_ok :
    solves 9 (pack (gridNat 9 (init 9 (fun _ _ => 0)))) 8 8 solutionNine = true := by
  decide!

/-- The recorded solution for each dimension. -/
theorem solution_wins (d : Nat) (hd3 : 3 ≤ d) (hd9 : d ≤ 9) (b0 : Board) (sol : List Nat)
    (h : solves d (pack (gridNat d (init d (fun _ _ => 0)))) (d - 1) (d - 1) sol = true) :
    won d (play d (init d b0) (sol.map fun (n : Nat) => (n : Int))) = true :=
  solves_sound d (by have := Nat.mul_le_mul hd9 hd9; omega) (init d b0)
    (init_valid d hd3 hd9 b0) _ (init_rep d hd3 hd9 b0) (d - 1) (d - 1) (by omega) (by omega)
    (init_last d hd3 b0) sol h

/-! ## Legal moves -/

/-- C1: for `3 <= d <= 9`, on a board whose grid holds each of `0 .. d*d-1`
exactly once, `move tile` returns `true` exactly when `1 <= tile <= d*d-1` and
the cell holding `tile` is orthogonally adjacent (no wrap-around) to the cell
holding `0`. -/
theorem move_true_iff_adjacent (d : Nat) (_hd : DIM_MIN ≤ d ∧ d ≤ DIM_MAX) (b : Board)
    (hv : Valid d b) (tile : Int) :
    (move d b tile).1 = true ↔
      (1 ≤ tile ∧ tile ≤ (d : Int) * d - 1 ∧
        ∃ r c r0 c0 : Nat, r < d ∧ c < d ∧ r0 < d ∧ c0 < d ∧
          b r c = tile ∧ b r0 c0 = 0 ∧ Adjacent r c r0 c0) := by
  constructor
  · intro h
    by_cases hrange : tile < 1 ∨ tile > (d : Int) * d - 1
    · rw [move_out_of_range d b tile hrange] at h
      exact absurd h (by simp)
    · have h1 : 1 ≤ tile := by omega
      have h2 : tile ≤ (d : Int) * d - 1 := by omega
      obtain ⟨r, hr, c, hc, ht⟩ := valid_cell d b hv tile (by omega) h2
      obtain ⟨r0, hr0, c0, hc0, hz⟩ := valid_cell d b hv 0 (le_refl 0) (by omega)
      rcases move_cases d b hv tile h1 h2 r c r0 c0 hr hc hr0 hc0 ht hz with ⟨ha, _⟩ | ⟨_, hm⟩
      · exact ⟨h1, h2, r, c, r0, c0, hr, hc, hr0, hc0, ht, hz, ha⟩
      · rw [hm] at h
        exact absurd h (by simp)
  · rintro ⟨h1, h2, r, c, r0, c0, hr, hc, hr0, hc0, ht, hz, ha⟩
    rcases move_cases d b hv tile h1 h2 r c r0 c0 hr hc hr0 hc0 ht hz with ⟨_, hm⟩ | ⟨hna, _⟩
    · rw [hm]
    · exact absurd ha hna

theorem move_true_iff_adjacent_witness :
    (DIM_MIN ≤ 3 ∧ 3 ≤ DIM_MAX) ∧ Valid 3 (ofRows [[1, 2, 3], [4, 0, 6], [7, 8, 5]]) ∧
      (move 3 (ofRows [[1, 2, 3], [4, 0, 6], [7, 8, 5]]) 6).1 = true ∧
      ((move 3 (ofRows [[1, 2, 3], [4, 0, 6], [7, 8, 5]]) 6).1 = true ↔
        (1 ≤ (6 : Int) ∧ (6 : Int) ≤ ((3 : Nat) : Int) * (3 : Nat) - 1 ∧
          ∃ r c r0 c0 : Nat, r < 3 ∧ c < 3 ∧ r0 < 3 ∧ c0 < 3 ∧
            ofRows [[1, 2, 3], [4, 0, 6], [7, 8, 5]] r c = 6 ∧
            ofRows [[1, 2, 3], [4, 0, 6], [7, 8, 5]] r0 c0 = 0 ∧ Adjacent r c r0 c0)) :=
  ⟨by decide, by decide, by decide,
    move_true_iff_adjacent 3 (by decide) (ofRows [[1, 2, 3], [4, 0, 6], [7, 8, 5]])
      (by decide) 6⟩

/-- C2: for `3 <= d <= 9`, on a board whose grid holds each of `0 .. d*d-1`
exactly once, when `move tile` returns `true` the cell that held `0` holds
`tile` afterwards, the cell that held `tile` holds `0`, and every other cell is
unchanged. -/
theorem move_swaps_tile_and_empty (d : Nat) (_hd : DIM_MIN ≤ d ∧ d ≤ DIM_MAX) (b : Board)
    (hv : Valid d b) (tile : Int) (hm : (move d b tile).1 = true) :
    ∃ r c r0 c0 : Nat, r < d ∧ c < d ∧ r0 < d ∧ c0 < d ∧ b r c = tile ∧ b r0 c0 = 0 ∧
      (move d b tile).2 r0 c0 = tile ∧ (move d b tile).2 r c = 0 ∧
      ∀ i j : Int, ¬ (i = r0 ∧ j = c0) → ¬ (i = r ∧ j = c) → (move d b tile).2 i j = b i j := by
  by_cases hrange : tile < 1 ∨ tile > (d : Int) * d - 1
  · rw [move_out_of_range d b tile hrange] at hm
    exact absurd hm (by simp)
  · have h1 : 1 ≤ tile := by omega
    have h2 : tile ≤ (d : Int) * d - 1 := by omega
    obtain ⟨r, hr, c, hc, ht⟩ := valid_cell d b hv tile (by omega) h2
    obtain ⟨r0, hr0, c0, hc0, hz⟩ := valid_cell d b hv 0 (le_refl 0) (by omega)
    rcases move_cases d b hv tile h1 h2 r c r0 c0 hr hc hr0 hc0 ht hz with ⟨_, h⟩ | ⟨_, h⟩
    · refine ⟨r, c, r0, c0, hr, hc, hr0, hc0, ht, hz, ?_, ?_, ?_⟩
      · have hdiff : ¬ (r0 = r ∧ c0 = c) := by
          rintro ⟨e1, e2⟩
          rw [e1, e2, ht] at hz
          omega
        rw [h]
        show ((b.set r0 c0 tile).set r c 0) r0 c0 = tile
        rw [swap_cell, if_neg hdiff, if_pos ⟨rfl, rfl⟩]
      · rw [h]
        show ((b.set r0 c0 tile).set r c 0) r c = 0
        rw [swap_cell, if_pos ⟨rfl, rfl⟩]
      · intro i j n0 n1
        rw [h]
        simp only [Board.set]
        rw [if_neg n1, if_neg n0]
    · rw [h] at hm
      exact absurd hm (by simp)

theorem move_swaps_tile_and_empty_witness :
    (DIM_MIN ≤ 3 ∧ 3 ≤ DIM_MAX) ∧ Valid 3 (ofRows [[1, 2, 3], [4, 0, 6], [7, 8, 5]]) ∧
      (move 3 (ofRows [[1, 2, 3], [4, 0, 6], [7, 8, 5]]) 6).1 = true ∧
      toRows 3 (move 3 (ofRows [[1, 2, 3], [4, 0, 6], [7, 8, 5]]) 6).2
        = [[1, 2, 3], [4, 6, 0], [7, 8, 5]] ∧
      ∃ r c r0 c0 : Nat, r < 3 ∧ c < 3 ∧ r0 < 3 ∧ c0 < 3 ∧
        ofRows [[1, 2, 3], [4, 0, 6], [7, 8, 5]] r c = 6 ∧
        ofRows [[1, 2, 3], [4, 0, 6], [7, 8, 5]] r0 c0 = 0 ∧
        (move 3 (ofRows [[1, 2, 3], [4, 0, 6], [7, 8, 5]]) 6).2 r0 c0 = 6 ∧
        (move 3 (ofRows [[1, 2, 3], [4, 0, 6], [7, 8, 5]]) 6).2 r c = 0 ∧
        ∀ i j : Int, ¬ (i = r0 ∧ j = c0) → ¬ (i = r ∧ j = c) →
          (move 3 (ofRows [[1, 2, 3], [4, 0, 6], [7, 8, 5]]) 6).2 i j
            = ofRows [[1, 2, 3], [4, 0, 6], [7, 8, 5]] i j :=
  ⟨by decide, by decide, by decide, by decide,
    move_swaps_tile_and_empty 3 (by decide) (ofRows [[1, 2, 3], [4, 0, 6], [7, 8, 5]])
      (by decide) 6 (by decide)⟩

/-! ## Invariants along a game -/

theorem play_valid_of_valid (d : Nat) (tiles : List Int) (b : Board) (hv : Valid d b) :
    Valid d (play d b tiles) := by
  induction tiles generalizing b with
  | nil => exact hv
  | cons t ts ih => exact ih (move d b t).2 (move_valid d b hv t)

/-- C3: for `3 <= d <= 9` and every finite sequence of tile arguments, legal or
not, the board reached from `init` by calling `move` on each argument in turn
holds each of `0 .. d*d-1` in exactly one cell of the grid; in particular
exactly one cell of the grid holds `0`. -/
theorem play_keeps_value_set (d : Nat) (hd : DIM_MIN ≤ d ∧ d ≤ DIM_MAX) (b0 : Board)
    (tiles : List Int) :
    Valid d (play d (init d b0) tiles) ∧
      ∃ i : Nat, i < d ∧ ∃ j : Nat, j < d ∧ play d (init d b0) tiles i j = 0 ∧
        ∀ i1 : Nat, i1 < d → ∀ j1 : Nat, j1 < d →
          play d (init d b0) tiles i1 j1 = 0 → i1 = i ∧ j1 = j := by
  have hv : Valid d (play d (init d b0) tiles) :=
    play_valid_of_valid d tiles (init d b0) (init_valid d hd.1 hd.2 b0)
  refine ⟨hv, ?_⟩
  have hpos : 0 < d * d := by
    have : 3 ≤ d := hd.1
    exact Nat.mul_pos (by omega) (by omega)
  simpa using hv 0 hpos

theorem play_keeps_value_set_witness :
    (DIM_MIN ≤ 3 ∧ 3 ≤ DIM_MAX) ∧
      toRows 3 (play 3 (init 3 (fun _ _ => 7)) [1, 9, 4, 0, 5, -2, 3])
        = [[8, 7, 6], [0, 5, 3], [2, 4, 1]] ∧
      (Valid 3 (play 3 (init 3 (fun _ _ => 7)) [1, 9, 4, 0, 5, -2, 3]) ∧
        ∃ i : Nat, i < 3 ∧ ∃ j : Nat, j < 3 ∧
          play 3 (init 3 (fun _ _ => 7)) [1, 9, 4, 0, 5, -2, 3] i j = 0 ∧
          ∀ i1 : Nat, i1 < 3 → ∀ j1 : Nat, j1 < 3 →
            play 3 (init 3 (fun _ _ => 7)) [1, 9, 4, 0, 5, -2, 3] i1 j1 = 0 →
              i1 = i ∧ j1 = j) :=
  ⟨by decide, by decide,
    play_keeps_value_set 3 (by decide) (fun _ _ => 7) [1, 9, 4, 0, 5, -2, 3]⟩

/-! ## Win detection -/

/-- C4: for `3 <= d <= 9`, on a board whose grid holds each of `0 .. d*d-1`
exactly once, `won` returns `true` exactly when the grid read in row-major
order is `1, 2, ..., d*d-1` followed by `0` in the last cell. -/
theorem won_iff_solved (d : Nat) (_hd : DIM_MIN ≤ d ∧ d ≤ DIM_MAX) (b : Board)
    (hv : Valid d b) :
    won d b = true ↔
      ∀ i : Nat, i < d → ∀ j : Nat, j < d →
        b i j = if i * d + j + 1 = d * d then 0 else (i : Int) * d + j + 1 := by
  have hcast : ∀ i j : Nat, (i * d + j + 1 = d * d ↔ (d : Int) * d = (i : Int) * d + j + 1) := by
    intro i j
    constructor
    · intro h
      have : ((i * d + j + 1 : Nat) : Int) = ((d * d : Nat) : Int) := by rw [h]
      push_cast at this
      omega
    · intro h
      have h' : ((d * d : Nat) : Int) = ((i * d + j + 1 : Nat) : Int) := by
        push_cast; exact h
      exact (Nat.cast_injective h').symm
  rw [won_iff_cells]
  constructor
  · intro h i hi j hj
    by_cases hl : i * d + j + 1 = d * d
    · rw [if_pos hl]
      -- the last cell: the empty cell cannot be anywhere else
      have hdpos : 0 < d := by omega
      obtain ⟨r0, hr0, c0, hc0, hz⟩ :=
        valid_cell d b hv 0 (le_refl 0)
          (by have := Int.mul_pos (Int.ofNat_pos.mpr hdpos) (Int.ofNat_pos.mpr hdpos); omega)
      rcases h r0 hr0 c0 hc0 with h3 | h3
      · rw [hz] at h3
        have : (0 : Int) ≤ (r0 : Int) * d := by positivity
        omega
      · have e0 := (last_cell_iff d r0 c0 hr0 hc0).mp h3
        have e1 := (last_cell_iff d i j hi hj).mp ((hcast i j).mp hl)
        have ei : i = r0 := by omega
        have ej : j = c0 := by omega
        rw [ei, ej, hz]
    · rw [if_neg hl]
      rcases h i hi j hj with h3 | h3
      · exact h3
      · exact absurd ((hcast i j).mpr h3) hl
  · intro h i hi j hj
    by_cases hl : i * d + j + 1 = d * d
    · right
      exact (hcast i j).mp hl
    · left
      rw [h i hi j hj, if_neg hl]

theorem won_iff_solved_witness :
    (DIM_MIN ≤ 3 ∧ 3 ≤ DIM_MAX) ∧ Valid 3 (ofRows [[1, 2, 3], [4, 5, 6], [7, 8, 0]]) ∧
      won 3 (ofRows [[1, 2, 3], [4, 5, 6], [7, 8, 0]]) = true ∧
      won 3 (ofRows [[1, 2, 3], [4, 5, 6], [7, 0, 8]]) = false ∧
      (won 3 (ofRows [[1, 2, 3], [4, 5, 6], [7, 8, 0]]) = true ↔
        ∀ i : Nat, i < 3 → ∀ j : Nat, j < 3 →
          ofRows [[1, 2, 3], [4, 5, 6], [7, 8, 0]] i j
            = if i * 3 + j + 1 = 3 * 3 then 0 else (i : Int) * (3 : Nat) + j + 1) :=
  ⟨by decide, by decide, by decide, by decide,
    won_iff_solved 3 (by decide) (ofRows [[1, 2, 3], [4, 5, 6], [7, 8, 0]]) (by decide)⟩

/-! ## Solvability of the initial board -/

/-- C5: for `3 <= d <= 9`, the board produced by `init` is solvable: there is
a finite sequence of tile labels such that calling `move` on them in order,
starting from the `init` board, reaches a board on which `won` returns `true`. -/
theorem init_solvable (d : Nat) (hd : DIM_MIN ≤ d ∧ d ≤ DIM_MAX) (b0 : Board) :
    ∃ tiles : List Int, won d (play d (init d b0) tiles) = true := by
  have hd3 : 3 ≤ d := hd.1
  have hd9 : d ≤ 9 := hd.2
  interval_cases d
  · exact ⟨_, solution_wins 3 (by omega) (by omega) b0 solutionThree solutionThree_ok⟩
  · exact ⟨_, solution_wins 4 (by omega) (by omega) b0 solutionFour solutionFour_ok⟩
  · exact ⟨_, solution_wins 5 (by omega) (by omega) b0 solutionFive solutionFive_ok⟩
  · exact ⟨_, solution_wins 6 (by omega) (by omega) b0 solutionSix solutionSix_ok⟩
  · exact ⟨_, solution_wins 7 (by omega) (by omega) b0 solutionSeven solutionSeven_ok⟩
  · exact ⟨_, solution_wins 8 (by omega) (by omega) b0 solutionEight solutionEight_ok⟩
  · exact ⟨_, solution_wins 9 (by omega) (by omega) b0 solutionNine solutionNine_ok⟩

set_option maxRecDepth 100000 in
theorem init_solvable_witness :
    (DIM_MIN ≤ 3 ∧ 3 ≤ DIM_MAX) ∧
      won 3 (play 3 (init 3 (fun _ _ => 7))
        [3, 4, 7, 8, 5, 2, 1, 7, 8, 5, 2, 1, 7, 8, 5, 6, 4, 3, 8, 5, 6, 4, 3, 6, 4, 2, 1, 4, 5,
          8]) = true ∧
      ∃ tiles : List Int, won 3 (play 3 (init 3 (fun _ _ => 7)) tiles) = true :=
  ⟨by decide, by decide!, init_solvable 3 (by decide) (fun _ _ => 7)⟩

/-! ## The initial board -/

/-- C6: for `3 <= d <= 9`, after `init`: when `d` is odd every cell `(i, j)` of
the grid holds `d*d - 1 - (i*d + j)`; when `d` is even the same formula holds
for every cell other than `(d-1, d-3)` and `(d-1, d-2)`. The last cell holds
`0` in both cases. -/
theorem init_descending_fill (d : Nat) (hd : DIM_MIN ≤ d ∧ d ≤ DIM_MAX) (b0 : Board) :
    (d % 2 = 1 → ∀ i : Nat, i < d → ∀ j : Nat, j < d →
        init d b0 i j = (d : Int) * d - 1 - ((i : Int) * d + j)) ∧
      (d % 2 = 0 → ∀ i : Nat, i < d → ∀ j : Nat, j < d →
        ¬ (i = d - 1 ∧ j = d - 3) → ¬ (i = d - 1 ∧ j = d - 2) →
          init d b0 i j = (d : Int) * d - 1 - ((i : Int) * d + j)) ∧
      init d b0 ((d : Int) - 1) ((d : Int) - 1) = 0 := by
  have hd3 : 3 ≤ d := hd.1
  refine ⟨?_, ?_, ?_⟩
  · intro hodd i hi j hj
    rw [init_cell d hd3 b0 i j hi hj, if_neg (by omega), if_neg (by omega)]
  · intro _ i hi j hj n1 n2
    rw [init_cell d hd3 b0 i j hi hj, if_neg (by tauto), if_neg (by tauto)]
  · have e : (d : Int) - 1 = ((d - 1 : Nat) : Int) := by omega
    rw [e]
    exact init_last d hd3 b0

theorem init_descending_fill_witness :
    (DIM_MIN ≤ 5 ∧ 5 ≤ DIM_MAX) ∧
      toRows 5 (init 5 (fun _ _ => 7))
        = [[24, 23, 22, 21, 20], [19, 18, 17, 16, 15], [14, 13, 12, 11, 10],
            [9, 8, 7, 6, 5], [4, 3, 2, 1, 0]] ∧
      ((5 % 2 = 1 → ∀ i : Nat, i < 5 → ∀ j : Nat, j < 5 →
          init 5 (fun _ _ => 7) i j = ((5 : Nat) : Int) * (5 : Nat) - 1 - ((i : Int) * (5 : Nat) + j)) ∧
        (5 % 2 = 0 → ∀ i : Nat, i < 5 → ∀ j : Nat, j < 5 →
          ¬ (i = 5 - 1 ∧ j = 5 - 3) → ¬ (i = 5 - 1 ∧ j = 5 - 2) →
            init 5 (fun _ _ => 7) i j
              = ((5 : Nat) : Int) * (5 : Nat) - 1 - ((i : Int) * (5 : Nat) + j)) ∧
        init 5 (fun _ _ => 7) (((5 : Nat) : Int) - 1) (((5 : Nat) : Int) - 1) = 0) :=
  ⟨by decide, by decide, init_descending_fill 5 (by decide) (fun _ _ => 7)⟩

/-- C7: for `3 <= d <= 9`, after `init`: if `d*d` is even, cell `(d-1, d-3)`
holds `1` and cell `(d-1, d-2)` holds `2`; if `d*d` is odd the swap is not
applied and those cells hold `2` and `1`. -/
theorem init_parity_fixup (d : Nat) (hd : DIM_MIN ≤ d ∧ d ≤ DIM_MAX) (b0 : Board) :
    (((d : Int) * d) % 2 = 0 →
        init d b0 ((d : Int) - 1) ((d : Int) - 3) = 1
          ∧ init d b0 ((d : Int) - 1) ((d : Int) - 2) = 2) ∧
      (((d : Int) * d) % 2 = 1 →
        init d b0 ((d : Int) - 1) ((d : Int) - 3) = 2
          ∧ init d b0 ((d : Int) - 1) ((d : Int) - 2) = 1) := by
  have hd3 : 3 ≤ d := hd.1
  have e1 : (d : Int) - 1 = ((d - 1 : Nat) : Int) := by omega
  have e2 : (d : Int) - 2 = ((d - 2 : Nat) : Int) := by omega
  have e3 : (d : Int) - 3 = ((d - 3 : Nat) : Int) := by omega
  have c3 := init_cell d hd3 b0 (d - 1) (d - 3) (by omega) (by omega)
  have c2 := init_cell d hd3 b0 (d - 1) (d - 2) (by omega) (by omega)
  rw [← e1, ← e3] at c3
  rw [← e1, ← e2] at c2
  constructor
  · intro h
    have he : d % 2 = 0 := (sq_even_iff d).mp h
    rw [if_pos ⟨he, rfl, rfl⟩] at c3
    rw [if_neg (by omega), if_pos ⟨he, rfl, rfl⟩] at c2
    exact ⟨c3, c2⟩
  · intro h
    have he : ¬ d % 2 = 0 := fun k => by
      have := (sq_even_iff d).mpr k
      omega
    rw [if_neg (by tauto), if_neg (by tauto)] at c3 c2
    rw [c3, c2]
    constructor <;> ring

theorem init_parity_fixup_witness :
    (DIM_MIN ≤ 4 ∧ 4 ≤ DIM_MAX) ∧
      (toRows 4 (init 4 (fun _ _ => 7))).getLast? = some [3, 1, 2, 0] ∧
      (toRows 3 (init 3 (fun _ _ => 7))).getLast? = some [2, 1, 0] ∧
      ((((4 : Nat) : Int) * (4 : Nat)) % 2 = 0 →
          init 4 (fun _ _ => 7) (((4 : Nat) : Int) - 1) (((4 : Nat) : Int) - 3) = 1
            ∧ init 4 (fun _ _ => 7) (((4 : Nat) : Int) - 1) (((4 : Nat) : Int) - 2) = 2) ∧
      ((((4 : Nat) : Int) * (4 : Nat)) % 2 = 1 →
          init 4 (fun _ _ => 7) (((4 : Nat) : Int) - 1) (((4 : Nat) : Int) - 3) = 2
            ∧ init 4 (fun _ _ => 7) (((4 : Nat) : Int) - 1) (((4 : Nat) : Int) - 2) = 1) :=
  ⟨by decide, by decide, by decide, init_parity_fixup 4 (by decide) (fun _ _ => 7)⟩

/-- C8: for `3 <= d <= 9`, the board written by `init` satisfies the board
invariants: each of `0, 1, ..., d*d-1` occurs in exactly one cell of the grid
(also after the swap of 1 and 2 for even `d`), and every cell of the grid
holds one of these values. -/
theorem init_satisfies_invariants (d : Nat) (hd : DIM_MIN ≤ d ∧ d ≤ DIM_MAX) (b0 : Board) :
    Valid d (init d b0) ∧
      ∀ i : Nat, i < d → ∀ j : Nat, j < d →
        0 ≤ init d b0 i j ∧ init d b0 i j ≤ (d : Int) * d - 1 := by
  have hd3 : 3 ≤ d := hd.1
  exact ⟨init_valid d hd.1 hd.2 b0, fun i hi j hj => init_cell_range d hd3 b0 i j hi hj⟩

theorem init_satisfies_invariants_witness :
    (DIM_MIN ≤ 4 ∧ 4 ≤ DIM_MAX) ∧
      toRows 4 (init 4 (fun _ _ => 7))
        = [[15, 14, 13, 12], [11, 10, 9, 8], [7, 6, 5, 4], [3, 1, 2, 0]] ∧
      (Valid 4 (init 4 (fun _ _ => 7)) ∧
        ∀ i : Nat, i < 4 → ∀ j : Nat, j < 4 →
          0 ≤ init 4 (fun _ _ => 7) i j
            ∧ init 4 (fun _ _ => 7) i j ≤ ((4 : Nat) : Int) * (4 : Nat) - 1) :=
  ⟨by decide, by decide, init_satisfies_invariants 4 (by decide) (fun _ _ => 7)⟩

/-! ## Rejected moves -/

/-- C9: for `3 <= d <= 9`, every grid content and every tile with `tile < 1`
or `tile > d*d - 1`, `move tile` returns `false` and leaves every cell of the
storage unchanged. -/
theorem move_rejects_out_of_range (d : Nat) (_hd : DIM_MIN ≤ d ∧ d ≤ DIM_MAX) (b : Board)
    (tile : Int) (h : tile < 1 ∨ tile > (d : Int) * d - 1) :
    (move d b tile).1 = false ∧ ∀ i j : Int, (move d b tile).2 i j = b i j := by
  rw [move_out_of_range d b tile h]
  exact ⟨rfl, fun _ _ => rfl⟩

theorem move_rejects_out_of_range_witness :
    (DIM_MIN ≤ 3 ∧ 3 ≤ DIM_MAX) ∧
      ((move 3 (ofRows [[1, 2, 3], [4, 0, 6], [7, 8, 5]]) 9).1 = false ∧
        ∀ i j : Int, (move 3 (ofRows [[1, 2, 3], [4, 0, 6], [7, 8, 5]]) 9).2 i j
          = ofRows [[1, 2, 3], [4, 0, 6], [7, 8, 5]] i j) ∧
      ((move 3 (ofRows [[1, 2, 3], [4, 0, 6], [7, 8, 5]]) 0).1 = false ∧
        ∀ i j : Int, (move 3 (ofRows [[1, 2, 3], [4, 0, 6], [7, 8, 5]]) 0).2 i j
          = ofRows [[1, 2, 3], [4, 0, 6], [7, 8, 5]] i j) ∧
      ((move 3 (ofRows [[1, 2, 3], [4, 0, 6], [7, 8, 5]]) (-1)).1 = false ∧
        ∀ i j : Int, (move 3 (ofRows [[1, 2, 3], [4, 0, 6], [7, 8, 5]]) (-1)).2 i j
          = ofRows [[1, 2, 3], [4, 0, 6], [7, 8, 5]] i j) :=
  ⟨by decide,
    move_rejects_out_of_range 3 (by decide) (ofRows [[1, 2, 3], [4, 0, 6], [7, 8, 5]]) 9
      (by decide),
    move_rejects_out_of_range 3 (by decide) (ofRows [[1, 2, 3], [4, 0, 6], [7, 8, 5]]) 0
      (by decide),
    move_rejects_out_of_range 3 (by decide) (ofRows [[1, 2, 3], [4, 0, 6], [7, 8, 5]]) (-1)
      (by decide)⟩

/-- C10: failure is atomic: for `3 <= d <= 9`, every storage content and every
tile, if `move tile` returns `false` then the storage after the call is
identical, cell for cell, to the storage before the call. -/
theorem move_failure_atomic (d : Nat) (_hd : DIM_MIN ≤ d ∧ d ≤ DIM_MAX) (b : Board)
    (tile : Int) (h : (move d b tile).1 = false) :
    ∀ i j : Int, (move d b tile).2 i j = b i j := by
  intro i j
  rw [move_false_eq d b tile h]

theorem move_failure_atomic_witness :
    (DIM_MIN ≤ 3 ∧ 3 ≤ DIM_MAX) ∧
      (move 3 (ofRows [[1, 2, 3], [4, 0, 6], [7, 8, 5]]) 5).1 = false ∧
      ∀ i j : Int, (move 3 (ofRows [[1, 2, 3], [4, 0, 6], [7, 8, 5]]) 5).2 i j
        = ofRows [[1, 2, 3], [4, 0, 6], [7, 8, 5]] i j :=
  ⟨by decide, by decide,
    move_failure_atomic 3 (by decide) (ofRows [[1, 2, 3], [4, 0, 6], [7, 8, 5]]) 5
      (by decide)⟩

/-! ## Repeating a move -/

theorem adjacent_symm (r c r0 c0 : Nat) (h : Adjacent r c r0 c0) : Adjacent r0 c0 r c := by
  unfold Adjacent at h ⊢
  omega

/-- Writing the tile back restores the storage. -/
theorem swap_swap (b : Board) (r c r0 c0 : Nat) (t : Int) (ht : b r c = t) (hz : b r0 c0 = 0) :
    ((((b.set r0 c0 t).set r c 0).set r c t).set r0 c0 0) = b := by
  funext i j
  simp only [Board.set]
  by_cases h1 : i = (r0 : Int) ∧ j = (c0 : Int)
  · rw [if_pos h1, h1.1, h1.2, hz]
  · rw [if_neg h1]
    by_cases h2 : i = (r : Int) ∧ j = (c : Int)
    · rw [if_pos h2, h2.1, h2.2, ht]
    · rw [if_neg h2, if_neg h2, if_neg h1]

/-! ## The grid is all that matters -/

/-- The search of `move` ends inside the grid. -/
theorem findTile_range (d : Nat) (hd : 0 < d) (b : Board) (tile : Int) :
    ∃ r : Nat, r < d ∧ ∃ c : Nat, c < d ∧ findTile d b tile = ((r : Int), (c : Int)) := by
  rcases findRows_fold d b tile (List.range d) (0, 0) with ⟨h1, _⟩ | ⟨i, hi, j, hj, h1, _⟩
  · exact ⟨0, hd, 0, hd, h1⟩
  · exact ⟨i, List.mem_range.mp hi, j, hj, h1⟩

/-- The search of `move` only depends on the grid. -/
theorem findTile_congr (d : Nat) (b b1 : Board) (h : SameGrid d b b1) (tile : Int) :
    findTile d b tile = findTile d b1 tile := by
  unfold findTile
  apply List.foldl_ext
  intro s i hi
  unfold findRow
  apply List.foldl_ext
  intro s1 j hj
  rw [h i (List.mem_range.mp hi) j (List.mem_range.mp hj)]

/-- The test of `won` only depends on the grid. -/
theorem won_congr (d : Nat) (b b1 : Board) (h : SameGrid d b b1) : won d b = won d b1 := by
  have key : ∀ x y : Board, SameGrid d x y → won d x = true → won d y = true := by
    intro x y hxy hw
    rw [won_iff_cells] at hw ⊢
    intro i hi j hj
    rw [← hxy i hi j hj]
    exact hw i hi j hj
  cases h1 : won d b with
  | true => exact (key b b1 h h1).symm
  | false =>
    cases h2 : won d b1 with
    | false => rfl
    | true =>
      have := key b1 b (fun i hi j hj => (h i hi j hj).symm) h2
      rw [h1] at this
      exact absurd this (by simp)

/-- The shape of every call of `move`: nothing is written, or the value of the
located cell `(r, c)` is written into an in-grid neighbour holding `0` and
`(r, c)` is cleared. -/
theorem move_shape (d : Nat) (hd : 0 < d) (b : Board) (tile : Int) :
    move d b tile = (false, b) ∨
      ∃ r : Nat, r < d ∧ ∃ c : Nat, c < d ∧ ∃ r1 : Nat, r1 < d ∧ ∃ c1 : Nat, c1 < d ∧
        Adjacent r1 c1 r c ∧ b r1 c1 = 0 ∧ findTile d b tile = ((r : Int), (c : Int)) ∧
        ¬ (tile > (d : Int) * d - 1 ∨ tile < 1) ∧
        move d b tile = (true, (b.set r1 c1 (b r c)).set r c 0) := by
  obtain ⟨r, hr, c, hc, hf⟩ := findTile_range d hd b tile
  unfold move
  by_cases hrange : tile > (d : Int) * d - 1 ∨ tile < 1
  · left
    rw [if_pos hrange]
  rw [if_neg hrange, hf]
  dsimp only
  by_cases h1 : b ((r : Int) - 1) c = 0 ∧ (r : Int) - 1 ≥ 0
  · right
    have e : (r : Int) - 1 = ((r - 1 : Nat) : Int) := by omega
    rw [if_pos h1, e]
    rw [e] at h1
    exact ⟨r, hr, c, hc, r - 1, by omega, c, hc, Or.inl ⟨rfl, Or.inr (by omega)⟩, h1.1, rfl,
      hrange, rfl⟩
  rw [if_neg h1]
  by_cases h2 : b ((r : Int) + 1) c = 0 ∧ (r : Int) + 1 < d
  · right
    have e : (r : Int) + 1 = ((r + 1 : Nat) : Int) := by omega
    rw [if_pos h2, e]
    rw [e] at h2
    exact ⟨r, hr, c, hc, r + 1, by omega, c, hc, Or.inl ⟨rfl, Or.inl rfl⟩, h2.1, rfl,
      hrange, rfl⟩
  rw [if_neg h2]
  by_cases h3 : b r ((c : Int) - 1) = 0 ∧ (c : Int) - 1 ≥ 0
  · right
    have e : (c : Int) - 1 = ((c - 1 : Nat) : Int) := by omega
    rw [if_pos h3, e]
    rw [e] at h3
    exact ⟨r, hr, c, hc, r, hr, c - 1, by omega, Or.inr ⟨rfl, Or.inr (by omega)⟩, h3.1, rfl,
      hrange, rfl⟩
  rw [if_neg h3]
  by_cases h4 : b r ((c : Int) + 1) = 0 ∧ (c : Int) + 1 < d
  · right
    have e : (c : Int) + 1 = ((c + 1 : Nat) : Int) := by omega
    rw [if_pos h4, e]
    rw [e] at h4
    exact ⟨r, hr, c, hc, r, hr, c + 1, by omega, Or.inr ⟨rfl, Or.inl rfl⟩, h4.1, rfl,
      hrange, rfl⟩
  rw [if_neg h4]
  left
  rfl

/-- The row-major index of the last cell. -/
theorem last_index (d : Nat) (hd : 0 < d) : (d - 1) * d + (d - 1) + 1 = d * d := by
  cases d with
  | zero => omega
  | succ n =>
    simp only [Nat.add_sub_cancel]
    ring

/-- On two storages with the same grid `move` takes the same path: it fails on
both, or performs the same two writes on both. -/
theorem move_pair (d : Nat) (hd : 0 < d) (b b1 : Board) (h : SameGrid d b b1) (tile : Int) :
    (move d b tile = (false, b) ∧ move d b1 tile = (false, b1)) ∨
      ∃ r : Nat, r < d ∧ ∃ c : Nat, c < d ∧ ∃ r1 : Nat, r1 < d ∧ ∃ c1 : Nat, c1 < d ∧
        move d b tile = (true, (b.set r1 c1 (b r c)).set r c 0) ∧
        move d b1 tile = (true, (b1.set r1 c1 (b1 r c)).set r c 0) := by
  obtain ⟨r, hr, c, hc, hf⟩ := findTile_range d hd b tile
  have hf1 : findTile d b1 tile = ((r : Int), (c : Int)) := by
    rw [← findTile_congr d b b1 h tile, hf]
  unfold move
  by_cases hrange : tile > (d : Int) * d - 1 ∨ tile < 1
  · left
    rw [if_pos hrange, if_pos hrange]
    exact ⟨rfl, rfl⟩
  rw [if_neg hrange, if_neg hrange, hf, hf1]
  dsimp only
  by_cases h1 : b ((r : Int) - 1) c = 0 ∧ (r : Int) - 1 ≥ 0
  · right
    have e : (r : Int) - 1 = ((r - 1 : Nat) : Int) := by omega
    have h1' : b1 ((r : Int) - 1) c = 0 ∧ (r : Int) - 1 ≥ 0 := by
      refine ⟨?_, h1.2⟩
      rw [e, ← h (r - 1) (by omega) c hc, ← e]
      exact h1.1
    rw [if_pos h1, if_pos h1', e]
    exact ⟨r, hr, c, hc, r - 1, by omega, c, hc, rfl, rfl⟩
  have n1 : ¬ (b1 ((r : Int) - 1) c = 0 ∧ (r : Int) - 1 ≥ 0) := by
    rintro ⟨k1, k2⟩
    have e : (r : Int) - 1 = ((r - 1 : Nat) : Int) := by omega
    apply h1
    refine ⟨?_, k2⟩
    rw [e, h (r - 1) (by omega) c hc, ← e]
    exact k1
  rw [if_neg h1, if_neg n1]
  by_cases h2 : b ((r : Int) + 1) c = 0 ∧ (r : Int) + 1 < d
  · right
    have e : (r : Int) + 1 = ((r + 1 : Nat) : Int) := by omega
    have h2' : b1 ((r : Int) + 1) c = 0 ∧ (r : Int) + 1 < d := by
      refine ⟨?_, h2.2⟩
      rw [e, ← h (r + 1) (by omega) c hc, ← e]
      exact h2.1
    rw [if_pos h2, if_pos h2', e]
    exact ⟨r, hr, c, hc, r + 1, by omega, c, hc, rfl, rfl⟩
  have n2 : ¬ (b1 ((r : Int) + 1) c = 0 ∧ (r : Int) + 1 < d) := by
    rintro ⟨k1, k2⟩
    have e : (r : Int) + 1 = ((r + 1 : Nat) : Int) := by omega
    apply h2
    refine ⟨?_, k2⟩
    rw [e, h (r + 1) (by omega) c hc, ← e]
    exact k1
  rw [if_neg h2, if_neg n2]
  by_cases h3 : b r ((c : Int) - 1) = 0 ∧ (c : Int) - 1 ≥ 0
  · right
    have e : (c : Int) - 1 = ((c - 1 : Nat) : Int) := by omega
    have h3' : b1 r ((c : Int) - 1) = 0 ∧ (c : Int) - 1 ≥ 0 := by
      refine ⟨?_, h3.2⟩
      rw [e, ← h r hr (c - 1) (by omega), ← e]
      exact h3.1
    rw [if_pos h3, if_pos h3', e]
    exact ⟨r, hr, c, hc, r, hr, c - 1, by omega, rfl, rfl⟩
  have n3 : ¬ (b1 r ((c : Int) - 1) = 0 ∧ (c : Int) - 1 ≥ 0) := by
    rintro ⟨k1, k2⟩
    have e : (c : Int) - 1 = ((c - 1 : Nat) : Int) := by omega
    apply h3
    refine ⟨?_, k2⟩
    rw [e, h r hr (c - 1) (by omega), ← e]
    exact k1
  rw [if_neg h3, if_neg n3]
  by_cases h4 : b r ((c : Int) + 1) = 0 ∧ (c : Int) + 1 < d
  · right
    have e : (c : Int) + 1 = ((c + 1 : Nat) : Int) := by omega
    have h4' : b1 r ((c : Int) + 1) = 0 ∧ (c : Int) + 1 < d := by
      refine ⟨?_, h4.2⟩
      rw [e, ← h r hr (c + 1) (by omega), ← e]
      exact h4.1
    rw [if_pos h4, if_pos h4', e]
    exact ⟨r, hr, c, hc, r, hr, c + 1, by omega, rfl, rfl⟩
  have n4 : ¬ (b1 r ((c : Int) + 1) = 0 ∧ (c : Int) + 1 < d) := by
    rintro ⟨k1, k2⟩
    have e : (c : Int) + 1 = ((c + 1 : Nat) : Int) := by omega
    apply h4
    refine ⟨?_, k2⟩
    rw [e, h r hr (c + 1) (by omega), ← e]
    exact k1
  rw [if_neg h4, if_neg n4]
  left
  exact ⟨rfl, rfl⟩

/-! ## The traced `move` and the variants of `move` -/

/-- The traced function computes what `move` computes. -/
theorem moveTraced_fst (d : Nat) (b : Board) (tile : Int) :
    (moveTraced d b tile).1 = move d b tile := by
  unfold moveTraced move
  dsimp only
  split_ifs <;> rfl

/-- The source order of the tests is above, below, left, right. -/
theorem moveOrder_source (d : Nat) (b : Board) (tile : Int) :
    moveOrder d b tile [Dir.above, Dir.below, Dir.left, Dir.right] = move d b tile := by
  unfold moveOrder move tryDirs tryDirs tryDirs tryDirs tryDirs
  simp only [dirCond, dirSwap]

/-- On a valid board a directional condition at an in-grid cell can only hold
for the direction of the empty cell: two conditions that hold are the same. -/
theorem dirCond_unique (d : Nat) (b : Board) (hv : Valid d b) (r c : Nat) (hr : r < d)
    (hc : c < d) (x y : Dir) (hx : dirCond d b r c x) (hy : dirCond d b r c y) : x = y := by
  have hdpos : 0 < d := by omega
  obtain ⟨r0, hr0, c0, hc0, hz⟩ :=
    valid_cell d b hv 0 (le_refl 0)
      (by have := Int.mul_pos (Int.ofNat_pos.mpr hdpos) (Int.ofNat_pos.mpr hdpos); omega)
  have huz : ∀ i : Nat, i < d → ∀ j : Nat, j < d → b i j = 0 → i = r0 ∧ j = c0 := by
    intro i hi j hj hij
    have hpos := Int.mul_pos (Int.ofNat_pos.mpr hdpos) (Int.ofNat_pos.mpr hdpos)
    exact valid_unique d b hv 0 (le_refl 0) (by omega) i j r0 c0 hi hj hr0 hc0 hij hz
  have pos : ∀ z : Dir, dirCond d b r c z →
      (z = Dir.above ∧ r = r0 + 1 ∧ c = c0) ∨ (z = Dir.below ∧ r0 = r + 1 ∧ c = c0)
        ∨ (z = Dir.left ∧ r = r0 ∧ c = c0 + 1) ∨ (z = Dir.right ∧ r = r0 ∧ c0 = c + 1) := by
    intro z hz1
    cases z with
    | above =>
      obtain ⟨k1, k2⟩ := hz1
      have e : (r : Int) - 1 = ((r - 1 : Nat) : Int) := by omega
      rw [e] at k1
      have := huz (r - 1) (by omega) c hc k1
      left
      exact ⟨rfl, by omega, by omega⟩
    | below =>
      obtain ⟨k1, k2⟩ := hz1
      have e : (r : Int) + 1 = ((r + 1 : Nat) : Int) := by omega
      rw [e] at k1
      have := huz (r + 1) (by omega) c hc k1
      right; left
      exact ⟨rfl, by omega, by omega⟩
    | left =>
      obtain ⟨k1, k2⟩ := hz1
      have e : (c : Int) - 1 = ((c - 1 : Nat) : Int) := by omega
      rw [e] at k1
      have := huz r hr (c - 1) (by omega) k1
      right; right; left
      exact ⟨rfl, by omega, by omega⟩
    | right =>
      obtain ⟨k1, k2⟩ := hz1
      have e : (c : Int) + 1 = ((c + 1 : Nat) : Int) := by omega
      rw [e] at k1
      have := huz r hr (c + 1) (by omega) k1
      right; right; right
      exact ⟨rfl, by omega, by omega⟩
  rcases pos x hx with ⟨e, p1, p2⟩ | ⟨e, p1, p2⟩ | ⟨e, p1, p2⟩ | ⟨e, p1, p2⟩ <;>
    rcases pos y hy with ⟨f, q1, q2⟩ | ⟨f, q1, q2⟩ | ⟨f, q1, q2⟩ | ⟨f, q1, q2⟩ <;>
    first
      | (exfalso; omega)
      | (rw [e, f])

/-- When at most one condition can hold, the order of the tests is irrelevant:
the chain succeeds with the direction whose condition holds, wherever it is in
the list. -/
theorem tryDirs_of_mem (d : Nat) (b : Board) (row column : Int) (x : Dir)
    (hx : dirCond d b row column x)
    (hu : ∀ y : Dir, dirCond d b row column y → y = x) (l : List Dir) (hl : x ∈ l) :
    tryDirs d b row column l = (true, dirSwap b row column x) := by
  induction l with
  | nil => simp at hl
  | cons y ys ih =>
    unfold tryDirs
    by_cases hy : dirCond d b row column y
    · rw [if_pos hy, hu y hy]
    · rw [if_neg hy]
      rcases List.mem_cons.mp hl with e | e
      · rw [e] at hx
        exact absurd hx hy
      · exact ih e

theorem tryDirs_none (d : Nat) (b : Board) (row column : Int)
    (hn : ∀ y : Dir, ¬ dirCond d b row column y) (l : List Dir) :
    tryDirs d b row column l = (false, b) := by
  induction l with
  | nil => rfl
  | cons y ys ih =>
    unfold tryDirs
    rw [if_neg (hn y)]
    exact ih

/-! ## Counting the legal moves -/

theorem mem_neighbours (d r0 c0 : Nat) (hr0 : r0 < d) (hc0 : c0 < d) (p : Nat × Nat) :
    p ∈ neighbours d r0 c0 ↔ p.1 < d ∧ p.2 < d ∧ Adjacent p.1 p.2 r0 c0 := by
  obtain ⟨r, c⟩ := p
  have h1 : (r, c) ∈ (if 1 ≤ r0 then [(r0 - 1, c0)] else []) ↔ (1 ≤ r0 ∧ r = r0 - 1 ∧ c = c0) := by
    split_ifs with k <;> simp [k]
  have h2 : (r, c) ∈ (if r0 + 1 < d then [(r0 + 1, c0)] else [])
      ↔ (r0 + 1 < d ∧ r = r0 + 1 ∧ c = c0) := by
    split_ifs with k <;> simp [k]
  have h3 : (r, c) ∈ (if 1 ≤ c0 then [(r0, c0 - 1)] else []) ↔ (1 ≤ c0 ∧ r = r0 ∧ c = c0 - 1) := by
    split_ifs with k <;> simp [k]
  have h4 : (r, c) ∈ (if c0 + 1 < d then [(r0, c0 + 1)] else [])
      ↔ (c0 + 1 < d ∧ r = r0 ∧ c = c0 + 1) := by
    split_ifs with k <;> simp [k]
  unfold neighbours Adjacent
  rw [List.mem_append, List.mem_append, List.mem_append, h1, h2, h3, h4]
  dsimp only
  omega

theorem nodup_neighbours (d r0 c0 : Nat) : (neighbours d r0 c0).Nodup := by
  unfold neighbours
  split_ifs <;> simp <;> omega

/-- The number of in-grid neighbours: 2 in a corner, 3 on an edge, 4 inside. -/
theorem length_neighbours (d r0 c0 : Nat) (hd : 3 ≤ d) (hr0 : r0 < d) (hc0 : c0 < d) :
    (neighbours d r0 c0).length
      = 4 - (if r0 = 0 ∨ r0 = d - 1 then 1 else 0) - (if c0 = 0 ∨ c0 = d - 1 then 1 else 0) := by
  unfold neighbours
  simp only [List.length_append]
  split_ifs <;> simp <;> omega

/-- On a valid board every cell of the grid holds one of the values `0 .. d*d-1`
(there are as many cells as values). -/
theorem valid_value_range (d : Nat) (b : Board) (hv : Valid d b) (i j : Nat) (hi : i < d)
    (hj : j < d) : ∃ v : Nat, v < d * d ∧ b i j = (v : Int) := by
  have H : ∀ v : Fin (d * d), ∃ r c : Nat, r < d ∧ c < d ∧ b r c = ((v : Nat) : Int) := by
    intro v
    obtain ⟨r, hr, c, hc, hb, _⟩ := hv v.val v.isLt
    exact ⟨r, c, hr, hc, hb⟩
  choose fr fc h1 h2 h3 using H
  let f : Fin (d * d) → Fin (d * d) := fun v => ⟨fr v * d + fc v, idx_lt d _ _ (h1 v) (h2 v)⟩
  have hinj : Function.Injective f := by
    intro v w hvw
    have e : fr v * d + fc v = fr w * d + fc w := congrArg Fin.val hvw
    obtain ⟨e1, e2⟩ := idx_inj d _ _ _ _ (h2 v) (h2 w) e
    have e3 := h3 v
    rw [e1, e2, h3 w] at e3
    exact Fin.ext (by exact_mod_cast e3.symm)
  have hsurj : Function.Surjective f := Finite.injective_iff_surjective.mp hinj
  obtain ⟨v, hfv⟩ := hsurj ⟨i * d + j, idx_lt d i j hi hj⟩
  have e : fr v * d + fc v = i * d + j := congrArg Fin.val hfv
  obtain ⟨e1, e2⟩ := idx_inj d _ _ _ _ (h2 v) hj e
  refine ⟨v.val, v.isLt, ?_⟩
  rw [← e1, ← e2]
  exact h3 v

/-- On a valid board a tile in range can be moved exactly when it sits on an
in-grid neighbour of the empty cell. -/
theorem movable_iff (d : Nat) (b : Board) (hv : Valid d b) (r0 c0 : Nat) (hr0 : r0 < d)
    (hc0 : c0 < d) (hz : b r0 c0 = 0) (t : Nat) (ht1 : 1 ≤ t) (htd : t < d * d) :
    (move d b (t : Int)).1 = true ↔ ∃ p ∈ neighbours d r0 c0, b p.1 p.2 = (t : Int) := by
  have hcast : ((d * d : Nat) : Int) = (d : Int) * d := by push_cast; ring
  have k1 : 1 ≤ (t : Int) := by omega
  have k2 : (t : Int) ≤ (d : Int) * d - 1 := by omega
  obtain ⟨r, hr, c, hc, ht⟩ := valid_cell d b hv t (by omega) k2
  rcases move_cases d b hv t k1 k2 r c r0 c0 hr hc hr0 hc0 ht hz with ⟨ha, h⟩ | ⟨hn, h⟩
  · rw [h]
    constructor
    · intro _
      exact ⟨(r, c), (mem_neighbours d r0 c0 hr0 hc0 (r, c)).mpr ⟨hr, hc, ha⟩, ht⟩
    · intro _
      rfl
  · rw [h]
    constructor
    · intro k
      exact absurd k (by simp)
    · rintro ⟨p, hp, hbp⟩
      obtain ⟨p1, p2, pa⟩ := (mem_neighbours d r0 c0 hr0 hc0 p).mp hp
      obtain ⟨e1, e2⟩ := valid_unique d b hv t (by omega) k2 p.1 p.2 r c p1 p2 hr hc hbp ht
      rw [e1, e2] at pa
      exact absurd pa hn

/-- The movable tiles are the values held by the in-grid neighbours of the empty cell. -/
theorem movable_count (d : Nat) (b : Board) (hv : Valid d b) (r0 c0 : Nat) (hr0 : r0 < d)
    (hc0 : c0 < d) (hz : b r0 c0 = 0) :
    (movableTiles d b).length = (neighbours d r0 c0).length := by
  have hcast : ((d * d : Nat) : Int) = (d : Int) * d := by push_cast; ring
  have hpos : (0 : Int) ≤ (d : Int) * d - 1 := by
    have : 0 < d * d := Nat.mul_pos (by omega) (by omega)
    omega
  have hval := valid_value_range d b hv
  -- a neighbour of the empty cell holds a tile
  have hnz : ∀ p ∈ neighbours d r0 c0, ∃ v : Nat, 1 ≤ v ∧ v < d * d ∧ b p.1 p.2 = (v : Int) := by
    intro p hp
    obtain ⟨p1, p2, pa⟩ := (mem_neighbours d r0 c0 hr0 hc0 p).mp hp
    obtain ⟨v, hv1, hv2⟩ := hval p.1 p.2 p1 p2
    refine ⟨v, ?_, hv1, hv2⟩
    by_contra hv0
    have e0 : v = 0 := by omega
    rw [e0] at hv2
    obtain ⟨e1, e2⟩ :=
      valid_unique d b hv 0 (le_refl 0) hpos p.1 p.2 r0 c0 p1 p2 hr0 hc0 hv2 hz
    rw [e1, e2] at pa
    unfold Adjacent at pa
    omega
  have hnd : ((neighbours d r0 c0).map fun (p : Nat × Nat) => (b p.1 p.2).toNat).Nodup := by
    apply List.Nodup.map_on _ (nodup_neighbours d r0 c0)
    intro x hx y hy hxy
    obtain ⟨x1, x2, _⟩ := (mem_neighbours d r0 c0 hr0 hc0 x).mp hx
    obtain ⟨y1, y2, _⟩ := (mem_neighbours d r0 c0 hr0 hc0 y).mp hy
    obtain ⟨v, _, hvlt, hvx⟩ := hnz x hx
    obtain ⟨w, _, _, hwy⟩ := hnz y hy
    rw [hvx, hwy] at hxy
    simp only [Int.toNat_ofNat] at hxy
    rw [← hxy] at hwy
    obtain ⟨e1, e2⟩ :=
      valid_unique d b hv v (by omega) (by omega) x.1 x.2 y.1 y.2 x1 x2 y1 y2 hvx hwy
    exact Prod.ext e1 e2
  have hnd2 : (movableTiles d b).Nodup := (List.nodup_range _).filter _
  have hperm : (movableTiles d b).Perm
      ((neighbours d r0 c0).map fun (p : Nat × Nat) => (b p.1 p.2).toNat) := by
    rw [List.perm_ext_iff_of_nodup hnd2 hnd]
    intro t
    unfold movableTiles
    simp only [List.mem_filter, List.mem_range, Bool.and_eq_true, decide_eq_true_eq,
      List.mem_map]
    constructor
    · rintro ⟨htd, ht1, hm⟩
      obtain ⟨p, hp, hbp⟩ := (movable_iff d b hv r0 c0 hr0 hc0 hz t ht1 htd).mp hm
      exact ⟨p, hp, by rw [hbp]; rfl⟩
    · rintro ⟨p, hp, hbp⟩
      obtain ⟨v, hv1, hvlt, hvp⟩ := hnz p hp
      rw [hvp] at hbp
      simp only [Int.toNat_ofNat] at hbp
      subst hbp
      exact ⟨hvlt, hv1, (movable_iff d b hv r0 c0 hr0 hc0 hz v hv1 hvlt).mpr ⟨p, hp, hvp⟩⟩
  rw [hperm.length_eq, List.length_map]

/-! ## The parity invariant -/

theorem cell_div (d r c : Nat) (hc : c < d) : (r * d + c) / d = r := by
  have hd : 0 < d := by omega
  rw [Nat.mul_comm, Nat.mul_add_div hd, Nat.div_eq_of_lt hc, Nat.add_zero]

theorem cell_mod (d r c : Nat) (hc : c < d) : (r * d + c) % d = c := by
  rw [Nat.mul_comm, Nat.mul_add_mod, Nat.mod_eq_of_lt hc]

theorem div_mod_cell (d k : Nat) : k / d * d + k % d = k := by
  rw [Nat.mul_comm]
  exact Nat.div_add_mod k d

/-- Reading a permutation representation at the cell `(r, c)`. -/
theorem permRep_cell (d : Nat) (b : Board) (σ : Equiv.Perm (Fin (d * d))) (h : PermRep d b σ)
    (r c : Nat) (hr : r < d) (hc : c < d) :
    b r c = (((σ ⟨r * d + c, idx_lt d r c hr hc⟩).val : Nat) : Int) := by
  have := h ⟨r * d + c, idx_lt d r c hr hc⟩
  simp only [cell_div d r c hc, cell_mod d r c hc] at this
  exact this

/-- A board that is a permutation satisfies the invariant. -/
theorem permRep_valid (d : Nat) (b : Board) (σ : Equiv.Perm (Fin (d * d))) (h : PermRep d b σ) :
    Valid d b := by
  intro v hv
  have hd : 0 < d := by
    rcases Nat.eq_zero_or_pos d with e | e
    · rw [e] at hv; omega
    · exact e
  let k : Fin (d * d) := σ.symm ⟨v, hv⟩
  have hk : σ k = ⟨v, hv⟩ := σ.apply_symm_apply _
  refine ⟨k.val / d, Nat.div_lt_of_lt_mul k.isLt, k.val % d, Nat.mod_lt _ hd, ?_, ?_⟩
  · rw [h k, hk]
  · intro i1 hi1 j1 hj1 hb
    rw [permRep_cell d b σ h i1 j1 hi1 hj1] at hb
    have e1 : σ ⟨i1 * d + j1, idx_lt d i1 j1 hi1 hj1⟩ = ⟨v, hv⟩ :=
      Fin.ext (by exact_mod_cast hb)
    have e2 : (⟨i1 * d + j1, idx_lt d i1 j1 hi1 hj1⟩ : Fin (d * d)) = k := by
      apply σ.injective
      rw [e1, hk]
    have e3 : i1 * d + j1 = k.val := congrArg Fin.val e2
    rw [← e3, cell_div d i1 j1 hj1, cell_mod d i1 j1 hj1]
    exact ⟨rfl, rfl⟩

theorem parity_valid (d : Nat) (b : Board) (s : ℤˣ) (h : Parity d b s) : Valid d b := by
  obtain ⟨σ, _, hσ, _, _⟩ := h
  exact permRep_valid d b σ hσ

/-- The parity of a board is determined by the board. -/
theorem parity_unique (d : Nat) (b : Board) (s s1 : ℤˣ) (h : Parity d b s)
    (h1 : Parity d b s1) : s = s1 := by
  obtain ⟨σ, z, hσ, hz, hs⟩ := h
  obtain ⟨τ, y, hτ, hy, hs1⟩ := h1
  have e : σ = τ := by
    apply Equiv.ext
    intro k
    have := hσ k
    rw [hτ k] at this
    exact Fin.ext (by exact_mod_cast this.symm)
  subst e
  have e2 : z = y := by
    apply σ.injective
    exact Fin.ext (by rw [hz, hy])
  subst e2
  rw [hs, hs1]

/-- The parity of a board only depends on its grid. -/
theorem parity_congr (d : Nat) (b b1 : Board) (s : ℤˣ) (h : Parity d b s)
    (hg : SameGrid d b b1) : Parity d b1 s := by
  obtain ⟨σ, z, hσ, hz, hs⟩ := h
  refine ⟨σ, z, ?_, hz, hs⟩
  intro k
  have hd : 0 < d := by
    by_contra h0
    have e : d = 0 := by omega
    have h2 : d * d = 0 := by rw [e]
    have := k.isLt
    omega
  rw [← hg (k.val / d) (Nat.div_lt_of_lt_mul k.isLt) (k.val % d) (Nat.mod_lt _ hd)]
  exact hσ k

/-- Every call of `move`, legal or not, keeps the parity of the board: a legal
move is a transposition and moves the empty cell by one step. -/
theorem parity_move (d : Nat) (b : Board) (s : ℤˣ) (h : Parity d b s) (t : Int) :
    Parity d (move d b t).2 s := by
  have hv := parity_valid d b s h
  obtain ⟨σ, z, hσ, hz, hs⟩ := h
  have hd : 0 < d := by
    by_contra h0
    have e : d = 0 := by omega
    have h2 : d * d = 0 := by rw [e]
    have := z.isLt
    omega
  by_cases hrange : t < 1 ∨ t > (d : Int) * d - 1
  · rw [move_out_of_range d b t hrange]
    exact ⟨σ, z, hσ, hz, hs⟩
  have h1 : 1 ≤ t := by omega
  have h2 : t ≤ (d : Int) * d - 1 := by omega
  have hr0 : z.val / d < d := Nat.div_lt_of_lt_mul z.isLt
  have hc0 : z.val % d < d := Nat.mod_lt _ hd
  have hz0 : b ((z.val / d : Nat) : Int) ((z.val % d : Nat) : Int) = 0 := by
    rw [hσ z, hz]
    rfl
  obtain ⟨r, hr, c, hc, ht⟩ := valid_cell d b hv t (by omega) h2
  rcases move_cases d b hv t h1 h2 r c (z.val / d) (z.val % d) hr hc hr0 hc0 ht hz0 with
    ⟨ha, hm⟩ | ⟨_, hm⟩
  · rw [hm]
    have hp := permRep_cell d b σ hσ r c hr hc
    have hne : (⟨r * d + c, idx_lt d r c hr hc⟩ : Fin (d * d)) ≠ z := by
      intro e
      rw [e, hz] at hp
      rw [ht] at hp
      simp only [Nat.cast_zero] at hp
      omega
    refine ⟨σ * Equiv.swap ⟨r * d + c, idx_lt d r c hr hc⟩ z, ⟨r * d + c, idx_lt d r c hr hc⟩,
      ?_, ?_, ?_⟩
    · intro k
      show ((b.set ((z.val / d : Nat) : Int) ((z.val % d : Nat) : Int) t).set r c 0)
          ((k.val / d : Nat) : Int) ((k.val % d : Nat) : Int) = _
      rw [swap_cell, Equiv.Perm.mul_apply]
      by_cases kp : k = ⟨r * d + c, idx_lt d r c hr hc⟩
      · rw [kp, Equiv.swap_apply_left, hz]
        have e1 : (r * d + c) / d = r := cell_div d r c hc
        have e2 : (r * d + c) % d = c := cell_mod d r c hc
        rw [if_pos ⟨e1, e2⟩]
        rfl
      · have n1 : ¬ (k.val / d = r ∧ k.val % d = c) := by
          rintro ⟨e1, e2⟩
          apply kp
          apply Fin.ext
          show k.val = r * d + c
          rw [← e1, ← e2, div_mod_cell]
        rw [if_neg n1]
        by_cases kz : k = z
        · rw [kz, Equiv.swap_apply_right, if_pos ⟨rfl, rfl⟩, ← hp, ht]
        · have n2 : ¬ (k.val / d = z.val / d ∧ k.val % d = z.val % d) := by
            rintro ⟨e1, e2⟩
            apply kz
            apply Fin.ext
            rw [← div_mod_cell d k.val, ← div_mod_cell d z.val, e1, e2]
          rw [if_neg n2, Equiv.swap_apply_of_ne_of_ne kp kz]
          exact hσ k
    · rw [Equiv.Perm.mul_apply, Equiv.swap_apply_left, hz]
    · rw [Equiv.Perm.sign_mul, Equiv.Perm.sign_swap hne, hs]
      simp only [cell_div d r c hc, cell_mod d r c hc]
      have hsum : r + c = z.val / d + z.val % d + 1 ∨ z.val / d + z.val % d = r + c + 1 := by
        unfold Adjacent at ha
        omega
      rcases hsum with e | e
      · rw [e, pow_succ]
        simp [mul_assoc]
      · rw [e, pow_succ]
        simp [mul_comm]
  · rw [hm]
    exact ⟨σ, z, hσ, hz, hs⟩

theorem parity_play (d : Nat) (tiles : List Int) (b : Board) (s : ℤˣ) (h : Parity d b s) :
    Parity d (play d b tiles) s := by
  induction tiles generalizing b with
  | nil => exact h
  | cons t ts ih => exact ih (move d b t).2 (parity_move d b s h t)

/-- The row-major index of a cell, in the integers. -/
theorem cast_cell (d k : Nat) : ((k / d : Nat) : Int) * d + ((k % d : Nat) : Int) = (k : Int) := by
  have h := div_mod_cell d k
  generalize k / d = q at h
  generalize k % d = m at h
  subst h
  push_cast
  ring

/-- The value of the reversal at index `k`, in the integers. -/
theorem cast_rev (n k : Nat) (hk : k < n) : ((n - (k + 1) : Nat) : Int) = (n : Int) - 1 - k := by
  omega

/-- The row-major index of the last cell, as an element of `Fin (d*d)`. -/
theorem last_lt (d : Nat) (hd : 0 < d) : d * d - 1 < d * d := by
  have : 0 < d * d := Nat.mul_pos hd hd
  omega

/-- The purely descending layout `d*d-1, ..., 1, 0` is the reversal permutation. -/
theorem descending_permRep (d : Nat) (b : Board)
    (hb : ∀ i : Nat, i < d → ∀ j : Nat, j < d →
      b i j = (d : Int) * d - 1 - ((i : Int) * d + j)) :
    PermRep d b Fin.revPerm := by
  intro k
  have hd : 0 < d := by
    by_contra h0
    have e : d = 0 := by omega
    have h2 : d * d = 0 := by rw [e]
    have := k.isLt
    omega
  have hk := k.isLt
  rw [hb _ (Nat.div_lt_of_lt_mul k.isLt) _ (Nat.mod_lt _ hd), Fin.revPerm_apply, Fin.val_rev,
    cast_rev (d * d) k.val hk]
  have e1 := cast_cell d k.val
  have e2 : ((d * d : Nat) : Int) = (d : Int) * d := by push_cast; ring
  omega

/-- The layout written by `init` for even `d` is the reversal followed by the
exchange of the values 1 and 2. -/
theorem init_permRep (d : Nat) (hd3 : 3 ≤ d) (he : d % 2 = 0) (b0 : Board) :
    PermRep d (init d b0)
      (Equiv.swap (⟨1, by have := Nat.mul_le_mul hd3 hd3; omega⟩ : Fin (d * d))
        ⟨2, by have := Nat.mul_le_mul hd3 hd3; omega⟩ * Fin.revPerm) := by
  intro k
  have hd : 0 < d := by omega
  have hk := k.isLt
  have h9 := Nat.mul_le_mul hd3 hd3
  have hi : k.val / d < d := Nat.div_lt_of_lt_mul k.isLt
  have hj : k.val % d < d := Nat.mod_lt _ hd
  have hdm := div_mod_cell d k.val
  have hlast := last_index d hd
  have e2 : ((d * d : Nat) : Int) = (d : Int) * d := by push_cast; ring
  rw [init_cell d hd3 b0 _ _ hi hj, Equiv.Perm.mul_apply, Fin.revPerm_apply]
  by_cases c1 : d % 2 = 0 ∧ k.val / d = d - 1 ∧ k.val % d = d - 3
  · rw [if_pos c1]
    have kv : k.val = d * d - 3 := by
      rw [c1.2.1, c1.2.2] at hdm
      omega
    have er : Fin.rev k = ⟨2, by omega⟩ := Fin.ext (by rw [Fin.val_rev]; simp only; omega)
    rw [er, Equiv.swap_apply_right]
    rfl
  rw [if_neg c1]
  by_cases c2 : d % 2 = 0 ∧ k.val / d = d - 1 ∧ k.val % d = d - 2
  · rw [if_pos c2]
    have kv : k.val = d * d - 2 := by
      rw [c2.2.1, c2.2.2] at hdm
      omega
    have er : Fin.rev k = ⟨1, by omega⟩ := Fin.ext (by rw [Fin.val_rev]; simp only; omega)
    rw [er, Equiv.swap_apply_left]
    rfl
  rw [if_neg c2]
  have n1 : Fin.rev k ≠ ⟨1, by omega⟩ := by
    intro e
    have ev : (Fin.rev k).val = 1 := congrArg Fin.val e
    rw [Fin.val_rev] at ev
    have kv : k.val = (d - 1) * d + (d - 2) := by omega
    apply c2
    refine ⟨he, ?_, ?_⟩
    · rw [kv]; exact cell_div d (d - 1) (d - 2) (by omega)
    · rw [kv]; exact cell_mod d (d - 1) (d - 2) (by omega)
  have n2 : Fin.rev k ≠ ⟨2, by omega⟩ := by
    intro e
    have ev : (Fin.rev k).val = 2 := congrArg Fin.val e
    rw [Fin.val_rev] at ev
    have kv : k.val = (d - 1) * d + (d - 3) := by omega
    apply c1
    refine ⟨he, ?_, ?_⟩
    · rw [kv]; exact cell_div d (d - 1) (d - 3) (by omega)
    · rw [kv]; exact cell_mod d (d - 1) (d - 3) (by omega)
  rw [Equiv.swap_apply_of_ne_of_ne n1 n2, Fin.val_rev, cast_rev (d * d) k.val hk]
  have e1 := cast_cell d k.val
  omega

/-- For even `d` the descending layout and the layout written by `init` have
opposite parities. -/
theorem descending_init_parity (d : Nat) (hd3 : 3 ≤ d) (he : d % 2 = 0) (b b0 : Board)
    (hb : ∀ i : Nat, i < d → ∀ j : Nat, j < d →
      b i j = (d : Int) * d - 1 - ((i : Int) * d + j)) :
    ∃ s : ℤˣ, Parity d b s ∧ Parity d (init d b0) (-s) := by
  have hd : 0 < d := by omega
  have h9 := Nat.mul_le_mul hd3 hd3
  have hzrev : (Fin.revPerm (⟨d * d - 1, last_lt d hd⟩ : Fin (d * d))).val = 0 := by
    rw [Fin.revPerm_apply, Fin.val_rev]
    show d * d - (d * d - 1 + 1) = 0
    omega
  refine ⟨Equiv.Perm.sign (Fin.revPerm : Equiv.Perm (Fin (d * d)))
      * (-1) ^ ((d * d - 1) / d + (d * d - 1) % d), ?_, ?_⟩
  · exact ⟨Fin.revPerm, ⟨d * d - 1, last_lt d hd⟩, descending_permRep d b hb, hzrev, rfl⟩
  · refine ⟨_, ⟨d * d - 1, last_lt d hd⟩, init_permRep d hd3 he b0, ?_, ?_⟩
    · rw [Equiv.Perm.mul_apply]
      have e0 : Fin.revPerm (⟨d * d - 1, last_lt d hd⟩ : Fin (d * d)) = ⟨0, by omega⟩ :=
        Fin.ext hzrev
      rw [e0, Equiv.swap_apply_of_ne_of_ne]
      · intro e
        have := congrArg Fin.val e
        simp at this
      · intro e
        have := congrArg Fin.val e
        simp at this
    · rw [Equiv.Perm.sign_mul, Equiv.Perm.sign_swap]
      · simp
      · intro e
        have := congrArg Fin.val e
        simp at this

/-- On a valid board that `won` accepts, every cell of the grid is determined. -/
theorem won_valid_cells (d : Nat) (b : Board) (hv : Valid d b) (hw : won d b = true)
    (i j : Nat) (hi : i < d) (hj : j < d) :
    b i j = if i * d + j + 1 = d * d then 0 else (i : Int) * d + j + 1 := by
  have hcast : (i * d + j + 1 = d * d ↔ (d : Int) * d = (i : Int) * d + j + 1) := by
    constructor
    · intro h
      have : ((i * d + j + 1 : Nat) : Int) = ((d * d : Nat) : Int) := by rw [h]
      push_cast at this
      omega
    · intro h
      have h' : ((d * d : Nat) : Int) = ((i * d + j + 1 : Nat) : Int) := by
        push_cast; exact h
      exact (Nat.cast_injective h').symm
  rw [won_iff_cells] at hw
  have hdpos : 0 < d := by omega
  by_cases hl : i * d + j + 1 = d * d
  · rw [if_pos hl]
    obtain ⟨r0, hr0, c0, hc0, hz⟩ :=
      valid_cell d b hv 0 (le_refl 0)
        (by have := Int.mul_pos (Int.ofNat_pos.mpr hdpos) (Int.ofNat_pos.mpr hdpos); omega)
    rcases hw r0 hr0 c0 hc0 with h3 | h3
    · rw [hz] at h3
      have : (0 : Int) ≤ (r0 : Int) * d := by positivity
      omega
    · have e0 := (last_cell_iff d r0 c0 hr0 hc0).mp h3
      have e1 := (last_cell_iff d i j hi hj).mp (hcast.mp hl)
      have ei : i = r0 := by omega
      have ej : j = c0 := by omega
      rw [ei, ej, hz]
  · rw [if_neg hl]
    rcases hw i hi j hj with h3 | h3
    · exact h3
    · exact absurd (hcast.mpr h3) hl

/-- The board written by `init` can be solved, for every supported dimension. -/
theorem exists_solution (d : Nat) (hd3 : 3 ≤ d) (hd9 : d ≤ 9) (b0 : Board) :
    ∃ tiles : List Int, won d (play d (init d b0) tiles) = true := by
  interval_cases d
  · exact ⟨_, solution_wins 3 (by omega) (by omega) b0 solutionThree solutionThree_ok⟩
  · exact ⟨_, solution_wins 4 (by omega) (by omega) b0 solutionFour solutionFour_ok⟩
  · exact ⟨_, solution_wins 5 (by omega) (by omega) b0 solutionFive solutionFive_ok⟩
  · exact ⟨_, solution_wins 6 (by omega) (by omega) b0 solutionSix solutionSix_ok⟩
  · exact ⟨_, solution_wins 7 (by omega) (by omega) b0 solutionSeven solutionSeven_ok⟩
  · exact ⟨_, solution_wins 8 (by omega) (by omega) b0 solutionEight solutionEight_ok⟩
  · exact ⟨_, solution_wins 9 (by omega) (by omega) b0 solutionNine solutionNine_ok⟩

/-- Two boards of opposite parity cannot both reach a board that `won` accepts. -/
theorem opposite_parity_not_both_won (d : Nat) (b b1 : Board) (s : ℤˣ) (h : Parity d b s)
    (h1 : Parity d b1 (-s)) (tiles tiles1 : List Int)
    (hw1 : won d (play d b1 tiles1) = true) : won d (play d b tiles) = false := by
  cases hw : won d (play d b tiles) with
  | false => rfl
  | true =>
    exfalso
    have p := parity_play d tiles b s h
    have p1 := parity_play d tiles1 b1 (-s) h1
    have g : SameGrid d (play d b tiles) (play d b1 tiles1) := by
      intro i hi j hj
      rw [won_valid_cells d _ (parity_valid d _ s p) hw i j hi hj,
        won_valid_cells d _ (parity_valid d _ (-s) p1) hw1 i j hi hj]
    exact units_ne_neg_self s (parity_unique d _ s (-s) (parity_congr d _ _ s p g) p1)

/-! ## Reversibility -/

/-- C11: for `3 <= d <= 9`, on a board whose grid holds each of `0 .. d*d-1`
exactly once, if `move t` returns `true` then calling `move t` again right
away also returns `true` and the storage is back to what it was before the
first call. -/
theorem move_twice_restores (d : Nat) (_hd : DIM_MIN ≤ d ∧ d ≤ DIM_MAX) (b : Board)
    (hv : Valid d b) (t : Int) (hm : (move d b t).1 = true) :
    (move d (move d b t).2 t).1 = true ∧
      ∀ i j : Int, (move d (move d b t).2 t).2 i j = b i j := by
  by_cases hrange : t < 1 ∨ t > (d : Int) * d - 1
  · rw [move_out_of_range d b t hrange] at hm
    exact absurd hm (by simp)
  have h1 : 1 ≤ t := by omega
  have h2 : t ≤ (d : Int) * d - 1 := by omega
  obtain ⟨r, hr, c, hc, ht⟩ := valid_cell d b hv t (by omega) h2
  obtain ⟨r0, hr0, c0, hc0, hz⟩ := valid_cell d b hv 0 (le_refl 0) (by omega)
  rcases move_cases d b hv t h1 h2 r c r0 c0 hr hc hr0 hc0 ht hz with ⟨ha, h⟩ | ⟨_, h⟩
  · have hv1 : Valid d ((b.set r0 c0 t).set r c 0) :=
      valid_swap d b hv r c r0 c0 hr hc hr0 hc0 t ht hz (by omega)
    have hdiff : ¬ (r0 = r ∧ c0 = c) := by
      rintro ⟨e1, e2⟩
      rw [e1, e2, ht] at hz
      omega
    have ht1 : ((b.set r0 c0 t).set r c 0) r0 c0 = t := by
      rw [swap_cell, if_neg hdiff, if_pos ⟨rfl, rfl⟩]
    have hz1 : ((b.set r0 c0 t).set r c 0) r c = 0 := by
      rw [swap_cell, if_pos ⟨rfl, rfl⟩]
    rw [h]
    dsimp only
    rcases move_cases d _ hv1 t h1 h2 r0 c0 r c hr0 hc0 hr hc ht1 hz1 with ⟨_, k⟩ | ⟨hn, _⟩
    · rw [k, swap_swap b r c r0 c0 t ht hz]
      exact ⟨rfl, fun _ _ => rfl⟩
    · exact absurd (adjacent_symm r c r0 c0 ha) hn
  · rw [h] at hm
    exact absurd hm (by simp)

theorem move_twice_restores_witness :
    (DIM_MIN ≤ 3 ∧ 3 ≤ DIM_MAX) ∧ Valid 3 (ofRows [[1, 2, 3], [4, 0, 6], [7, 8, 5]]) ∧
      (move 3 (ofRows [[1, 2, 3], [4, 0, 6], [7, 8, 5]]) 6).1 = true ∧
      toRows 3 (move 3 (move 3 (ofRows [[1, 2, 3], [4, 0, 6], [7, 8, 5]]) 6).2 6).2
        = [[1, 2, 3], [4, 0, 6], [7, 8, 5]] ∧
      ((move 3 (move 3 (ofRows [[1, 2, 3], [4, 0, 6], [7, 8, 5]]) 6).2 6).1 = true ∧
        ∀ i j : Int, (move 3 (move 3 (ofRows [[1, 2, 3], [4, 0, 6], [7, 8, 5]]) 6).2 6).2 i j
          = ofRows [[1, 2, 3], [4, 0, 6], [7, 8, 5]] i j) :=
  ⟨by decide, by decide, by decide, by decide,
    move_twice_restores 3 (by decide) (ofRows [[1, 2, 3], [4, 0, 6], [7, 8, 5]]) (by decide) 6
      (by decide)⟩

/-! ## What `won` tests -/

/-- C12: for `3 <= d <= 9` and every grid content, `won` returns `true`
exactly when, for every `k` with `1 <= k <= d*d-1`, the `k`-th cell in
row-major order holds `k`; the last cell `(d-1, d-1)` is never tested, so its
value does not change the result. -/
theorem won_iff_prefix_sorted (d : Nat) (hd : DIM_MIN ≤ d ∧ d ≤ DIM_MAX) (b : Board) :
    (won d b = true ↔
        ∀ k : Nat, 1 ≤ k → k ≤ d * d - 1 →
          b (((k - 1) / d : Nat) : Int) (((k - 1) % d : Nat) : Int) = (k : Int)) ∧
      ∀ v : Int, won d (b.set ((d : Int) - 1) ((d : Int) - 1) v) = won d b := by
  have hd3 : 3 ≤ d := hd.1
  have hd0 : 0 < d := by omega
  have hcast : ((d * d : Nat) : Int) = (d : Int) * d := by push_cast; ring
  have first : ∀ x : Board, (won d x = true ↔
      ∀ k : Nat, 1 ≤ k → k ≤ d * d - 1 →
        x (((k - 1) / d : Nat) : Int) (((k - 1) % d : Nat) : Int) = (k : Int)) := by
    intro x
    rw [won_iff_cells]
    constructor
    · intro h k hk1 hk2
      have hlt : k - 1 < d * d := by omega
      have hi : (k - 1) / d < d := Nat.div_lt_of_lt_mul hlt
      have hj : (k - 1) % d < d := Nat.mod_lt _ hd0
      have hdm : d * ((k - 1) / d) + (k - 1) % d = k - 1 := Nat.div_add_mod (k - 1) d
      have hc : ((((k - 1) / d : Nat) : Int)) * d + (((k - 1) % d : Nat) : Int) + 1 = (k : Int) := by
        generalize (k - 1) / d = q at hdm
        generalize (k - 1) % d = m at hdm
        have hn : q * d + m + 1 = k := by rw [Nat.mul_comm]; omega
        have : ((q * d + m + 1 : Nat) : Int) = (k : Int) := by rw [hn]
        push_cast at this
        exact this
      rcases h _ hi _ hj with h1 | h1
      · rw [h1, hc]
      · rw [hc] at h1
        omega
    · intro h i hi j hj
      have hlt := idx_lt d i j hi hj
      by_cases hl : i * d + j + 1 = d * d
      · right
        have : ((d * d : Nat) : Int) = ((i * d + j + 1 : Nat) : Int) := by rw [hl]
        push_cast at this
        exact this
      · left
        have e1 : (i * d + j) / d = i := by
          rw [Nat.mul_comm, Nat.mul_add_div hd0, Nat.div_eq_of_lt hj, Nat.add_zero]
        have e2 : (i * d + j) % d = j := by
          rw [Nat.mul_comm, Nat.mul_add_mod, Nat.mod_eq_of_lt hj]
        have := h (i * d + j + 1) (by omega) (by omega)
        rw [Nat.add_sub_cancel, e1, e2] at this
        rw [this]
        push_cast
        ring
  refine ⟨first b, ?_⟩
  intro v
  have agree : ∀ k : Nat, 1 ≤ k → k ≤ d * d - 1 →
      (b.set ((d : Int) - 1) ((d : Int) - 1) v) (((k - 1) / d : Nat) : Int)
          (((k - 1) % d : Nat) : Int)
        = b (((k - 1) / d : Nat) : Int) (((k - 1) % d : Nat) : Int) := by
    intro k hk1 hk2
    apply set_other
    rintro ⟨e1, e2⟩
    have hdm : d * ((k - 1) / d) + (k - 1) % d = k - 1 := Nat.div_add_mod (k - 1) d
    have e3 : (k - 1) / d = d - 1 := by omega
    have e4 : (k - 1) % d = d - 1 := by omega
    rw [e3, e4] at hdm
    have e5 := last_index d hd0
    rw [Nat.mul_comm] at hdm
    omega
  cases hw : won d b with
  | true =>
    rw [first] at hw ⊢
    intro k hk1 hk2
    rw [agree k hk1 hk2]
    exact hw k hk1 hk2
  | false =>
    cases hw1 : won d (b.set ((d : Int) - 1) ((d : Int) - 1) v) with
    | false => rfl
    | true =>
      rw [first] at hw1
      have : won d b = true := by
        rw [first]
        intro k hk1 hk2
        rw [← agree k hk1 hk2]
        exact hw1 k hk1 hk2
      rw [hw] at this
      exact absurd this (by simp)

theorem won_iff_prefix_sorted_witness :
    (DIM_MIN ≤ 3 ∧ 3 ≤ DIM_MAX) ∧
      won 3 (ofRows [[1, 2, 3], [4, 5, 6], [7, 8, 42]]) = true ∧
      won 3 (ofRows [[1, 2, 3], [4, 5, 6], [8, 7, 0]]) = false ∧
      ((won 3 (ofRows [[1, 2, 3], [4, 5, 6], [7, 8, 42]]) = true ↔
          ∀ k : Nat, 1 ≤ k → k ≤ 3 * 3 - 1 →
            ofRows [[1, 2, 3], [4, 5, 6], [7, 8, 42]] (((k - 1) / 3 : Nat) : Int)
              (((k - 1) % 3 : Nat) : Int) = (k : Int)) ∧
        ∀ v : Int,
          won 3 ((ofRows [[1, 2, 3], [4, 5, 6], [7, 8, 42]]).set (((3 : Nat) : Int) - 1)
              (((3 : Nat) : Int) - 1) v)
            = won 3 (ofRows [[1, 2, 3], [4, 5, 6], [7, 8, 42]])) :=
  ⟨by decide, by decide, by decide,
    won_iff_prefix_sorted 3 (by decide) (ofRows [[1, 2, 3], [4, 5, 6], [7, 8, 42]])⟩

/-! ## The initial state -/

/-- C15: for `3 <= d <= 9`, `won` returns `false` on the board written by
`init` (its first cell holds `d*d-1`, not `1`), and it still returns `false`
after any call of `move` that fails: a win needs at least one successful move. -/
theorem init_not_won (d : Nat) (hd : DIM_MIN ≤ d ∧ d ≤ DIM_MAX) (b0 : Board) :
    won d (init d b0) = false ∧ init d b0 0 0 = (d : Int) * d - 1 ∧
      ∀ tile : Int, (move d (init d b0) tile).1 = false →
        won d (move d (init d b0) tile).2 = false := by
  have hd3 : 3 ≤ d := hd.1
  have h00 : init d b0 0 0 = (d : Int) * d - 1 := by
    have := init_cell d hd3 b0 0 0 (by omega) (by omega)
    rw [if_neg (by omega), if_neg (by omega)] at this
    simpa using this
  have hnw : won d (init d b0) = false := by
    cases hw : won d (init d b0) with
    | false => rfl
    | true =>
      rw [won_iff_cells] at hw
      have h := hw 0 (by omega) 0 (by omega)
      have h9 : (3 : Int) * 3 ≤ (d : Int) * d :=
        Int.mul_le_mul (by omega) (by omega) (by omega) (by omega)
      simp only [Nat.cast_zero, zero_mul, zero_add] at h
      rw [h00] at h
      omega
  refine ⟨hnw, h00, ?_⟩
  intro tile hf
  rw [move_false_eq d _ tile hf]
  exact hnw

theorem init_not_won_witness :
    (DIM_MIN ≤ 4 ∧ 4 ≤ DIM_MAX) ∧
      (won 4 (init 4 (fun _ _ => 7)) = false ∧
        init 4 (fun _ _ => 7) 0 0 = ((4 : Nat) : Int) * (4 : Nat) - 1 ∧
        ∀ tile : Int, (move 4 (init 4 (fun _ _ => 7)) tile).1 = false →
          won 4 (move 4 (init 4 (fun _ _ => 7)) tile).2 = false) :=
  ⟨by decide, init_not_won 4 (by decide) (fun _ _ => 7)⟩

/-! ## Only the grid matters -/

/-- C16: for `3 <= d <= 9`, every tile and every two storages that agree on all
cells `(i, j)` with `0 <= i, j < d`: `move` returns the same boolean on both and
the resulting storages again agree on those cells, `won` returns the same
boolean on both, and `move` leaves every cell outside the grid unchanged. -/
theorem move_won_depend_on_grid (d : Nat) (hd : DIM_MIN ≤ d ∧ d ≤ DIM_MAX) (b b1 : Board)
    (h : SameGrid d b b1) (tile : Int) :
    (move d b tile).1 = (move d b1 tile).1 ∧
      SameGrid d (move d b tile).2 (move d b1 tile).2 ∧
      won d b = won d b1 ∧
      ∀ i j : Int, ¬ (0 ≤ i ∧ i < (d : Int) ∧ 0 ≤ j ∧ j < (d : Int)) →
        (move d b tile).2 i j = b i j := by
  have hd0 : 0 < d := by
    have : 3 ≤ d := hd.1
    omega
  refine ⟨?_, ?_, won_congr d b b1 h, ?_⟩
  · rcases move_pair d hd0 b b1 h tile with ⟨k, k1⟩ | ⟨r, _, c, _, r1, _, c1, _, k, k1⟩
    · rw [k, k1]
    · rw [k, k1]
  · rcases move_pair d hd0 b b1 h tile with ⟨k, k1⟩ | ⟨r, hr, c, hc, r1, hr1, c1, hc1, k, k1⟩
    · rw [k, k1]
      exact h
    · rw [k, k1]
      intro i hi j hj
      simp only [Board.set]
      by_cases e1 : (i : Int) = r ∧ (j : Int) = c
      · rw [if_pos e1, if_pos e1]
      · rw [if_neg e1, if_neg e1]
        by_cases e2 : (i : Int) = r1 ∧ (j : Int) = c1
        · rw [if_pos e2, if_pos e2]
          exact h r hr c hc
        · rw [if_neg e2, if_neg e2]
          exact h i hi j hj
  · intro i j hout
    rcases move_shape d hd0 b tile with k | ⟨r, hr, c, hc, r1, hr1, c1, hc1, _, _, _, _, k⟩
    · rw [k]
    · rw [k]
      simp only [Board.set]
      rw [if_neg (by omega), if_neg (by omega)]

theorem move_won_depend_on_grid_witness :
    (DIM_MIN ≤ 3 ∧ 3 ≤ DIM_MAX) ∧
      SameGrid 3 (ofRows [[1, 2, 3, 0], [4, 0, 6, 0], [7, 8, 5, 0], [0, 0, 0, 0]])
        (ofRows [[1, 2, 3], [4, 0, 6], [7, 8, 5]]) ∧
      ((move 3 (ofRows [[1, 2, 3, 0], [4, 0, 6, 0], [7, 8, 5, 0], [0, 0, 0, 0]]) 3).1
          = (move 3 (ofRows [[1, 2, 3], [4, 0, 6], [7, 8, 5]]) 3).1 ∧
        SameGrid 3 (move 3 (ofRows [[1, 2, 3, 0], [4, 0, 6, 0], [7, 8, 5, 0], [0, 0, 0, 0]]) 3).2
          (move 3 (ofRows [[1, 2, 3], [4, 0, 6], [7, 8, 5]]) 3).2 ∧
        won 3 (ofRows [[1, 2, 3, 0], [4, 0, 6, 0], [7, 8, 5, 0], [0, 0, 0, 0]])
          = won 3 (ofRows [[1, 2, 3], [4, 0, 6], [7, 8, 5]]) ∧
        ∀ i j : Int, ¬ (0 ≤ i ∧ i < ((3 : Nat) : Int) ∧ 0 ≤ j ∧ j < ((3 : Nat) : Int)) →
          (move 3 (ofRows [[1, 2, 3, 0], [4, 0, 6, 0], [7, 8, 5, 0], [0, 0, 0, 0]]) 3).2 i j
            = ofRows [[1, 2, 3, 0], [4, 0, 6, 0], [7, 8, 5, 0], [0, 0, 0, 0]] i j) :=
  ⟨by decide, by decide,
    move_won_depend_on_grid 3 (by decide)
      (ofRows [[1, 2, 3, 0], [4, 0, 6, 0], [7, 8, 5, 0], [0, 0, 0, 0]])
      (ofRows [[1, 2, 3], [4, 0, 6], [7, 8, 5]]) (by decide) 3⟩

/-! ## Array accesses -/

/-- C13 (fails on the code): the claim is that every element `move` reads or
writes has both indices in `[0, DIM_MAX)`. On the board written by `init` for
`d = 3`, `move 8` locates tile 8 at `(0, 0)` and evaluates
`board[row - 1][column] == 0 && row - 1 >= 0`, reading `board[-1][0]` before
the bound is tested, and later `board[0][-1]` in the same way. -/
theorem move_reads_outside_storage :
    Valid 3 (init 3 (fun _ _ => 0)) ∧
      toRows 3 (init 3 (fun _ _ => 0)) = [[8, 7, 6], [5, 4, 3], [2, 1, 0]] ∧
      findTile 3 (init 3 (fun _ _ => 0)) 8 = (0, 0) ∧
      (moveTraced 3 (init 3 (fun _ _ => 0)) 8).2
        = [(0, 0), (0, 1), (0, 2), (1, 0), (1, 1), (1, 2), (2, 0), (2, 1), (2, 2),
            (-1, 0), (1, 0), (0, -1), (0, 1)] ∧
      (moveTraced 3 (init 3 (fun _ _ => 0)) 8).1.1 = false ∧
      ¬ InStorage (-1, 0) ∧ ¬ InStorage (0, -1) ∧
      ¬ ∀ p ∈ (moveTraced 3 (init 3 (fun _ _ => 0)) 8).2, InStorage p := by
  decide

/-! ## Order of the directional tests -/

/-- C14: for `3 <= d <= 9`, on a board whose grid holds each of `0 .. d*d-1`
exactly once and for every tile, at most one of the four directional
conditions of `move` holds at the located cell, and a variant of `move` that
tests the four directions in any other order returns the same boolean and the
same storage as `move`. -/
theorem move_order_irrelevant (d : Nat) (hd : DIM_MIN ≤ d ∧ d ≤ DIM_MAX) (b : Board)
    (hv : Valid d b) (tile : Int) :
    (∀ x y : Dir, dirCond d b (findTile d b tile).1 (findTile d b tile).2 x →
        dirCond d b (findTile d b tile).1 (findTile d b tile).2 y → x = y) ∧
      ∀ order : List Dir, order.Perm [Dir.above, Dir.below, Dir.left, Dir.right] →
        moveOrder d b tile order = move d b tile := by
  have hd0 : 0 < d := by
    have : 3 ≤ d := hd.1
    omega
  obtain ⟨r, hr, c, hc, hf⟩ := findTile_range d hd0 b tile
  rw [hf]
  dsimp only
  have huniq := dirCond_unique d b hv r c hr hc
  refine ⟨huniq, ?_⟩
  intro order hperm
  rw [← moveOrder_source d b tile]
  unfold moveOrder
  by_cases hrange : tile > (d : Int) * d - 1 ∨ tile < 1
  · rw [if_pos hrange, if_pos hrange]
  rw [if_neg hrange, if_neg hrange, hf]
  dsimp only
  have hall : ∀ x : Dir, x ∈ [Dir.above, Dir.below, Dir.left, Dir.right] := by
    intro x
    cases x <;> simp
  by_cases hex : ∃ x : Dir, dirCond d b r c x
  · obtain ⟨x, hx⟩ := hex
    have hu : ∀ y : Dir, dirCond d b r c y → y = x := fun y hy => huniq y x hy hx
    rw [tryDirs_of_mem d b r c x hx hu order (hperm.mem_iff.mpr (hall x)),
      tryDirs_of_mem d b r c x hx hu _ (hall x)]
  · have hn : ∀ y : Dir, ¬ dirCond d b r c y := fun y hy => hex ⟨y, hy⟩
    rw [tryDirs_none d b r c hn, tryDirs_none d b r c hn]

theorem move_order_irrelevant_witness :
    (DIM_MIN ≤ 3 ∧ 3 ≤ DIM_MAX) ∧ Valid 3 (ofRows [[1, 2, 3], [4, 0, 6], [7, 8, 5]]) ∧
      toRows 3 (moveOrder 3 (ofRows [[1, 2, 3], [4, 0, 6], [7, 8, 5]]) 6
          [Dir.right, Dir.left, Dir.below, Dir.above]).2
        = [[1, 2, 3], [4, 6, 0], [7, 8, 5]] ∧
      ((∀ x y : Dir,
          dirCond 3 (ofRows [[1, 2, 3], [4, 0, 6], [7, 8, 5]])
              (findTile 3 (ofRows [[1, 2, 3], [4, 0, 6], [7, 8, 5]]) 6).1
              (findTile 3 (ofRows [[1, 2, 3], [4, 0, 6], [7, 8, 5]]) 6).2 x →
            dirCond 3 (ofRows [[1, 2, 3], [4, 0, 6], [7, 8, 5]])
              (findTile 3 (ofRows [[1, 2, 3], [4, 0, 6], [7, 8, 5]]) 6).1
              (findTile 3 (ofRows [[1, 2, 3], [4, 0, 6], [7, 8, 5]]) 6).2 y → x = y) ∧
        ∀ order : List Dir, order.Perm [Dir.above, Dir.below, Dir.left, Dir.right] →
          moveOrder 3 (ofRows [[1, 2, 3], [4, 0, 6], [7, 8, 5]]) 6 order
            = move 3 (ofRows [[1, 2, 3], [4, 0, 6], [7, 8, 5]]) 6) :=
  ⟨by decide, by decide, by decide,
    move_order_irrelevant 3 (by decide) (ofRows [[1, 2, 3], [4, 0, 6], [7, 8, 5]])
      (by decide) 6⟩

/-! ## The number of legal moves -/

/-- C18: for `3 <= d <= 9`, on a board whose grid holds each of `0 .. d*d-1`
exactly once, with the empty cell at `(r0, c0)`: the number of tile labels `t`
in `[1, d*d-1]` for which `move t` returns `true` is the number of in-grid
orthogonal neighbours of the empty cell, that is 2 in a corner, 3 on an edge
outside the corners and 4 elsewhere; a legal move always exists; on the board
written by `init` exactly two tiles can be moved. -/
theorem legal_move_count (d : Nat) (hd : DIM_MIN ≤ d ∧ d ≤ DIM_MAX) (b : Board)
    (hv : Valid d b) (r0 c0 : Nat) (hr0 : r0 < d) (hc0 : c0 < d) (hz : b r0 c0 = 0) :
    (movableTiles d b).length = (neighbours d r0 c0).length ∧
      (movableTiles d b).length
        = (if (r0 = 0 ∨ r0 = d - 1) ∧ (c0 = 0 ∨ c0 = d - 1) then 2
           else if (r0 = 0 ∨ r0 = d - 1) ∨ (c0 = 0 ∨ c0 = d - 1) then 3 else 4) ∧
      (∃ t : Int, (move d b t).1 = true) ∧
      ∀ b0 : Board, (movableTiles d (init d b0)).length = 2 := by
  have hd3 : 3 ≤ d := hd.1
  have hcount := movable_count d b hv r0 c0 hr0 hc0 hz
  have hlen := length_neighbours d r0 c0 hd3 hr0 hc0
  refine ⟨hcount, ?_, ?_, ?_⟩
  · rw [hcount, hlen]
    split_ifs <;> omega
  · have hpos : 0 < (movableTiles d b).length := by
      rw [hcount, hlen]
      split_ifs <;> omega
    obtain ⟨t, ht⟩ := List.exists_mem_of_length_pos hpos
    unfold movableTiles at ht
    simp only [List.mem_filter, Bool.and_eq_true] at ht
    exact ⟨(t : Int), ht.2.2⟩
  · intro b0
    rw [movable_count d (init d b0) (init_valid d hd.1 hd.2 b0) (d - 1) (d - 1) (by omega)
      (by omega) (init_last d hd3 b0), length_neighbours d (d - 1) (d - 1) hd3 (by omega) (by omega)]
    rw [if_pos (Or.inr rfl)]

theorem legal_move_count_witness :
    (DIM_MIN ≤ 3 ∧ 3 ≤ DIM_MAX) ∧ Valid 3 (ofRows [[1, 2, 3], [4, 0, 6], [7, 8, 5]]) ∧
      movableTiles 3 (ofRows [[1, 2, 3], [4, 0, 6], [7, 8, 5]]) = [2, 4, 6, 8] ∧
      movableTiles 3 (init 3 (fun _ _ => 0)) = [1, 3] ∧
      ((movableTiles 3 (ofRows [[1, 2, 3], [4, 0, 6], [7, 8, 5]])).length
          = (neighbours 3 1 1).length ∧
        (movableTiles 3 (ofRows [[1, 2, 3], [4, 0, 6], [7, 8, 5]])).length
          = (if (1 = 0 ∨ 1 = 3 - 1) ∧ (1 = 0 ∨ 1 = 3 - 1) then 2
             else if (1 = 0 ∨ 1 = 3 - 1) ∨ (1 = 0 ∨ 1 = 3 - 1) then 3 else 4) ∧
        (∃ t : Int, (move 3 (ofRows [[1, 2, 3], [4, 0, 6], [7, 8, 5]]) t).1 = true) ∧
        ∀ b0 : Board, (movableTiles 3 (init 3 b0)).length = 2) :=
  ⟨by decide, by decide, by decide, by decide,
    legal_move_count 3 (by decide) (ofRows [[1, 2, 3], [4, 0, 6], [7, 8, 5]]) (by decide) 1 1
      (by decide) (by decide) (by decide)⟩

/-! ## Necessity of the parity fix-up -/

/-- C17: for even `d` with `3 <= d <= 9` (4, 6 and 8), starting from a storage
whose grid is the purely descending layout `d*d-1, ..., 2, 1, 0` (what the
fill loops of `init` write, without the exchange of 1 and 2), no finite
sequence of calls of `move` reaches a board on which `won` returns `true`. -/
theorem descending_never_won (d : Nat) (hd : DIM_MIN ≤ d ∧ d ≤ DIM_MAX) (he : d % 2 = 0)
    (b : Board)
    (hb : ∀ i : Nat, i < d → ∀ j : Nat, j < d →
      b i j = (d : Int) * d - 1 - ((i : Int) * d + j))
    (tiles : List Int) :
    won d (play d b tiles) = false := by
  obtain ⟨s, hs, hsi⟩ := descending_init_parity d hd.1 he b (fun _ _ => 0) hb
  obtain ⟨sol, hsol⟩ := exists_solution d hd.1 hd.2 (fun _ _ => 0)
  exact opposite_parity_not_both_won d b (init d (fun _ _ => 0)) s hs hsi tiles sol hsol

theorem descending_never_won_witness :
    (DIM_MIN ≤ 4 ∧ 4 ≤ DIM_MAX) ∧
      toRows 4 (initFill 4 (fun _ _ => 0)).1
        = [[15, 14, 13, 12], [11, 10, 9, 8], [7, 6, 5, 4], [3, 2, 1, 0]] ∧
      toRows 4 (play 4 (initFill 4 (fun _ _ => 0)).1 [1, 2, 3, 7, 99, 6])
        = [[15, 14, 13, 12], [11, 10, 9, 8], [6, 0, 5, 4], [7, 3, 2, 1]] ∧
      won 4 (play 4 (initFill 4 (fun _ _ => 0)).1 [1, 2, 3, 7, 99, 6]) = false :=
  ⟨by decide, by decide, by decide,
    descending_never_won 4 (by decide) (by decide) (initFill 4 (fun _ _ => 0)).1 (by decide)
      [1, 2, 3, 7, 99, 6]⟩

end Fifteen
